import Mathlib

/-!
Verification of the relaxed-parsing / content-normalization pipeline of
`backend/app/services/minutes_service.py` (meeting-minutes service).

The Python source is shallowly embedded: every definition below mirrors one
Python function (or one contiguous block of `generate_minutes_with_ai`).
Python strings are modelled as `List Char` at the core, with `String`
wrappers; Python regular-expression substitutions and searches are compiled
by hand into equivalent deterministic scanners over `List Char`.
-/

namespace Minutes

/-- Python whitespace for `str.strip` and for `\s` in the regexes used by the
service (space, tab, newline, carriage return, form feed, vertical tab). -/
def isPyWs (c : Char) : Bool :=
  c = ' ' || c = '\t' || c = '\n' || c = '\x0d' || c = '\x0c' || c = '\x0b'

/-- The apostrophe / single-quote character (written via its code point). -/
def sq : Char := Char.ofNat 39

/-- The backslash character. -/
def bs : Char := Char.ofNat 92

/-- The backtick character. -/
def bt : Char := Char.ofNat 96

/-- Python `str.lstrip()` on a char list. -/
def pyLStrip (l : List Char) : List Char := l.dropWhile isPyWs

/-- Python `str.rstrip()` on a char list. -/
def pyRStrip (l : List Char) : List Char := (l.reverse.dropWhile isPyWs).reverse

/-- Python `str.strip()` on a char list. -/
def pyStripL (l : List Char) : List Char := pyRStrip (pyLStrip l)

/-- Python `str.strip()` on a string. -/
def pyStrip (s : String) : String := String.mk (pyStripL s.toList)

/-- Python `str.lower()` restricted to the alphabets that occur in the
service: ASCII, Latin-1 uppercase letters (`À`–`Þ`, excluding `×`), the
Latin Extended-A/B range and the Latin Extended Additional range used by
Vietnamese (uppercase code points are even and map to the following odd
code point). -/
def pyLowerChar (c : Char) : Char :=
  if 65 ≤ c.toNat ∧ c.toNat ≤ 90 then Char.ofNat (c.toNat + 32)
  else if 0xC0 ≤ c.toNat ∧ c.toNat ≤ 0xDE ∧ c.toNat ≠ 0xD7 then Char.ofNat (c.toNat + 32)
  else if 0x100 ≤ c.toNat ∧ c.toNat ≤ 0x137 ∧ c.toNat % 2 = 0 then Char.ofNat (c.toNat + 1)
  else if 0x14A ≤ c.toNat ∧ c.toNat ≤ 0x177 ∧ c.toNat % 2 = 0 then Char.ofNat (c.toNat + 1)
  else if 0x1E00 ≤ c.toNat ∧ c.toNat ≤ 0x1EFF ∧ c.toNat % 2 = 0 then Char.ofNat (c.toNat + 1)
  else c

/-- Python `str.lower()` on a char list (see `pyLowerChar`). -/
def pyLowerL (l : List Char) : List Char := l.map pyLowerChar

/-- Python `str.lower()` on a string. -/
def pyLower (s : String) : String := String.mk (pyLowerL s.toList)

/-- Python `needle in haystack` (substring containment) on char lists. -/
def listContains (needle : List Char) : List Char → Bool
  | [] => needle.isEmpty
  | c :: rest => needle.isPrefixOf (c :: rest) || listContains needle rest

/-- Python `str.replace(pat, rep)`: replace every non-overlapping occurrence
of a non-empty `pat`, scanning left to right.  The scanner consumes at least
one character per step, so `fuel = l.length` always suffices; the
fuel-exhausted branch is unreachable for the wrapper below. -/
def pyReplaceCore (pat rep : List Char) : Nat → List Char → List Char
  | _, [] => []
  | 0, l => l
  | fuel + 1, c :: rest =>
    if pat ≠ [] ∧ pat.isPrefixOf (c :: rest) then
      rep ++ pyReplaceCore pat rep fuel ((c :: rest).drop pat.length)
    else
      c :: pyReplaceCore pat rep fuel rest

/-- Python `str.replace` on char lists. -/
def pyReplaceL (pat rep : List Char) (l : List Char) : List Char :=
  pyReplaceCore pat rep l.length l

/-- Python `str.replace` on strings. -/
def pyReplace (s pat rep : String) : String :=
  String.mk (pyReplaceL pat.toList rep.toList s.toList)

/-- `_decode_jsonish_text` (minutes_service.py lines 65–74): a chain of
sequential `str.replace` calls followed by `str.strip()`.  Note the source
replaces `\t` by a *space* and also unescapes `\'`. -/
def decodeJsonishText (value : String) : String :=
  pyStrip
    (pyReplace
      (pyReplace
        (pyReplace
          (pyReplace
            (pyReplace value (String.mk [bs, '"']) "\"")
            (String.mk [bs, sq]) (String.mk [sq]))
          (String.mk [bs, 'n']) "\n")
        (String.mk [bs, 't']) " ")
      (String.mk [bs, bs]) (String.mk [bs]))

/-- Left typographic double quote `“` (U+201C). -/
def lqq : Char := Char.ofNat 0x201C

/-- Right typographic double quote `”` (U+201D). -/
def rqq : Char := Char.ofNat 0x201D

/-- Left typographic single quote `‘` (U+2018). -/
def lsq : Char := Char.ofNat 0x2018

/-- Right typographic single quote `’` (U+2019). -/
def rsq : Char := Char.ofNat 0x2019

/-- The code fence marker: three backticks. -/
def fence : List Char := [bt, bt, bt]

/-- The typographic-quote replacement chain of
`_extract_embedded_summary_payload` (lines 82–87). -/
def curlyClean (l : List Char) : List Char :=
  pyReplaceL [rsq] [sq]
    (pyReplaceL [lsq] [sq]
      (pyReplaceL [rqq] ['"']
        (pyReplaceL [lqq] ['"'] l)))

/-- Case-insensitive match of the optional fence language tag
`(?:json|text|md|markdown)?` followed by `\s*` (regex alternation order,
first match wins), applied after the leading three backticks. -/
def stripFenceTag (l : List Char) : List Char :=
  let rest :=
    if pyLowerL (l.take 4) = ['j', 's', 'o', 'n'] then l.drop 4
    else if pyLowerL (l.take 4) = ['t', 'e', 'x', 't'] then l.drop 4
    else if pyLowerL (l.take 2) = ['m', 'd'] then l.drop 2
    else if pyLowerL (l.take 8) = ['m', 'a', 'r', 'k', 'd', 'o', 'w', 'n'] then l.drop 8
    else l
  rest.dropWhile isPyWs

/-- `re.sub(r"^```(?:json|text|md|markdown)?\s*", "", cleaned, IGNORECASE)`:
only rewrites when the text begins with the fence. -/
def stripLeadingFence (l : List Char) : List Char :=
  if fence.isPrefixOf l then stripFenceTag (l.drop 3) else l

/-- `re.sub(r"\s*```$", "", cleaned)`: removes a trailing fence together with
the whitespace run immediately before it. -/
def stripTrailingFence (l : List Char) : List Char :=
  if fence.isSuffixOf l then pyRStrip (l.take (l.length - 3)) else l

/-- The Text Normalizer (minutes_service.py lines 78–91): strip, replace
typographic quotes, and — when the result starts with a code fence — strip
the leading fence (with optional language tag) and a trailing fence, then
strip again. -/
def normalizeRaw (raw : String) : String :=
  let cleaned := curlyClean (pyStripL raw.toList)
  if fence.isPrefixOf cleaned then
    String.mk (pyStripL (stripTrailingFence (stripLeadingFence cleaned)))
  else
    String.mk cleaned

/-! ### Strict JSON parsing (model of Python `json.loads`)

`json.loads` accepts the RFC 8259 grammar plus the CPython extensions
`NaN`, `Infinity` and `-Infinity`; it rejects trailing commas, single
quotes, unquoted keys and unescaped control characters.  Number lexemes are
kept as text (the service never computes with them). -/

/-- Parsed JSON value. -/
inductive JValue where
  | null
  | jbool (b : Bool)
  | jnum (lex : String)
  | jstr (s : String)
  | jarr (elems : List JValue)
  | jobj (pairs : List (String × JValue))
deriving Repr, Inhabited

/-- JSON whitespace (space, tab, newline, carriage return). -/
def isJsonWs (c : Char) : Bool :=
  c = ' ' || c = '\t' || c = '\n' || c = '\x0d'

/-- Skip JSON whitespace. -/
def skipWs (l : List Char) : List Char := l.dropWhile isJsonWs

/-- ASCII decimal digit. -/
def isDigitC (c : Char) : Bool := '0' ≤ c ∧ c ≤ '9'

/-- ASCII hex digit value. -/
def hexVal (c : Char) : Option Nat :=
  if '0' ≤ c ∧ c ≤ '9' then some (c.toNat - 48)
  else if 'a' ≤ c ∧ c ≤ 'f' then some (c.toNat - 87)
  else if 'A' ≤ c ∧ c ≤ 'F' then some (c.toNat - 55)
  else none

/-- Parse the body of a JSON string after the opening quote (fuel-based;
`fuel = l.length` suffices); returns the decoded content and the remainder
after the closing quote. -/
def parseJStringCore : Nat → List Char → Option (List Char × List Char)
  | _, [] => none
  | 0, _ => none
  | fuel + 1, c :: rest =>
    if c = '"' then some ([], rest)
    else if c = bs then
      match rest with
      | [] => none
      | e :: rest2 =>
        if e = '"' then (parseJStringCore fuel rest2).map (fun p => ('"' :: p.1, p.2))
        else if e = bs then (parseJStringCore fuel rest2).map (fun p => (bs :: p.1, p.2))
        else if e = '/' then (parseJStringCore fuel rest2).map (fun p => ('/' :: p.1, p.2))
        else if e = 'b' then (parseJStringCore fuel rest2).map (fun p => ('\x08' :: p.1, p.2))
        else if e = 'f' then (parseJStringCore fuel rest2).map (fun p => ('\x0c' :: p.1, p.2))
        else if e = 'n' then (parseJStringCore fuel rest2).map (fun p => ('\n' :: p.1, p.2))
        else if e = 'r' then (parseJStringCore fuel rest2).map (fun p => ('\x0d' :: p.1, p.2))
        else if e = 't' then (parseJStringCore fuel rest2).map (fun p => ('\t' :: p.1, p.2))
        else if e = 'u' then
          match rest2 with
          | h1 :: h2 :: h3 :: h4 :: rest3 =>
            match hexVal h1, hexVal h2, hexVal h3, hexVal h4 with
            | some v1, some v2, some v3, some v4 =>
              (parseJStringCore fuel rest3).map
                (fun p => (Char.ofNat (((v1 * 16 + v2) * 16 + v3) * 16 + v4) :: p.1, p.2))
            | _, _, _, _ => none
          | _ => none
        else none
    else if c.toNat < 0x20 then none
    else (parseJStringCore fuel rest).map (fun p => (c :: p.1, p.2))

/-- JSON string body with the canonical fuel. -/
def parseJString (l : List Char) : Option (List Char × List Char) :=
  parseJStringCore l.length l

/-- Parse a JSON number lexeme (`-?(0|[1-9][0-9]*)(\.[0-9]+)?([eE][+-]?[0-9]+)?`).
Returns the lexeme and the remainder. -/
def parseJNumber (l : List Char) : Option (List Char × List Char) :=
  let (negPart, l1) :=
    match l with
    | '-' :: rest => (['-'], rest)
    | _ => (([] : List Char), l)
  match l1 with
  | '0' :: rest => afterInt negPart ['0'] rest
  | c :: rest =>
    if isDigitC c ∧ c ≠ '0' then
      let digits := rest.takeWhile isDigitC
      afterInt negPart (c :: digits) (rest.drop digits.length)
    else none
  | [] => none
where
  afterInt (neg intPart : List Char) (rest : List Char) :
      Option (List Char × List Char) :=
    let (fracPart, rest1) :=
      match rest with
      | '.' :: r =>
        let ds := r.takeWhile isDigitC
        if ds = [] then (none, rest) else (some ('.' :: ds), r.drop ds.length)
      | _ => (none, rest)
    match fracPart with
    | none =>
      (afterFrac (neg ++ intPart) rest).map id
    | some fp =>
      (afterFrac (neg ++ intPart ++ fp) rest1).map id
  afterFrac (lex : List Char) (rest : List Char) :
      Option (List Char × List Char) :=
    match rest with
    | c :: r =>
      if c = 'e' ∨ c = 'E' then
        let (sgn, r1) :=
          match r with
          | s :: r2 => if s = '+' ∨ s = '-' then ([s], r2) else (([] : List Char), r)
          | [] => (([] : List Char), r)
        let ds := r1.takeWhile isDigitC
        if ds = [] then some (lex, rest)
        else some (lex ++ c :: sgn ++ ds, r1.drop ds.length)
      else some (lex, rest)
    | [] => some (lex, rest)

mutual

/-- Parse one JSON value at the head of the input (no leading whitespace). -/
def parseJValue : Nat → List Char → Option (JValue × List Char)
  | 0, _ => none
  | fuel + 1, l =>
    match l with
    | [] => none
    | '{' :: rest =>
      (parseJMembers fuel (skipWs rest) true).map (fun p => (JValue.jobj p.1, p.2))
    | '[' :: rest =>
      (parseJElems fuel (skipWs rest) true).map (fun p => (JValue.jarr p.1, p.2))
    | '"' :: rest =>
      (parseJString rest).map (fun p => (JValue.jstr (String.mk p.1), p.2))
    | c :: _ =>
      if c = 't' ∧ ['t', 'r', 'u', 'e'].isPrefixOf l then
        some (JValue.jbool true, l.drop 4)
      else if c = 'f' ∧ ['f', 'a', 'l', 's', 'e'].isPrefixOf l then
        some (JValue.jbool false, l.drop 5)
      else if c = 'n' ∧ ['n', 'u', 'l', 'l'].isPrefixOf l then
        some (JValue.null, l.drop 4)
      else if c = 'N' ∧ ['N', 'a', 'N'].isPrefixOf l then
        some (JValue.jnum "NaN", l.drop 3)
      else if c = 'I' ∧ ['I', 'n', 'f', 'i', 'n', 'i', 't', 'y'].isPrefixOf l then
        some (JValue.jnum "Infinity", l.drop 8)
      else if c = '-' ∧ ['-', 'I', 'n', 'f', 'i', 'n', 'i', 't', 'y'].isPrefixOf l then
        some (JValue.jnum "-Infinity", l.drop 9)
      else
        (parseJNumber l).map (fun p => (JValue.jnum (String.mk p.1), p.2))

/-- Parse array elements after `[` (whitespace already skipped); `first` is
true before the first element. -/
def parseJElems : Nat → List Char → Bool → Option (List JValue × List Char)
  | 0, _, _ => none
  | fuel + 1, l, first =>
    match l with
    | ']' :: rest => if first then some ([], rest) else none
    | _ =>
      match parseJValue fuel l with
      | none => none
      | some (v, r) =>
        match skipWs r with
        | ',' :: r2 =>
          (parseJElemsMore fuel (skipWs r2)).map (fun p => (v :: p.1, p.2))
        | ']' :: r2 => some ([v], r2)
        | _ => none

/-- Elements after a comma (a value is mandatory: no trailing commas). -/
def parseJElemsMore : Nat → List Char → Option (List JValue × List Char)
  | 0, _ => none
  | fuel + 1, l =>
    match parseJValue fuel l with
    | none => none
    | some (v, r) =>
      match skipWs r with
      | ',' :: r2 =>
        (parseJElemsMore fuel (skipWs r2)).map (fun p => (v :: p.1, p.2))
      | ']' :: r2 => some ([v], r2)
      | _ => none

/-- Parse object members after `{` (whitespace already skipped); `first` is
true before the first member. -/
def parseJMembers : Nat → List Char → Bool → Option (List (String × JValue) × List Char)
  | 0, _, _ => none
  | fuel + 1, l, first =>
    match l with
    | '}' :: rest => if first then some ([], rest) else none
    | '"' :: rest =>
      match parseJString rest with
      | none => none
      | some (key, r1) =>
        match skipWs r1 with
        | ':' :: r2 =>
          match parseJValue fuel (skipWs r2) with
          | none => none
          | some (v, r3) =>
            match skipWs r3 with
            | ',' :: r4 =>
              (parseJMembers fuel (skipWs r4) false).map
                (fun p => ((String.mk key, v) :: p.1, p.2))
            | '}' :: r4 => some ([(String.mk key, v)], r4)
            | _ => none
        | _ => none
    | _ => none

end

/-- `json.loads`: the whole input must be one value surrounded only by
whitespace. -/
def jsonLoads (s : String) : Option JValue :=
  let l := skipWs s.toList
  match parseJValue (l.length + 1) l with
  | none => none
  | some (v, rest) => if skipWs rest = [] then some v else none

/-- Python `dict.get` on the pairs of a parsed object: with duplicate keys,
the last occurrence wins (as in a Python `dict` built by `json.loads`). -/
def jGet (pairs : List (String × JValue)) (k : String) : Option JValue :=
  pairs.foldl (fun acc p => if p.1 = k then some p.2 else acc) none

/-! ### The relaxed-parsing regex substitutions (lines 100–111)

Each Python `re.sub` is compiled to a left-to-right scanner that rewrites
every non-overlapping match and resumes scanning after the replacement,
exactly as `re.sub` does. -/

/-- `re.sub(r",\s*([}\]])", r"\1", s)`: drop a comma standing (up to
whitespace) before a closing brace or bracket (fuel-based scanner;
`fuel = l.length` suffices). -/
def removeTrailingCommasCore : Nat → List Char → List Char
  | _, [] => []
  | 0, l => l
  | fuel + 1, c :: rest =>
    if c = ',' then
      match rest.drop (rest.takeWhile isPyWs).length with
      | b :: rest2 =>
        if b = '}' ∨ b = ']' then b :: removeTrailingCommasCore fuel rest2
        else c :: removeTrailingCommasCore fuel rest
      | [] => c :: removeTrailingCommasCore fuel rest
    else c :: removeTrailingCommasCore fuel rest

/-- The trailing-comma substitution with the canonical fuel. -/
def removeTrailingCommas (l : List Char) : List Char :=
  removeTrailingCommasCore l.length l

/-- `[A-Za-z_]`: the first character of a bare identifier key. -/
def isIdentStart (c : Char) : Bool :=
  ('A' ≤ c ∧ c ≤ 'Z') ∨ ('a' ≤ c ∧ c ≤ 'z') ∨ c = '_'

/-- `[A-Za-z0-9_-]`: a later character of a bare identifier key. -/
def isIdentChar (c : Char) : Bool :=
  isIdentStart c ∨ isDigitC c ∨ c = '-'

/-- `re.sub(r'([{,]\s*)([A-Za-z_][A-Za-z0-9_-]*)\s*:', r'\1"\2":', s)`:
wrap bare identifier keys (after `{` or `,`) in double quotes.  Note the
whitespace between identifier and colon is consumed and not re-emitted, as
in the replacement template. -/
def quoteKeysCore : Nat → List Char → List Char
  | _, [] => []
  | 0, l => l
  | fuel + 1, c :: rest =>
    if c = '{' ∨ c = ',' then
      let ws := rest.takeWhile isPyWs
      match rest.drop ws.length with
      | i :: r2 =>
        if isIdentStart i then
          let identRest := r2.takeWhile isIdentChar
          let r3 := r2.drop identRest.length
          match r3.drop (r3.takeWhile isPyWs).length with
          | ':' :: r5 =>
            c :: (ws ++ '"' :: i :: identRest ++ '"' :: ':' :: quoteKeysCore fuel r5)
          | _ => c :: quoteKeysCore fuel rest
        else c :: quoteKeysCore fuel rest
      | [] => c :: quoteKeysCore fuel rest
    else c :: quoteKeysCore fuel rest

/-- The key-quoting substitution with the canonical fuel. -/
def quoteKeys (l : List Char) : List Char :=
  quoteKeysCore l.length l

/-- Body of the single-quoted-literal regex `'([^'\\]*(?:\\.[^'\\]*)*)'`
after the opening quote: returns the raw group content (escape sequences
kept verbatim) and the remainder after the closing quote.  A backslash must
be followed by a non-newline character (`.` without DOTALL).  Fuel-based;
`fuel = l.length` suffices. -/
def quotedGroupCore (qc : Char) : Nat → List Char → Option (List Char × List Char)
  | _, [] => none
  | 0, _ => none
  | fuel + 1, c :: rest =>
    if c = qc then some ([], rest)
    else if c = bs then
      match rest with
      | [] => none
      | e :: rest2 =>
        if e = '\n' then none
        else (quotedGroupCore qc fuel rest2).map (fun p => (bs :: e :: p.1, p.2))
    else (quotedGroupCore qc fuel rest).map (fun p => (c :: p.1, p.2))

/-- The quoted-group body with the canonical fuel.  The same group grammar
occurs with `'` in the single-to-double substitution and with either quote
in the key-points item regex `"((?:\\.|[^"\\])*)"|'((?:\\.|[^'\\])*)'`. -/
def quotedGroup (qc : Char) (l : List Char) : Option (List Char × List Char) :=
  quotedGroupCore qc l.length l

/-- The single-quoted-group body with the canonical fuel. -/
def s2dContent (l : List Char) : Option (List Char × List Char) :=
  quotedGroup sq l

/-- Escape internal double quotes: `group.replace('"', '\\"')`. -/
def escDq (l : List Char) : List Char := pyReplaceL ['"'] [bs, '"'] l

/-- `re.sub(r"'([^'\\]*(?:\\.[^'\\]*)*)'", '"' + group.replace('"','\\"') + '"', s)`:
convert single-quoted string literals to double-quoted ones (fuel-based
scanner; `fuel = l.length` suffices because the rewritten remainder is a
strict suffix of the input). -/
def singleToDoubleCore : Nat → List Char → List Char
  | _, [] => []
  | 0, l => l
  | fuel + 1, c :: rest =>
    if c = sq then
      match s2dContent rest with
      | some p => '"' :: (escDq p.1 ++ '"' :: singleToDoubleCore fuel p.2)
      | none => c :: singleToDoubleCore fuel rest
    else c :: singleToDoubleCore fuel rest

/-- The single-to-double-quote substitution with the canonical fuel. -/
def singleToDouble (l : List Char) : List Char :=
  singleToDoubleCore l.length l

/-! ### `_extract_embedded_summary_payload`: JSON phase (lines 93–151) -/

/-- Python `repr` of a string, as used by `str()` on containers.  Best-effort
model: single-quoted unless the text contains a single quote and no double
quote; escapes backslash, the quote character, newline, carriage return and
tab.  (Only reachable when a key-points array contains nested containers,
which no claim exercises.) -/
def pyReprStr (s : String) : String :=
  let l := s.toList
  let useDq : Bool := l.contains sq && !(l.contains '"')
  let q : Char := if useDq then '"' else sq
  let esc := l.foldr
    (fun c acc =>
      if c = bs then bs :: bs :: acc
      else if c = q then bs :: q :: acc
      else if c = '\n' then bs :: 'n' :: acc
      else if c = '\x0d' then bs :: 'r' :: acc
      else if c = '\t' then bs :: 't' :: acc
      else c :: acc)
    ([] : List Char)
  String.mk (q :: esc ++ [q])

/-- Python `repr()` of a decoded JSON value. -/
def pyReprJ : JValue → String
  | JValue.jstr s => pyReprStr s
  | JValue.jnum lex => lex
  | JValue.null => "None"
  | JValue.jbool true => "True"
  | JValue.jbool false => "False"
  | JValue.jarr l =>
    "[" ++ String.intercalate ", " (l.attach.map (fun x => pyReprJ x.1)) ++ "]"
  | JValue.jobj l =>
    "\x7b" ++ String.intercalate ", "
      (l.attach.map (fun x => pyReprStr x.1.1 ++ ": " ++ pyReprJ x.1.2)) ++ "\x7d"
termination_by v => sizeOf v
decreasing_by
  · have h := List.sizeOf_lt_of_mem x.2
    simp_all
    omega
  · have h := List.sizeOf_lt_of_mem x.2
    obtain ⟨⟨a, b⟩, hm⟩ := x
    simp_all
    omega

/-- Python `str()` on a decoded JSON value (`str(item)` in the key-points
list comprehension).  Scalars are exact (`None`, `True`, `False`, the text
of a string); numbers are represented by their lexeme (exact for integers);
containers use `repr` formatting.  Only the string branch is exercised by
the claims (key-points arrays of strings); `pyStrJ (JValue.jstr s) = s`
holds definitionally. -/
def pyStrJ (v : JValue) : String :=
  match v with
  | JValue.jstr s => s
  | v => pyReprJ v

/-- `SUMMARY_FIELD_KEYS` (lines 48–53). -/
def summaryFieldKeys : List String :=
  ["summary", "executive_summary", "overview", "meeting_summary"]

/-- `KEY_POINTS_FIELD_KEYS` (lines 55–62). -/
def keyPointsFieldKeys : List String :=
  ["key_points", "keypoints", "highlights", "main_points", "takeaways", "bullet_points"]

/-- The summary-key loop (lines 120–125): first key whose value is a string
with non-blank content; the stripped value is taken. -/
def firstStrKey (pairs : List (String × JValue)) (keys : List String) : Option String :=
  keys.findSome? (fun k =>
    match jGet pairs k with
    | some (JValue.jstr s) => if pyStrip s ≠ "" then some (pyStrip s) else none
    | _ => none)

/-- Summary lookup with one level of nesting under `"data"`
(lines 120–133). -/
def summaryOfPairs (pairs : List (String × JValue)) : String :=
  match firstStrKey pairs summaryFieldKeys with
  | some s => s
  | none =>
    match jGet pairs "data" with
    | some (JValue.jobj nested) => (firstStrKey nested summaryFieldKeys).getD ""
    | _ => ""

/-- `[str(item).strip() for item in value if str(item).strip()]`. -/
def kpCleanList (l : List JValue) : List String :=
  l.filterMap (fun v =>
    let s := pyStrip (pyStrJ v)
    if s = "" then none else some s)

/-- The key-points-key loop (lines 135–140): the first key whose value is a
list wins (even when the cleaned list comes out empty). -/
def firstArrKey (pairs : List (String × JValue)) : Option (List JValue) :=
  keyPointsFieldKeys.findSome? (fun k =>
    match jGet pairs k with
    | some (JValue.jarr l) => some l
    | _ => none)

/-- Key-points lookup with one level of nesting under `"data"`, consulted
when the top-level cleaned list is empty (lines 135–148). -/
def keyPointsOfPairs (pairs : List (String × JValue)) : List String :=
  let top :=
    match firstArrKey pairs with
    | some l => kpCleanList l
    | none => []
  if top ≠ [] then top
  else
    match jGet pairs "data" with
    | some (JValue.jobj nested) =>
      match firstArrKey nested with
      | some l => kpCleanList l
      | none => []
    | _ => []

/-- Candidate substrings (lines 93–97): the cleaned text and, when a `{`
appears strictly before a later `}`, the slice from the first `{` to the
last `}` inclusive. -/
def candidatesOf (cleaned : List Char) : List (List Char) :=
  let tail :=
    match cleaned.findIdx? (fun c => c = '{'), cleaned.reverse.findIdx? (fun c => c = '}') with
    | some s, some jr =>
      let e := cleaned.length - 1 - jr
      if s < e then [(cleaned.drop s).take (e + 1 - s)] else []
    | _, _ => []
  cleaned :: tail

/-- Candidate variants (lines 100–111): the candidate unchanged, the
trailing-comma removal of the candidate, the key-quoting of the candidate
(not of the previous variant), and the single-to-double conversion of the
key-quoted candidate. -/
def candidateVariants (candidate : List Char) : List (List Char) :=
  let quotedKeys := quoteKeys candidate
  [candidate, removeTrailingCommas candidate, quotedKeys, singleToDouble quotedKeys]

/-- Strict parse of one variant, keeping only object-shaped results
(lines 112–118). -/
def parseObjVariant (variant : List Char) : Option (List (String × JValue)) :=
  match jsonLoads (String.mk variant) with
  | some (JValue.jobj pairs) => some pairs
  | _ => none

/-- The spec's `try_parse_object` (section 4.2): normalize, then return the
first candidate variant (candidates outer, variants inner) that parses as a
JSON object. -/
def tryParseObject (raw : String) : Option (List (String × JValue)) :=
  (candidatesOf (normalizeRaw raw).toList).findSome?
    (fun c => (candidateVariants c).findSome? parseObjVariant)

/-- One parsed variant as consumed by the service (lines 112–151): produce
the decoded summary/key-points pair when at least one of them is
non-empty. -/
def payloadOfVariant (variant : List Char) : Option (String × List String) :=
  match parseObjVariant variant with
  | none => none
  | some pairs =>
    let summary := summaryOfPairs pairs
    let keyPoints := keyPointsOfPairs pairs
    if summary ≠ "" ∨ keyPoints ≠ [] then
      some (decodeJsonishText summary, keyPoints.map decodeJsonishText)
    else none

/-- The whole JSON phase of `_extract_embedded_summary_payload`: the first
candidate variant that parses to an object carrying a summary or key
points. -/
def jsonPhase (cleaned : List Char) : Option (String × List String) :=
  (candidatesOf cleaned).findSome? (fun c => (candidateVariants c).findSome? payloadOfVariant)

/-! ### `_extract_embedded_summary_payload`: regex recovery phase (lines 153–180)

The two summary patterns are (IGNORECASE, `qc` the value-quote character,
first `"` then `'`):
`["\']?(?:KEYS)["\']?\s*:\s*qc([\s\S]*?)qc(?=\s*,\s*["\']?[A-Za-z_][A-Za-z0-9_-]*["\']?\s*:|\s*[}])`.
All optional-quote and greedy-star positions are deterministic for these
patterns (quotes are neither identifier characters, whitespace nor `:`), so
each compiles to a scanner without backtracking; alternation over the key
synonyms keeps the regex order via a per-key full-continuation attempt. -/

/-- Consume the optional quote `["\']?` (greedy, deterministic here). -/
def consumeOptQuote (l : List Char) : List Char :=
  match l with
  | c :: r => if c = '"' ∨ c = sq then r else l
  | [] => l

/-- Try the continuation after each synonym key (case-insensitive), in the
alternation order of the pattern. -/
def matchKeysCI (keys : List String) (cont : List Char → Option (List Char))
    (l : List Char) : Option (List Char) :=
  keys.findSome? (fun k =>
    if pyLowerL (l.take k.toList.length) = k.toList then cont (l.drop k.toList.length)
    else none)

/-- The lookahead
`(?=\s*,\s*["\']?[A-Za-z_][A-Za-z0-9_-]*["\']?\s*:|\s*[}])`: either the next
`key :` pair after a comma, or a closing brace. -/
def lookaheadOk (l : List Char) : Bool :=
  (match l.dropWhile isPyWs with
   | ',' :: r =>
     match consumeOptQuote (r.dropWhile isPyWs) with
     | i :: r2 =>
       if isIdentStart i then
         match (consumeOptQuote (r2.dropWhile isIdentChar)).dropWhile isPyWs with
         | ':' :: _ => true
         | _ => false
       else false
     | [] => false
   | _ => false) ||
  (match l.dropWhile isPyWs with
   | '}' :: _ => true
   | _ => false)

/-- The lazy group `([\s\S]*?)qc(?=lookahead)`: the shortest prefix whose
closing quote is followed by a position satisfying the lookahead. -/
def lazyGroupCore (qc : Char) : Nat → List Char → Option (List Char)
  | _, [] => none
  | 0, _ => none
  | fuel + 1, c :: rest =>
    if c = qc ∧ lookaheadOk rest then some []
    else (lazyGroupCore qc fuel rest).map (fun g => c :: g)

/-- Lazy group with the canonical fuel. -/
def lazyGroup (qc : Char) (l : List Char) : Option (List Char) :=
  lazyGroupCore qc l.length l

/-- Match one summary pattern at the current position, returning the raw
group text. -/
def summaryMatchAt (qc : Char) (l : List Char) : Option (List Char) :=
  matchKeysCI summaryFieldKeys
    (fun l2 =>
      match (consumeOptQuote l2).dropWhile isPyWs with
      | ':' :: r =>
        match r.dropWhile isPyWs with
        | c :: r2 => if c = qc then lazyGroup qc r2 else none
        | [] => none
      | _ => none)
    (consumeOptQuote l)

/-- `re.search` for one summary pattern: leftmost match wins. -/
def searchSummaryCore (qc : Char) : Nat → List Char → Option (List Char)
  | 0, l => summaryMatchAt qc l
  | _ + 1, [] => summaryMatchAt qc []
  | fuel + 1, c :: rest =>
    match summaryMatchAt qc (c :: rest) with
    | some g => some g
    | none => searchSummaryCore qc fuel rest

/-- Summary-pattern search with the canonical fuel. -/
def searchSummary (qc : Char) (l : List Char) : Option (List Char) :=
  searchSummaryCore qc l.length l

/-- The summary part of the regex phase (lines 153–163): double-quoted
pattern first, then single-quoted; a match only counts when its group has
non-blank content; the group is decoded. -/
def regexSummaryOf (cleaned : List Char) : String :=
  let p1 :=
    match searchSummary '"' cleaned with
    | some g => if pyStripL g = [] then none else some (decodeJsonishText (String.mk g))
    | none => none
  match p1 with
  | some s => s
  | none =>
    match searchSummary sq cleaned with
    | some g => if pyStripL g = [] then "" else decodeJsonishText (String.mk g)
    | none => ""

/-- Match the key-points pattern
`["\']?(?:KEYS)["\']?\s*:\s*\[([\s\S]*?)\]` at the current position: the
group runs to the first `]`, which must exist. -/
def kpMatchAt (l : List Char) : Option (List Char) :=
  matchKeysCI keyPointsFieldKeys
    (fun l2 =>
      match (consumeOptQuote l2).dropWhile isPyWs with
      | ':' :: r =>
        match r.dropWhile isPyWs with
        | '[' :: r2 =>
          let g := r2.takeWhile (fun c => c ≠ ']')
          if r2.drop g.length = [] then none else some g
        | _ => none
      | _ => none)
    (consumeOptQuote l)

/-- `re.search` for the key-points pattern. -/
def searchKpCore : Nat → List Char → Option (List Char)
  | 0, l => kpMatchAt l
  | fuel + 1, l =>
    match kpMatchAt l with
    | some g => some g
    | none =>
      match l with
      | [] => none
      | _ :: rest => searchKpCore fuel rest

/-- Key-points-pattern search with the canonical fuel. -/
def searchKp (l : List Char) : Option (List Char) :=
  searchKpCore l.length l

/-- `re.finditer(r'"((?:\\.|[^"\\])*)"|\'((?:\\.|[^\'\\])*)\'', body)`:
collect the raw groups of each quoted item, left to right,
non-overlapping. -/
def kpItemsCore : Nat → List Char → List (List Char)
  | _, [] => []
  | 0, _ => []
  | fuel + 1, c :: rest =>
    if c = '"' then
      match quotedGroup '"' rest with
      | some p => p.1 :: kpItemsCore fuel p.2
      | none => kpItemsCore fuel rest
    else if c = sq then
      match quotedGroup sq rest with
      | some p => p.1 :: kpItemsCore fuel p.2
      | none => kpItemsCore fuel rest
    else kpItemsCore fuel rest

/-- Quoted key-points items with the canonical fuel. -/
def kpItems (l : List Char) : List (List Char) :=
  kpItemsCore l.length l

/-- The key-points part of the regex phase (lines 165–178): find the
bracketed span, then collect the decoded non-empty quoted items. -/
def regexKeyPointsOf (cleaned : List Char) : List String :=
  match searchKp cleaned with
  | some body =>
    if body = [] then []
    else
      (kpItems body).filterMap (fun g =>
        let d := decodeJsonishText (String.mk g)
        if d = "" then none else some d)
  | none => []

/-- `_extract_embedded_summary_payload` (lines 77–180): empty input short
circuit, then the JSON phase, then the regex recovery phase. -/
def extractEmbeddedSummaryPayload (rawText : String) : String × List String :=
  if pyStrip rawText = "" then ("", [])
  else
    let cleaned := (normalizeRaw rawText).toList
    match jsonPhase cleaned with
    | some p => p
    | none => (regexSummaryOf cleaned, regexKeyPointsOf cleaned)

/-! ### `_is_placeholder_value` and `_normalize_key_points` (lines 512–570) -/

/-- The fixed marker set of `_is_placeholder_value` (lines 516–528). -/
def placeholderMarkers : List String :=
  ["khong ro", "không rõ", "khong co", "không có", "unknown", "not specified",
   "n/a", "none", "null", "timestamp: khong ro", "timestamp: không rõ"]

/-- `_is_placeholder_value` (lines 512–529): strip and lowercase, empty is a
placeholder, otherwise any marker occurring as a *substring* makes the value
a placeholder. -/
def isPlaceholderValue (textValue : String) : Bool :=
  let value := pyLowerL (pyStripL textValue.toList)
  if value = [] then true
  else placeholderMarkers.any (fun m => listContains m.toList value)

/-- `_add_candidate` (lines 535–547) on a string: keep the stripped text when
non-empty and not a placeholder. -/
def addCandidateStr (s : String) : List String :=
  let candidate := pyStrip s
  if candidate ≠ "" ∧ ¬ isPlaceholderValue candidate then [candidate] else []

/-- The dict sub-key priority of `_add_candidate` (line 542). -/
def kpDictKeys : List String :=
  ["point", "text", "summary", "content", "description", "title"]

/-- `_add_candidate` (lines 535–547) on a decoded value: strings go through
the string path; dicts contribute the first sub-key whose value is a
non-blank, non-placeholder string; anything else contributes nothing. -/
def addCandidate (v : JValue) : List String :=
  match v with
  | JValue.jstr s => addCandidateStr s
  | JValue.jobj pairs =>
    match
      kpDictKeys.findSome? (fun k =>
        match jGet pairs k with
        | some (JValue.jstr c) =>
          if pyStrip c ≠ "" ∧ ¬ isPlaceholderValue c then some (pyStrip c) else none
        | _ => none)
    with
    | some c => [c]
    | none => []
  | _ => []

/-- Separator class of `re.split(r"[\n;]+", raw_points)`. -/
def isSplitSep (c : Char) : Bool := c = '\n' || c = ';'

/-- `re.split(r"[\n;]+", s)`: split on maximal separator runs (fuel-based;
each step consumes at least the separator, so `fuel = l.length`
suffices). -/
def splitSepRunsCore : Nat → List Char → List (List Char)
  | 0, l => [l.takeWhile (fun c => ¬ isSplitSep c)]
  | fuel + 1, l =>
    let part := l.takeWhile (fun c => ¬ isSplitSep c)
    match l.drop part.length with
    | [] => [part]
    | rs => part :: splitSepRunsCore fuel (rs.dropWhile isSplitSep)

/-- `re.split(r"[\n;]+", ·)` with the canonical fuel. -/
def splitSepRuns (l : List Char) : List (List Char) :=
  splitSepRunsCore l.length l

/-- The leading bullet/number marker class `[-*•\d.\)\s]` (line 561; `\d`
modelled as ASCII digits). -/
def isMarkerChar (c : Char) : Bool :=
  c = '-' || c = '*' || c = Char.ofNat 0x2022 || isDigitC c || c = '.' || c = ')' || isPyWs c

/-- `re.sub(r"\s+", " ", ·)`: collapse every maximal whitespace run into a
single space. -/
def collapseWs : List Char → List Char
  | [] => []
  | [c] => if isPyWs c then [' '] else [c]
  | c1 :: c2 :: rest =>
    if isPyWs c1 ∧ isPyWs c2 then collapseWs (c2 :: rest)
    else (if isPyWs c1 then ' ' else c1) :: collapseWs (c2 :: rest)

/-- The per-item cleaning of the dedup loop (lines 561–562): strip leading
bullet/number markers, strip, collapse whitespace. -/
def kpCleanItem (s : String) : List Char :=
  collapseWs (pyStripL (s.toList.dropWhile isMarkerChar))

/-- The dedup loop of `_normalize_key_points` (lines 558–570): clean each
candidate, drop the blank ones, and keep first occurrences under
case-insensitive comparison. -/
def kpStep (acc : List String × List (List Char)) (item : String) :
    List String × List (List Char) :=
  let cleaned := kpCleanItem item
  if cleaned = [] then acc
  else
    let key := pyLowerL cleaned
    if acc.2.contains key then acc
    else (acc.1 ++ [String.mk cleaned], acc.2 ++ [key])

/-- The dedup loop of `_normalize_key_points` (lines 558–570). -/
def kpDedup (normalized : List String) : List String :=
  (normalized.foldl kpStep ([], [])).1

/-- `_normalize_key_points` (lines 532–570) over a decoded value: a string
is split on `[\n;]+` runs; a list contributes each element; a dict is one
candidate; anything else contributes nothing — then the dedup loop runs. -/
def normalizeKeyPoints (rawPoints : JValue) : List String :=
  let normalized :=
    match rawPoints with
    | JValue.jstr s => (splitSepRuns s.toList).flatMap (fun part => addCandidateStr (String.mk part))
    | JValue.jarr items => items.flatMap addCandidate
    | JValue.jobj pairs => addCandidate (JValue.jobj pairs)
    | _ => []
  kpDedup normalized

/-- `_normalize_key_points` applied to a plain Python list of strings. -/
def normalizeKeyPointsL (points : List String) : List String :=
  normalizeKeyPoints (JValue.jarr (points.map JValue.jstr))

/-- A decimal digit character. -/
def digitChar (n : Nat) : Char := Char.ofNat (48 + n)

/-- Decimal digits of a natural number, most significant first (fuel-based;
`fuel = n + 1` suffices since `n / 10 < n` for positive `n`). -/
def natDigitsCore : Nat → Nat → List Char
  | 0, _ => []
  | fuel + 1, n =>
    if n < 10 then [digitChar n]
    else natDigitsCore fuel (n / 10) ++ [digitChar (n % 10)]

/-- Python `str()` on a non-negative integer (the service only formats
lengths and 1-based indices). -/
def pyStrNat (n : Nat) : String := String.mk (natDigitsCore (n + 1) n)

/-- Python `sep.join(parts)`. -/
def pyJoin (sep : String) : List String → String
  | [] => ""
  | [x] => x
  | x :: xs => x ++ sep ++ pyJoin sep xs

/-! ### Fallback synthesis and summary expansion
(`generate_minutes_with_ai` lines 1600–1703, `_expand_summary_if_needed`
lines 680–829).  The rows seen here are the dicts built by
`generate_minutes_with_ai` (lines 1240–1296) or by `_normalize_rows_from_llm`,
which always carry the fixed string keys modelled as record fields. -/

/-- An action row (`description/owner/deadline/priority/status`). -/
structure ActionRow where
  description : String
  owner : String
  deadline : String
  priority : String
  status : String
deriving Repr, DecidableEq

/-- A decision row (`description/rationale/status/confirmed_by`). -/
structure DecisionRow where
  description : String
  rationale : String
  status : String
  confirmedBy : String
deriving Repr, DecidableEq

/-- A risk row (`description/severity/mitigation/status/owner`). -/
structure RiskRow where
  description : String
  severity : String
  mitigation : String
  status : String
  owner : String
deriving Repr, DecidableEq

/-- A topic-tracker row (`title/start_time/end_time/duration_seconds`;
times are held as whole seconds — the service only formats them). -/
structure TopicRow where
  title : String
  startTime : Option Int
  endTime : Option Int
  durationSeconds : Option Int
deriving Repr, DecidableEq

/-- The single-quote character as a string (for the f-string quotes). -/
def sqS : String := String.mk [sq]

/-- Python slicing `s[:n]` by code points. -/
def takeS (n : Nat) (s : String) : String := String.mk (s.toList.take n)

/-- The fallback summary block (lines 1616–1661): description, transcript,
related documents, then the generic sentence — each in the configured
language. -/
def fallbackSummary (preferVi : Bool) (meetingTitle meetingDesc transcript : String)
    (relatedDocs : List String) : String :=
  if meetingDesc ≠ "" then
    if preferVi then
      "Tóm tắt sơ bộ cho " ++ sqS ++ meetingTitle ++ sqS ++ ": " ++ takeS 360 meetingDesc ++
        ". Vui lòng bổ sung transcript để tạo biên bản sâu và đáng tin cậy hơn."
    else
      "Preliminary summary for " ++ sqS ++ meetingTitle ++ sqS ++ ": " ++ takeS 360 meetingDesc ++
        ". Add transcript evidence for deeper and more reliable minutes."
  else if transcript ≠ "" then
    if preferVi then
      "Tóm tắt sơ bộ cho " ++ sqS ++ meetingTitle ++ sqS ++ ": " ++ takeS 420 transcript ++
        ". Bản nháp này nên được tinh chỉnh bằng transcript đầy đủ."
    else
      "Preliminary summary for " ++ sqS ++ meetingTitle ++ sqS ++ ": " ++ takeS 420 transcript ++
        ". This draft should be refined with full transcript context."
  else if relatedDocs ≠ [] then
    if preferVi then
      "Tóm tắt sơ bộ cho " ++ sqS ++ meetingTitle ++ sqS ++
        ": đã có tài liệu liên quan. Vui lòng bổ sung dữ liệu transcript để tạo biên bản chi tiết."
    else
      "Preliminary summary for " ++ sqS ++ meetingTitle ++ sqS ++
        ": related documents are available. Please add transcript data to generate detailed minutes."
  else
    if preferVi then
      "Tóm tắt sơ bộ cho " ++ sqS ++ meetingTitle ++ sqS ++
        ": phiên họp đã được ghi nhận, nhưng bằng chứng nội dung hiện còn hạn chế."
    else
      "Preliminary summary for " ++ sqS ++ meetingTitle ++ sqS ++
        ": this session is recorded, but content evidence is currently limited."

/-- The raw fallback bullet list (lines 1662–1689): one count bullet per
non-empty evidence category, else one generic bullet. -/
def fallbackPointsRaw (preferVi : Bool) (nActions nDecisions nRisks nDocs : Nat) :
    List String :=
  let pts :=
    (if nActions ≠ 0 then
      [if preferVi then "Đã ghi nhận " ++ pyStrNat nActions ++ " đầu việc."
       else pyStrNat nActions ++ " action item(s) were captured."]
     else []) ++
    (if nDecisions ≠ 0 then
      [if preferVi then "Đã ghi nhận " ++ pyStrNat nDecisions ++ " quyết định."
       else pyStrNat nDecisions ++ " decision(s) were captured."]
     else []) ++
    (if nRisks ≠ 0 then
      [if preferVi then "Đã ghi nhận " ++ pyStrNat nRisks ++ " rủi ro."
       else pyStrNat nRisks ++ " risk(s) were captured."]
     else []) ++
    (if nDocs ≠ 0 then
      [if preferVi then "Có " ++ pyStrNat nDocs ++ " tài liệu tham chiếu liên quan."
       else pyStrNat nDocs ++ " reference document(s) are linked."]
     else [])
  if pts = [] then
    [if preferVi then "Vui lòng bổ sung transcript để tăng độ sâu và độ chính xác của tóm tắt."
     else "Add transcript evidence to improve summary depth and accuracy."]
  else pts

/-- The fallback key-points result (line 1690):
`_normalize_key_points(fallback_points[:5])`. -/
def fallbackKeyPoints (preferVi : Bool) (actionRows : List ActionRow)
    (decisionRows : List DecisionRow) (riskRows : List RiskRow)
    (relatedDocs : List String) : List String :=
  normalizeKeyPointsL
    ((fallbackPointsRaw preferVi actionRows.length decisionRows.length riskRows.length
        relatedDocs.length).take 5)

/-- `_word_count` (lines 669–672): the number of maximal runs of
word characters `[0-9A-Za-zÀ-ỹà-ỹ]` (the two ranges overlap into the single
code-point range U+00C0–U+1EF9). -/
def isWordChar (c : Char) : Bool :=
  isDigitC c || ('A' ≤ c ∧ c ≤ 'Z') || ('a' ≤ c ∧ c ≤ 'z') ||
    (0xC0 ≤ c.toNat ∧ c.toNat ≤ 0x1EF9)

/-- Count maximal runs of characters satisfying `p`. -/
def countRunsGo (p : Char → Bool) (prevIn : Bool) : List Char → Nat
  | [] => 0
  | c :: rest => (if p c ∧ ¬ prevIn then 1 else 0) + countRunsGo p (p c) rest

/-- `_word_count` on a string. -/
def wordCount (s : String) : Nat := countRunsGo isWordChar false s.toList

/-- `_join_preview` (lines 675–677). -/
def joinPreview (values : List String) (limit : Nat) : String :=
  let cleaned := values.filterMap (fun i => let t := pyStrip i; if t = "" then none else some t)
  pyJoin "; " (cleaned.take limit)

/-- `_expand_summary_if_needed` (lines 680–829): keep a ≥140-word summary;
otherwise assemble evidence paragraphs (base or description or generic,
key-point preview, decisions, actions, risks, next steps, topic count, and
a transcript snippet when still short), join with blank lines, strip. -/
def expandSummaryIfNeeded (preferVi : Bool) (summary meetingTitle meetingDesc : String)
    (keyPoints : List String) (actionRows : List ActionRow)
    (decisionRows : List DecisionRow) (riskRows : List RiskRow)
    (nextSteps : List String) (topicCount : Nat) (transcriptExcerpt : String) : String :=
  let base := pyStrip summary
  if 140 ≤ wordCount base then base
  else
    let p0 :=
      if base ≠ "" then [base]
      else if meetingDesc ≠ "" then
        [if preferVi then
          "Cuộc họp " ++ sqS ++ meetingTitle ++ sqS ++ " tập trung vào nội dung: " ++
            pyStrip (takeS 420 meetingDesc) ++ "."
         else
          "The meeting " ++ sqS ++ meetingTitle ++ sqS ++ " focused on: " ++
            pyStrip (takeS 420 meetingDesc) ++ "."]
      else
        [if preferVi then
          "Cuộc họp " ++ sqS ++ meetingTitle ++ sqS ++
            " đã được ghi nhận và cần biên bản chi tiết để theo dõi tiến độ."
         else
          "The meeting " ++ sqS ++ meetingTitle ++ sqS ++
            " was captured and requires detailed minutes for follow-up."]
    let kpPreview := joinPreview keyPoints 5
    let p1 :=
      if kpPreview ≠ "" then
        [if preferVi then
          "Các điểm thảo luận trọng tâm gồm: " ++ kpPreview ++
            ". Nội dung cho thấy các bên đã làm rõ vấn đề, phạm vi ảnh hưởng và hướng xử lý ưu tiên."
         else
          "Core discussion points included: " ++ kpPreview ++
            ". The flow clarified scope, impact, and priority handling direction."]
      else []
    let p2 :=
      if decisionRows ≠ [] then
        let preview := joinPreview (decisionRows.map (fun r => pyStrip r.description)) 3
        [if preferVi then
          "Đã ghi nhận " ++ pyStrNat decisionRows.length ++ " quyết định. " ++
            (if preview ≠ "" then "Các quyết định đáng chú ý: " ++ preview ++ ". " else "") ++
            "Các quyết định này là căn cứ để triển khai kế hoạch và phân quyền thực thi."
         else
          pyStrNat decisionRows.length ++ " decision(s) were captured. " ++
            (if preview ≠ "" then "Notable decisions: " ++ preview ++ ". " else "") ++
            "These decisions establish the execution baseline and ownership boundaries."]
      else []
    let p3 :=
      if actionRows ≠ [] then
        let preview := joinPreview
          ((actionRows.filter (fun r => pyStrip r.description ≠ "")).map
            (fun r => pyStrip r.description ++ " (owner: " ++
              pyStrip (if r.owner ≠ "" then r.owner else "N/A") ++ ")"))
          3
        [if preferVi then
          "Đã tổng hợp " ++ pyStrNat actionRows.length ++ " đầu việc cần theo dõi. " ++
            (if preview ≠ "" then "Một số đầu việc tiêu biểu: " ++ preview ++ ". " else "") ++
            "Cần rà soát deadline và trạng thái định kỳ để đảm bảo tiến độ cam kết."
         else
          pyStrNat actionRows.length ++ " action item(s) were consolidated. " ++
            (if preview ≠ "" then "Representative items: " ++ preview ++ ". " else "") ++
            "Deadlines and status should be reviewed on a recurring cadence."]
      else []
    let p4 :=
      if riskRows ≠ [] then
        let preview := joinPreview (riskRows.map (fun r => pyStrip r.description)) 3
        [if preferVi then
          "Đã phát hiện " ++ pyStrNat riskRows.length ++ " rủi ro/vướng mắc. " ++
            (if preview ≠ "" then "Các rủi ro chính: " ++ preview ++ ". " else "") ++
            "Đề xuất theo dõi mức độ ảnh hưởng và kế hoạch giảm thiểu theo từng mốc."
         else
          pyStrNat riskRows.length ++ " risk(s)/blockers were identified. " ++
            (if preview ≠ "" then "Primary risks: " ++ preview ++ ". " else "") ++
            "Impact levels and mitigation plans should be tracked by milestone."]
      else []
    let p5 :=
      if nextSteps ≠ [] then
        [if preferVi then
          "Các bước tiếp theo đã được xác định: " ++ joinPreview nextSteps 4 ++
            ". Cần chốt người phụ trách và thời hạn cụ thể cho từng hạng mục."
         else
          "Next steps were identified: " ++ joinPreview nextSteps 4 ++
            ". Owners and concrete due dates should be finalized per item."]
      else []
    let p6 :=
      if topicCount ≠ 0 then
        [if preferVi then
          "Phiên họp ghi nhận " ++ pyStrNat topicCount ++
            " cụm chủ đề theo timeline, hỗ trợ truy vết nhanh nội dung và quyết định."
         else
          "The session tracked " ++ pyStrNat topicCount ++
            " topic clusters on the timeline for better traceability."]
      else []
    let paragraphs := p0 ++ p1 ++ p2 ++ p3 ++ p4 ++ p5 ++ p6
    let paragraphs2 :=
      if transcriptExcerpt ≠ "" ∧
          wordCount (pyJoin "\n\n" paragraphs) < 120 then
        let snippet := pyStrip (pyReplace (takeS 520 transcriptExcerpt) "\n" " ")
        if snippet ≠ "" then
          paragraphs ++
            [if preferVi then "Bằng chứng transcript tiêu biểu: " ++ snippet ++ "."
             else "Representative transcript evidence: " ++ snippet ++ "."]
        else paragraphs
      else paragraphs
    pyStrip (pyJoin "\n\n" (paragraphs2.filter (fun i => pyStrip i ≠ "")))

/-- The summary/key-points stage of `generate_minutes_with_ai`
(lines 1609–1690): normalize the model key points, run
`_extract_embedded_summary_payload` on the model summary, take over the
extracted key points when nothing was normalized, and fall back for
whichever of the two is still empty. -/
def summaryStage (preferVi : Bool) (meetingTitle meetingDesc transcript : String)
    (relatedDocs : List String) (actionRows : List ActionRow)
    (decisionRows : List DecisionRow) (riskRows : List RiskRow)
    (rawSummary : String) (rawKeyPoints : JValue) : String × List String :=
  let kp0 := normalizeKeyPoints rawKeyPoints
  let rawS := pyStrip rawSummary
  let ex := extractEmbeddedSummaryPayload rawS
  let s0 := if ex.1 ≠ "" then ex.1 else decodeJsonishText rawS
  let kp1 := if ex.2 ≠ [] ∧ kp0 = [] then normalizeKeyPointsL ex.2 else kp0
  let s1 := if s0 = "" then fallbackSummary preferVi meetingTitle meetingDesc transcript relatedDocs else s0
  let kp2 := if kp1 = [] then fallbackKeyPoints preferVi actionRows decisionRows riskRows relatedDocs else kp1
  (s1, kp2)

/-- The final summary handed to the minutes record (lines 1692–1703):
the stage result expanded by `_expand_summary_if_needed`. -/
def finalSummary (preferVi : Bool) (meetingTitle meetingDesc transcript : String)
    (relatedDocs : List String) (actionRows : List ActionRow)
    (decisionRows : List DecisionRow) (riskRows : List RiskRow)
    (nextSteps : List String) (topicCount : Nat)
    (rawSummary : String) (rawKeyPoints : JValue) : String :=
  let stage := summaryStage preferVi meetingTitle meetingDesc transcript relatedDocs
    actionRows decisionRows riskRows rawSummary rawKeyPoints
  expandSummaryIfNeeded preferVi stage.1 meetingTitle meetingDesc stage.2
    actionRows decisionRows riskRows nextSteps topicCount (takeS 1200 transcript)

/-! ### `format_minutes` (lines 1800–2123) -/

/-- A study-pack concept row (synonym source fields kept separately; the
renderer picks the first truthy one). -/
structure ConceptRow where
  concept : String
  name : String
  explanation : String
  description : String
deriving Repr, DecidableEq

/-- A study-pack formula row. -/
structure FormulaRow where
  name : String
  title : String
  formula : String
  expression : String
  meaning : String
  usage : String
  description : String
deriving Repr, DecidableEq

/-- A study-pack quiz row (`options` is already list-shaped; the renderer
checks `isinstance(..., list)` and substitutes `[]` otherwise). -/
structure QuizRow where
  question : String
  options : List String
  answer : String
  correctAnswer : String
deriving Repr, DecidableEq

/-- The study pack: concept/formula/quiz lists (the `_safe_json_list`
coercions happen upstream; an absent pack is `none`). -/
structure StudyPack where
  concepts : List ConceptRow
  formulas : List FormulaRow
  quiz : List QuizRow
deriving Repr, DecidableEq

/-- `_fmt_dt` (lines 1828–1835) restricted to the string-or-empty case
(datetimes are pre-rendered by `strftime` upstream of this model). -/
def fmtDt (v : String) : String := if v = "" then "N/A" else v

/-- `_md_cell` (lines 1837–1839): escape pipes, flatten newlines, strip,
dash for emptiness. -/
def mdCell (value : String) : String :=
  let t := pyStrip (pyReplace (pyReplace value "|" (String.mk [bs, '|'])) "\n" " ")
  if t = "" then "-" else t

/-- `_md_cell` on an optional integer cell (`duration_seconds`): `None` and
`0` are falsy in `str(value or "")`. -/
def mdCellInt (value : Option Int) : String :=
  match value with
  | none => "-"
  | some v => if v = 0 then "-" else toString v

/-- Two-digit zero padding, `f"{n:02d}"` for a non-negative value. -/
def pad2 (n : Nat) : String :=
  if n < 10 then "0" ++ pyStrNat n else pyStrNat n

/-- `_fmt_seconds` (lines 359–365). -/
def fmtSeconds (v : Option Int) : String :=
  match v with
  | none => ""
  | some x =>
    let total := (max 0 x).toNat
    pad2 (total / 60) ++ ":" ++ pad2 (total % 60)

/-- ASCII uppercase conversion (for `str.title()`). -/
def asciiUpperChar (c : Char) : Char :=
  if 97 ≤ c.toNat ∧ c.toNat ≤ 122 then Char.ofNat (c.toNat - 32) else c

/-- ASCII letter test (session types are ASCII). -/
def isAsciiAlpha (c : Char) : Bool :=
  ('A' ≤ c ∧ c ≤ 'Z') || ('a' ≤ c ∧ c ≤ 'z')

/-- `str.title()` restricted to ASCII letters: uppercase a letter after a
non-letter, lowercase the rest. -/
def pyTitleGo (prevAlpha : Bool) : List Char → List Char
  | [] => []
  | c :: rest =>
    (if isAsciiAlpha c ∧ ¬ prevAlpha then asciiUpperChar c
     else if isAsciiAlpha c then pyLowerChar c
     else c) :: pyTitleGo (isAsciiAlpha c) rest

/-- `str.title()` on a string. -/
def pyTitle (s : String) : String := String.mk (pyTitleGo false s.toList)

/-- A markdown table row from its cells. -/
def tableRow (cells : List String) : String :=
  "| " ++ pyJoin " | " cells ++ " |"

/-- `format_minutes` (lines 1800–2123) as its list of output lines.  The
`formatType` parameter mirrors the Python `format_type` keyword: the source
accepts it and never reads it, so it does not influence the output. -/
def formatMinutesLines (preferVi : Bool) (meetingTitle meetingType : String)
    (startTime endTime : String) (summary : String)
    (keyPoints keywords topics : List String) (sessionType : String)
    (actions decisions risks : List String)
    (actionRows : List ActionRow) (decisionRows : List DecisionRow)
    (riskRows : List RiskRow) (nextSteps : List String)
    (studyPack : Option StudyPack) (topicTracker : List TopicRow)
    (aiFilters : List String)
    (includeTopicTracker includeAiFilters includeQuiz includeKnowledgeTable : Bool)
    (formatType : String) : List String :=
  let _ := formatType
  let keyPoints := keyPoints.filterMap (fun p => let t := pyStrip p; if t = "" then none else some t)
  let keywords := keywords.filterMap (fun p => let t := pyStrip p; if t = "" then none else some t)
  let topics := topics.filterMap (fun p => let t := pyStrip p; if t = "" then none else some t)
  let summaryText := pyStrip summary
  let header : List String :=
    ["# Biên bản: " ++ meetingTitle, "",
     "## Thông tin cuộc họp",
     "- **Loại cuộc họp:** " ++ (if meetingType = "" then "N/A" else meetingType),
     "- **Chế độ phiên:** " ++ pyTitle sessionType,
     "- **Thời gian:** " ++ fmtDt startTime ++ " - " ++ fmtDt endTime,
     ""]
  let summarySec : List String :=
    ["## Tóm tắt điều hành"] ++
    (if summaryText ≠ "" then [summaryText]
     else [if preferVi then "_Chưa có tóm tắt điều hành._" else "_No executive summary available._"]) ++
    [""]
  let keyPointsSec : List String :=
    ["## Các điểm chính"] ++
    (if keyPoints ≠ [] then keyPoints.map (fun p => "- " ++ p)
     else [if preferVi then "- Chưa có điểm chính được trích xuất." else "- No key points extracted yet."]) ++
    [""]
  let keywordsSec : List String :=
    [if preferVi then "## Từ khóa trọng tâm" else "## Core keywords"] ++
    (if keywords ≠ [] then keywords.map (fun k => "- " ++ k)
     else [if preferVi then "- Chưa có từ khóa nổi bật." else "- No notable keywords yet."]) ++
    [""]
  let topicsSec : List String :=
    [if preferVi then "## Chủ đề chính" else "## Primary topics"] ++
    (if topics ≠ [] then topics.map (fun t => "- " ++ t)
     else [if preferVi then "- Chưa có chủ đề nổi bật." else "- No primary topics available."]) ++
    [""]
  let numbered (items : List String) : List String :=
    (items.enumFrom 1).map (fun p => pyStrNat p.1 ++ ". " ++ p.2)
  let meetingSec : List String :=
    if sessionType = "meeting" then
      (["## Quyết định"] ++
       (if decisionRows ≠ [] then
          [tableRow ["Quyết định", "Lý do", "Trạng thái", "Người xác nhận"],
           "| --- | --- | --- | --- |"] ++
          decisionRows.map (fun r =>
            tableRow [mdCell r.description, mdCell r.rationale, mdCell r.status, mdCell r.confirmedBy])
        else if decisions ≠ [] then numbered decisions
        else [if preferVi then "- Chưa ghi nhận quyết định cụ thể." else "- No concrete decisions recorded."]) ++
       [""] ++
       ["## Hành động cần thực hiện"] ++
       (if actionRows ≠ [] then
          [tableRow ["Người phụ trách", "Hạn chót", "Mức ưu tiên", "Trạng thái", "Hành động"],
           "| --- | --- | --- | --- | --- |"] ++
          actionRows.map (fun r =>
            tableRow [mdCell r.owner, mdCell r.deadline, mdCell r.priority, mdCell r.status, mdCell r.description])
        else if actions ≠ [] then numbered actions
        else [if preferVi then "- Chưa có đầu việc cần theo dõi." else "- No tracked action items."]) ++
       [""] ++
       ["## Rủi ro và trở ngại"] ++
       (if riskRows ≠ [] then
          [tableRow ["Rủi ro", "Mức độ", "Giảm thiểu", "Người phụ trách", "Trạng thái"],
           "| --- | --- | --- | --- | --- |"] ++
          riskRows.map (fun r =>
            tableRow [mdCell r.description, mdCell r.severity, mdCell r.mitigation, mdCell r.owner, mdCell r.status])
        else if risks ≠ [] then risks.map (fun i => "- " ++ i)
        else [if preferVi then "- Chưa ghi nhận rủi ro nổi bật." else "- No major risks recorded."]) ++
       [""] ++
       (if includeAiFilters then
          ["## Bộ lọc AI (tham chiếu)"] ++
          (if aiFilters ≠ [] then aiFilters.map (fun f => "- " ++ f)
           else [if preferVi then "- Chưa có bộ lọc AI." else "- No AI filter metadata."]) ++
          [""]
        else []))
    else []
  let topicTrackerSec : List String :=
    if includeTopicTracker then
      ["## Theo dõi chủ đề"] ++
      (if topicTracker ≠ [] then
         [tableRow ["Chủ đề", "Bắt đầu", "Kết thúc", "Thời lượng (giây)"],
          "| --- | --- | --- | --- |"] ++
         topicTracker.map (fun r =>
           tableRow [mdCell r.title, mdCell (fmtSeconds r.startTime), mdCell (fmtSeconds r.endTime),
             mdCellInt r.durationSeconds])
       else [if preferVi then "- Chưa có dữ liệu theo dõi chủ đề." else "- No topic-tracker data yet."]) ++
      [""]
    else []
  let studySec : List String :=
    match studyPack with
    | some sp =>
      if sessionType = "course" then
        (if includeKnowledgeTable then
          ["## Bảng kiến thức trọng tâm"] ++
          (if sp.concepts ≠ [] then
             [tableRow ["Khái niệm", "Giải thích"], "| --- | --- |"] ++
             sp.concepts.map (fun r =>
               tableRow [mdCell (if r.concept ≠ "" then r.concept else r.name),
                 mdCell (if r.explanation ≠ "" then r.explanation else r.description)])
           else [if preferVi then "- Chưa có dữ liệu khái niệm." else "- No concept data available."]) ++
          [""] ++
          [if preferVi then "## Công thức quan trọng" else "## Important formulas"] ++
          (if sp.formulas ≠ [] then
             [tableRow ["Tên công thức", "Biểu thức", "Ý nghĩa"], "| --- | --- | --- |"] ++
             sp.formulas.map (fun r =>
               tableRow [mdCell (if r.name ≠ "" then r.name else r.title),
                 mdCell (if r.formula ≠ "" then r.formula else r.expression),
                 mdCell (if r.meaning ≠ "" then r.meaning
                   else if r.usage ≠ "" then r.usage else r.description)])
           else [if preferVi then "- Chưa có dữ liệu công thức." else "- No formula data available."]) ++
          [""]
         else []) ++
        (if includeQuiz then
          ["## Câu hỏi ôn tập"] ++
          (if sp.quiz ≠ [] then
             (sp.quiz.enumFrom 1).flatMap (fun p =>
               let question := pyStrip p.2.question
               [pyStrNat p.1 ++ ". " ++
                 (if question ≠ "" then question
                  else if preferVi then "Chưa có nội dung câu hỏi" else "No question text")] ++
               p.2.options.map (fun opt => "   - " ++ pyStrip opt) ++
               (let answer := pyStrip (if p.2.answer ≠ "" then p.2.answer else p.2.correctAnswer)
                if answer ≠ "" then
                  [if preferVi then "   - **Đáp án:** " ++ answer else "   - **Answer:** " ++ answer]
                else []))
           else [if preferVi then "- Chưa có câu hỏi ôn tập." else "- No quiz data available."]) ++
          [""]
         else [])
      else []
    | none => []
  let nextStepsSec : List String :=
    ["## Bước tiếp theo"] ++
    (if nextSteps ≠ [] then numbered nextSteps
     else [if preferVi then "- Chưa xác định bước tiếp theo." else "- Next steps are not specified yet."]) ++
    [""]
  header ++ summarySec ++ keyPointsSec ++ keywordsSec ++ topicsSec ++ meetingSec ++
    topicTrackerSec ++ studySec ++ nextStepsSec

/-- `format_minutes` output string: the lines joined by newlines.  The
function is total for every `format_type` value — the parameter is never
consulted and no error path exists. -/
def formatMinutes (preferVi : Bool) (meetingTitle meetingType : String)
    (startTime endTime : String) (summary : String)
    (keyPoints keywords topics : List String) (sessionType : String)
    (actions decisions risks : List String)
    (actionRows : List ActionRow) (decisionRows : List DecisionRow)
    (riskRows : List RiskRow) (nextSteps : List String)
    (studyPack : Option StudyPack) (topicTracker : List TopicRow)
    (aiFilters : List String)
    (includeTopicTracker includeAiFilters includeQuiz includeKnowledgeTable : Bool)
    (formatType : String) : String :=
  pyJoin "\n"
    (formatMinutesLines preferVi meetingTitle meetingType startTime endTime summary
      keyPoints keywords topics sessionType actions decisions risks actionRows
      decisionRows riskRows nextSteps studyPack topicTracker aiFilters
      includeTopicTracker includeAiFilters includeQuiz includeKnowledgeTable formatType)

/-! ### `_chunk_text` (lines 257–275) and the minutes content assignment
(lines 1784–1795) -/

/-- The window loop of `_chunk_text`: collect stripped non-empty windows;
the next window starts at `end - overlap`.  Fuel-based: the clamped overlap
is at most `max_chars - 1`, so each iteration advances the start by at least
one and `fuel = n + 1` suffices. -/
def chunkLoop (chars : List Char) (m ov : Nat) : Nat → Nat → List String
  | 0, _ => []
  | fuel + 1, start =>
    if start < chars.length then
      let e := min chars.length (start + m)
      let chunk := pyStripL ((chars.drop start).take (e - start))
      let acc := if chunk ≠ [] then [String.mk chunk] else []
      if chars.length ≤ e then acc
      else acc ++ chunkLoop chars m ov fuel (e - ov)
    else []

/-- `_chunk_text` (lines 257–275): empty text gives no chunks; a
non-positive window size returns the whole text as one chunk; otherwise the
overlap is clamped into `[0, max_chars - 1]` and the text is cut into
stripped windows. -/
def chunkText (text : String) (maxChars overlap : Int) : List String :=
  if text = "" then []
  else if maxChars ≤ 0 then [text]
  else
    let m := maxChars.toNat
    let ov := (max 0 (min overlap (maxChars - 1))).toNat
    chunkLoop text.toList m ov (text.toList.length + 1) 0

/-- The content-field assignment of the created minutes record
(lines 1784–1795): `minutes_text` only for `"text"`, `minutes_markdown`
only for `"markdown"`, and an HTML value only for `"html"` (verbatim) or
`"markdown"` (rendered externally, here recorded as a flag). -/
def minutesContentAssignment (format content : String) :
    Option String × Option String × Bool :=
  ((if format = "text" then some content else none),
   (if format = "markdown" then some content else none),
   (format = "html" ∨ format = "markdown"))

/-! ## General lemmas about the string model -/

theorem dropWhile_idem (p : Char → Bool) (l : List Char) :
    (l.dropWhile p).dropWhile p = l.dropWhile p := by
  induction l with
  | nil => simp
  | cons c rest ih =>
    by_cases h : p c
    · simpa [List.dropWhile, h] using ih
    · simp [List.dropWhile, h]

theorem pyRStrip_idem (l : List Char) : pyRStrip (pyRStrip l) = pyRStrip l := by
  simp [pyRStrip, dropWhile_idem]

theorem pyRStrip_pref (l : List Char) : pyRStrip l <+: l := by
  have h : l.reverse.dropWhile isPyWs <:+ l.reverse := List.dropWhile_suffix isPyWs
  have := List.reverse_prefix.mpr h
  simpa [pyRStrip] using this

theorem pyLStrip_of_head_not_ws (l : List Char) (h : l = [] ∨ ∃ c r, l = c :: r ∧ isPyWs c = false) :
    pyLStrip l = l := by
  rcases h with h | ⟨c, r, rfl, hc⟩
  · simp [h, pyLStrip]
  · simp [pyLStrip, List.dropWhile, hc]

theorem pyLStrip_pyLStrip (l : List Char) : pyLStrip (pyLStrip l) = pyLStrip l := by
  simp [pyLStrip, dropWhile_idem]

theorem pyLStrip_head_not_ws (l : List Char) :
    pyLStrip l = [] ∨ ∃ c r, pyLStrip l = c :: r ∧ isPyWs c = false := by
  induction l with
  | nil => simp [pyLStrip]
  | cons c rest ih =>
    by_cases h : isPyWs c
    · simpa [pyLStrip, List.dropWhile, h] using ih
    · exact Or.inr ⟨c, rest, by simp [pyLStrip, List.dropWhile, h], by simp [h]⟩

theorem pyStripL_idem (l : List Char) : pyStripL (pyStripL l) = pyStripL l := by
  unfold pyStripL
  rcases pyLStrip_head_not_ws l with h | ⟨c, r, hc, hws⟩
  · rw [h]
    simp [pyRStrip, pyLStrip]
  · rw [hc]
    have hpre := pyRStrip_pref (c :: r)
    rcases hp : pyRStrip (c :: r) with _ | ⟨c2, r2⟩
    · simp [pyLStrip, pyRStrip]
    · rw [hp] at hpre
      have hc2 : c2 = c := by
        rcases hpre with ⟨t, ht⟩
        exact (List.cons.injEq _ _ _ _ ▸ ht.symm).1.symm ▸ rfl
      have : pyLStrip (c2 :: r2) = c2 :: r2 := by
        apply pyLStrip_of_head_not_ws
        exact Or.inr ⟨c2, r2, rfl, by rw [hc2]; exact hws⟩
      rw [this, ← hp, pyRStrip_idem]

theorem pyStrip_idem (s : String) : pyStrip (pyStrip s) = pyStrip s := by
  simp [pyStrip, pyStripL_idem]

theorem mem_pyRStrip {c : Char} {l : List Char} (h : c ∈ pyRStrip l) : c ∈ l :=
  (pyRStrip_pref l).subset h

theorem mem_pyLStrip {c : Char} {l : List Char} (h : c ∈ pyLStrip l) : c ∈ l :=
  (List.dropWhile_suffix isPyWs).subset h

theorem mem_pyStripL {c : Char} {l : List Char} (h : c ∈ pyStripL l) : c ∈ l :=
  mem_pyLStrip (mem_pyRStrip h)

theorem pyStripL_eq_nil_iff (l : List Char) :
    pyStripL l = [] ↔ ∀ c ∈ l, isPyWs c = true := by
  constructor
  · intro h c hc
    have h1 : (pyLStrip l).reverse.dropWhile isPyWs = [] := by
      have : pyRStrip (pyLStrip l) = [] := h
      simpa [pyRStrip, List.reverse_eq_nil_iff] using this
    have h2 : ∀ x ∈ pyLStrip l, isPyWs x = true := by
      intro x hx
      exact List.dropWhile_eq_nil_iff.mp h1 x (List.mem_reverse.mpr hx)
    rw [← List.takeWhile_append_dropWhile isPyWs l] at hc
    rcases List.mem_append.mp hc with hc | hc
    · exact List.mem_takeWhile_imp hc
    · exact h2 c hc
  · intro h
    have h1 : pyLStrip l = [] := List.dropWhile_eq_nil_iff.mpr h
    simp [pyStripL, h1, pyRStrip]

theorem pyStripL_ne_nil {l : List Char} (h : ∃ c ∈ l, isPyWs c = false) :
    pyStripL l ≠ [] := by
  intro hnil
  obtain ⟨c, hc, hws⟩ := h
  have := (pyStripL_eq_nil_iff l).mp hnil c hc
  simp_all

theorem pyRStrip_of_last_not_ws (l : List Char)
    (h : l = [] ∨ ∃ c r, l.reverse = c :: r ∧ isPyWs c = false) : pyRStrip l = l := by
  rcases h with h | ⟨c, r, hc, hws⟩
  · simp [h, pyRStrip]
  · have : l.reverse.dropWhile isPyWs = l.reverse := by
      rw [hc]
      simp [List.dropWhile, hws]
    simp [pyRStrip, this]

theorem pyStripL_of_ends (l : List Char)
    (hh : l = [] ∨ ∃ c r, l = c :: r ∧ isPyWs c = false)
    (ht : l = [] ∨ ∃ c r, l.reverse = c :: r ∧ isPyWs c = false) :
    pyStripL l = l := by
  unfold pyStripL
  rw [pyLStrip_of_head_not_ws l hh]
  exact pyRStrip_of_last_not_ws l ht

theorem string_ne_empty_iff (s : String) : s ≠ "" ↔ s.toList ≠ [] := by
  constructor
  · intro h hl
    exact h (by cases s with | mk d => simpa [String.toList] using congrArg String.mk hl)
  · intro h hs
    exact h (by simp [hs, String.toList])

theorem mk_toList (s : String) : String.mk s.toList = s := rfl

theorem append_toList (a b : String) : (a ++ b).toList = a.toList ++ b.toList := rfl

theorem pyReplaceCore_single (a b : Char) :
    ∀ (fuel : Nat) (l : List Char), l.length ≤ fuel →
      pyReplaceCore [a] [b] fuel l = l.map (fun c => if c = a then b else c) := by
  intro fuel
  induction fuel with
  | zero =>
    intro l hl
    have : l = [] := List.length_eq_zero.mp (Nat.le_zero.mp hl)
    simp [this, pyReplaceCore]
  | succ n ih =>
    intro l hl
    match l with
    | [] => simp [pyReplaceCore]
    | c :: rest =>
      by_cases hc : c = a
      · subst hc
        rw [pyReplaceCore]
        rw [if_pos ⟨by simp, by simp [List.isPrefixOf]⟩]
        have hdrop : (c :: rest).drop [c].length = rest := by simp
        rw [hdrop, ih rest (by simpa using Nat.succ_le_succ_iff.mp hl)]
        simp
      · rw [pyReplaceCore]
        rw [if_neg (by
          intro hcon
          have := hcon.2
          simp [List.isPrefixOf] at this
          exact hc this.symm)]
        rw [ih rest (by simpa using Nat.succ_le_succ_iff.mp hl)]
        simp [hc]

theorem pyReplaceL_single (a b : Char) (l : List Char) :
    pyReplaceL [a] [b] l = l.map (fun c => if c = a then b else c) :=
  pyReplaceCore_single a b l.length l (Nat.le_refl _)

/-- The pointwise effect of the typographic-quote replacement chain. -/
def curlyFn (c : Char) : Char :=
  (fun c => if c = rsq then sq else c)
    ((fun c => if c = lsq then sq else c)
      ((fun c => if c = rqq then '"' else c)
        ((fun c => if c = lqq then '"' else c) c)))

theorem curlyClean_eq_map (l : List Char) : curlyClean l = l.map curlyFn := by
  unfold curlyClean
  rw [pyReplaceL_single, pyReplaceL_single, pyReplaceL_single, pyReplaceL_single]
  rw [List.map_map, List.map_map, List.map_map]
  rfl

theorem curlyFn_id (c : Char) (h1 : c ≠ lqq) (h2 : c ≠ rqq) (h3 : c ≠ lsq) (h4 : c ≠ rsq) :
    curlyFn c = c := by
  unfold curlyFn
  simp only [if_neg h1, if_neg h2, if_neg h3, if_neg h4]

theorem curlyFn_ws (c : Char) : isPyWs (curlyFn c) = isPyWs c := by
  by_cases h1 : c = lqq
  · subst h1; decide
  · by_cases h2 : c = rqq
    · subst h2; decide
    · by_cases h3 : c = lsq
      · subst h3; decide
      · by_cases h4 : c = rsq
        · subst h4; decide
        · rw [curlyFn_id c h1 h2 h3 h4]

theorem curlyFn_not_curly (c : Char) :
    curlyFn c ≠ lqq ∧ curlyFn c ≠ rqq ∧ curlyFn c ≠ lsq ∧ curlyFn c ≠ rsq := by
  by_cases h1 : c = lqq
  · subst h1; decide
  · by_cases h2 : c = rqq
    · subst h2; decide
    · by_cases h3 : c = lsq
      · subst h3; decide
      · by_cases h4 : c = rsq
        · subst h4; decide
        · rw [curlyFn_id c h1 h2 h3 h4]
          exact ⟨h1, h2, h3, h4⟩

theorem pyStripL_map_ws (g : Char → Char) (hg : ∀ c, isPyWs (g c) = isPyWs c)
    (l : List Char) : pyStripL (l.map g) = (pyStripL l).map g := by
  have hcomp : (isPyWs ∘ g) = isPyWs := funext hg
  unfold pyStripL pyLStrip pyRStrip
  rw [List.dropWhile_map, hcomp, ← List.map_reverse, List.dropWhile_map, hcomp,
    List.map_reverse]

theorem mem_stripFenceTag {c : Char} {l : List Char} (h : c ∈ stripFenceTag l) : c ∈ l := by
  unfold stripFenceTag at h
  have h1 := (List.dropWhile_suffix isPyWs).subset h
  repeat' split at h1
  all_goals first
    | exact (List.drop_suffix _ _).subset h1
    | exact h1

theorem mem_stripLeadingFence {c : Char} {l : List Char} (h : c ∈ stripLeadingFence l) :
    c ∈ l := by
  unfold stripLeadingFence at h
  split at h
  · exact (List.drop_suffix _ _).subset (mem_stripFenceTag h)
  · exact h

theorem mem_stripTrailingFence {c : Char} {l : List Char} (h : c ∈ stripTrailingFence l) :
    c ∈ l := by
  unfold stripTrailingFence at h
  split at h
  · exact (List.take_prefix _ _).subset (mem_pyRStrip h)
  · exact h

theorem toList_mk (l : List Char) : (String.mk l).toList = l := rfl

theorem normalizeRaw_eq_pos (raw : String)
    (hf : fence.isPrefixOf (curlyClean (pyStripL raw.toList)) = true) :
    normalizeRaw raw =
      String.mk (pyStripL (stripTrailingFence (stripLeadingFence
        (curlyClean (pyStripL raw.toList))))) := by
  unfold normalizeRaw
  rw [if_pos hf]

theorem bool_eq_false {b : Bool} (h : ¬ b = true) : b = false := by
  cases b <;> simp_all

theorem normalizeRaw_eq_neg (raw : String)
    (hf : fence.isPrefixOf (curlyClean (pyStripL raw.toList)) = false) :
    normalizeRaw raw = String.mk (curlyClean (pyStripL raw.toList)) := by
  unfold normalizeRaw
  rw [if_neg (by simp only [hf]; exact Bool.false_ne_true)]

theorem normalizeRaw_subset (raw : String) :
    ∀ c ∈ (normalizeRaw raw).toList, c ∈ curlyClean (pyStripL raw.toList) := by
  intro c hc
  by_cases hf : fence.isPrefixOf (curlyClean (pyStripL raw.toList))
  · rw [normalizeRaw_eq_pos raw hf, toList_mk] at hc
    exact mem_stripLeadingFence (mem_stripTrailingFence (mem_pyStripL hc))
  · rw [normalizeRaw_eq_neg raw (bool_eq_false hf), toList_mk] at hc
    exact hc

theorem normalizeRaw_not_curly (raw : String) :
    ∀ c ∈ (normalizeRaw raw).toList, c ≠ lqq ∧ c ≠ rqq ∧ c ≠ lsq ∧ c ≠ rsq := by
  intro c hc
  have h1 := normalizeRaw_subset raw c hc
  rw [curlyClean_eq_map] at h1
  obtain ⟨d, _, rfl⟩ := List.mem_map.mp h1
  exact curlyFn_not_curly d

theorem normalizeRaw_stripped (raw : String) :
    pyStripL (normalizeRaw raw).toList = (normalizeRaw raw).toList := by
  by_cases hf : fence.isPrefixOf (curlyClean (pyStripL raw.toList))
  · rw [normalizeRaw_eq_pos raw hf, toList_mk]
    exact pyStripL_idem _
  · rw [normalizeRaw_eq_neg raw (bool_eq_false hf), toList_mk]
    rw [curlyClean_eq_map, pyStripL_map_ws curlyFn curlyFn_ws, pyStripL_idem]

theorem normalizeRaw_fixpoint (t : String)
    (hstrip : pyStripL t.toList = t.toList)
    (hcurly : ∀ c ∈ t.toList, c ≠ lqq ∧ c ≠ rqq ∧ c ≠ lsq ∧ c ≠ rsq)
    (hfence : ¬ fence.isPrefixOf t.toList) : normalizeRaw t = t := by
  have hclean : curlyClean (pyStripL t.toList) = t.toList := by
    rw [hstrip, curlyClean_eq_map]
    have : t.toList.map curlyFn = t.toList.map id := by
      apply List.map_congr_left
      intro a ha
      obtain ⟨h1, h2, h3, h4⟩ := hcurly a ha
      simpa using curlyFn_id a h1 h2 h3 h4
    simpa using this
  rw [normalizeRaw_eq_neg t (by rw [hclean]; exact bool_eq_false hfence), hclean]
  exact mk_toList t

/-- [C8] Counterexample: the Text Normalizer is not idempotent as claimed.
On `"```json\n```abc"` one pass strips only the first fence
(giving `"```abc"`); a second pass strips again (giving `"abc"`). -/
theorem normalizer_not_idempotent_counterexample :
    normalizeRaw (normalizeRaw (String.mk (fence ++ ('j' :: 's' :: 'o' :: 'n' :: '\n' :: fence ++ ['a', 'b', 'c'])))) ≠
      normalizeRaw (String.mk (fence ++ ('j' :: 's' :: 'o' :: 'n' :: '\n' :: fence ++ ['a', 'b', 'c']))) := by
  decide

/-- [C8] Amended claim: the Text Normalizer is idempotent on every input
whose normalized form does not itself begin with a code fence; on such
inputs the second pass strips nothing (the output is already stripped and
free of typographic quotes).  (The claim as stated fails exactly when the
first pass uncovers a second leading fence — see the counterexample.) -/
theorem normalizer_idempotent_of_not_fenced (s : String)
    (h : ¬ fence.isPrefixOf (normalizeRaw s).toList) :
    normalizeRaw (normalizeRaw s) = normalizeRaw s :=
  normalizeRaw_fixpoint (normalizeRaw s) (normalizeRaw_stripped s)
    (normalizeRaw_not_curly s) h

/-- [C8] Witness: the amended idempotence applied at a concrete input. -/
theorem normalizer_idempotent_witness :
    normalizeRaw (normalizeRaw (String.mk (fence ++ ('j' :: 's' :: 'o' :: 'n' :: '\n' :: 'h' :: 'i' :: '\n' :: fence)))) =
      normalizeRaw (String.mk (fence ++ ('j' :: 's' :: 'o' :: 'n' :: '\n' :: 'h' :: 'i' :: '\n' :: fence))) :=
  normalizer_idempotent_of_not_fenced
    (String.mk (fence ++ ('j' :: 's' :: 'o' :: 'n' :: '\n' :: 'h' :: 'i' :: '\n' :: fence)))
    (by decide)

theorem contains_head_mem {a : Char} {m l : List Char}
    (h : listContains (a :: m) l = true) : a ∈ l := by
  induction l with
  | nil => simp [listContains] at h
  | cons c rest ih =>
    rw [listContains] at h
    rcases Bool.or_eq_true_iff.mp h with h1 | h1
    · have : a = c := by
        simp [List.isPrefixOf] at h1
        exact h1.1
      simp [this]
    · exact List.mem_cons_of_mem c (ih h1)

theorem contains_false_of_not_mem {a : Char} {m l : List Char} (h : a ∉ l) :
    listContains (a :: m) l = false := by
  cases hc : listContains (a :: m) l
  · rfl
  · exact absurd (contains_head_mem hc) h

theorem replaceCore_skip {pat rep : List Char} :
    ∀ (l : List Char) (fuel : Nat), listContains pat l = false →
      pyReplaceCore pat rep fuel l = l := by
  intro l
  induction l with
  | nil => intro fuel _; cases fuel <;> rfl
  | cons c rest ih =>
    intro fuel hc
    rw [listContains] at hc
    have h1 : pat.isPrefixOf (c :: rest) = false := by
      cases hp : pat.isPrefixOf (c :: rest)
      · rfl
      · simp [hp] at hc
    have h2 : listContains pat rest = false := by
      cases hp : listContains pat rest
      · rfl
      · simp [hp] at hc
    cases fuel with
    | zero => rfl
    | succ n =>
      rw [pyReplaceCore]
      rw [if_neg (by
        intro hcon
        rw [h1] at hcon
        exact Bool.false_ne_true hcon.2)]
      rw [ih n h2]

theorem replaceL_skip {pat rep l : List Char} (h : listContains pat l = false) :
    pyReplaceL pat rep l = l :=
  replaceCore_skip l l.length h

/-- No occurrence of the two-character escape `[a, y]` in `pre ++ a :: x :: post`
when `a` is absent from `pre` and `post`, `y ≠ x`, and — in case `x = a` —
the occurrence cannot restart at `x` either. -/
theorem contains_pair_mid_false {a y x : Char} {pre post : List Char}
    (hpre : a ∉ pre) (hpost : a ∉ post) (hyx : y ≠ x)
    (hxa : x = a → post.head? ≠ some y) :
    listContains [a, y] (pre ++ a :: x :: post) = false := by
  induction pre with
  | nil =>
    simp only [List.nil_append]
    rw [listContains]
    have h1 : [a, y].isPrefixOf (a :: x :: post) = false := by
      simp [List.isPrefixOf]
      first
        | exact fun h => hyx h.symm
        | exact fun h => hyx h
    rw [h1]
    rw [listContains]
    by_cases hx : x = a
    · subst hx
      have h2 : [x, y].isPrefixOf (x :: post) = false := by
        cases post with
        | nil => simp [List.isPrefixOf]
        | cons d rest =>
          simp [List.isPrefixOf]
          intro hd
          exact absurd (by simp [hd]) (hxa rfl)
      rw [h2]
      simp [contains_false_of_not_mem hpost]
    · have h2 : [a, y].isPrefixOf (x :: post) = false := by
        simp [List.isPrefixOf]
        intro h
        exact absurd h.symm hx
      rw [h2]
      simp [contains_false_of_not_mem hpost]
  | cons c pre2 ih =>
    have hc : c ≠ a := fun h => hpre (by simp [h])
    have hpre2 : a ∉ pre2 := fun h => hpre (List.mem_cons_of_mem c h)
    simp only [List.cons_append]
    rw [listContains]
    have h1 : [a, y].isPrefixOf (c :: (pre2 ++ a :: x :: post)) = false := by
      simp [List.isPrefixOf]
      intro h
      exact absurd h.symm hc
    rw [h1, ih hpre2]
    rfl

/-- Replacing the two-character escape `[a, x]` when it occurs exactly at the
junction. -/
theorem replaceCore_pair_mid {a x : Char} {rep post : List Char}
    (hpost : a ∉ post) :
    ∀ (pre : List Char) (fuel : Nat), pre.length < fuel → a ∉ pre →
      pyReplaceCore [a, x] rep fuel (pre ++ a :: x :: post) = pre ++ rep ++ post := by
  intro pre
  induction pre with
  | nil =>
    intro fuel hf _
    match fuel, hf with
    | n + 1, _ =>
      simp only [List.nil_append]
      rw [pyReplaceCore]
      rw [if_pos ⟨by simp, by simp [List.isPrefixOf]⟩]
      have hdrop : (a :: x :: post).drop [a, x].length = post := by simp
      rw [hdrop, replaceCore_skip post n (contains_false_of_not_mem hpost)]
  | cons c pre2 ih =>
    intro fuel hf hpre
    have hc : c ≠ a := fun h => hpre (by simp [h])
    have hpre2 : a ∉ pre2 := fun h => hpre (List.mem_cons_of_mem c h)
    match fuel, hf with
    | n + 1, hf =>
      simp only [List.cons_append]
      rw [pyReplaceCore]
      rw [if_neg (by
        intro hcon
        have := hcon.2
        simp [List.isPrefixOf] at this
        exact hc this.1.symm)]
      rw [ih n (by simpa using Nat.succ_le_succ_iff.mp hf) hpre2]

theorem replaceL_pair_mid {a x : Char} {rep pre post : List Char}
    (hpre : a ∉ pre) (hpost : a ∉ post) :
    pyReplaceL [a, x] rep (pre ++ a :: x :: post) = pre ++ rep ++ post := by
  apply replaceCore_pair_mid hpost pre
  · simp only [List.length_append, List.length_cons]
    omega
  · exact hpre

theorem string_ext {s t : String} (h : s.toList = t.toList) : s = t := by
  cases s
  cases t
  simp only [String.toList] at h
  rw [h]

theorem data_eq_toList (s : String) : s.data = s.toList := rfl

theorem pyReplace_toList (s pat rep : String) :
    (pyReplace s pat rep).toList = pyReplaceL pat.toList rep.toList s.toList := rfl

theorem replaceL_miss (y x : Char) (rep : List Char) {P Q : List Char}
    (hp : bs ∉ P) (hq : bs ∉ Q) (hyx : y ≠ x) (hxa : x = bs → Q.head? ≠ some y) :
    pyReplaceL [bs, y] rep (P ++ bs :: x :: Q) = P ++ bs :: x :: Q :=
  replaceL_skip (contains_pair_mid_false hp hq hyx hxa)

theorem replaceL_nobs (y : Char) (rep : List Char) {L : List Char} (h : bs ∉ L) :
    pyReplaceL [bs, y] rep L = L :=
  replaceL_skip (contains_false_of_not_mem h)

/-- [C9] Counterexample: `_decode_jsonish_text` turns `\t` into a *space*,
not a tab — `"a\tb"` decodes to `"a b"`. -/
theorem decode_tab_counterexample :
    decodeJsonishText (String.mk ['a', bs, 't', 'b']) = "a b" ∧
      decodeJsonishText (String.mk ['a', bs, 't', 'b']) ≠ "a\tb" := by
  constructor
  · decide
  · decide

/-- [C9] Amended claim: the decoder applies, in order, the replacements
`\"`→`"`, `\'`→`'`, `\n`→newline, `\t`→*space*, `\\`→`\`, then strips.  For
any surrounding text free of backslashes each single escape decodes
accordingly (the `\\` case additionally requires that the following text
does not begin with an escapable character, since the sequential scan would
then consume the second backslash as a new escape — exactly as the Python
chain of `str.replace` calls does). -/
theorem decode_escape_semantics (p q : String)
    (hp : bs ∉ p.toList) (hq : bs ∉ q.toList) :
    decodeJsonishText (p ++ String.mk [bs, 't'] ++ q) = pyStrip (p ++ " " ++ q) ∧
    decodeJsonishText (p ++ String.mk [bs, 'n'] ++ q) = pyStrip (p ++ "\n" ++ q) ∧
    decodeJsonishText (p ++ String.mk [bs, '"'] ++ q) = pyStrip (p ++ "\"" ++ q) ∧
    decodeJsonishText (p ++ String.mk [bs, sq] ++ q) = pyStrip (p ++ sqS ++ q) ∧
    (q.toList.head? ≠ some '"' → q.toList.head? ≠ some sq →
     q.toList.head? ≠ some 'n' → q.toList.head? ≠ some 't' →
      decodeJsonishText (p ++ String.mk [bs, bs] ++ q) = pyStrip (p ++ String.mk [bs] ++ q)) := by
  have happ : ∀ (x : Char), (p ++ String.mk [bs, x] ++ q).toList =
      p.toList ++ bs :: x :: q.toList := by
    intro x
    rw [append_toList, append_toList, toList_mk]
    simp
  have hmid : ∀ (c : Char), c ≠ bs → bs ∉ p.toList ++ c :: q.toList := by
    intro c hcbs hmem
    rcases List.mem_append.mp hmem with h | h
    · exact hp h
    · rcases List.mem_cons.mp h with h | h
      · exact hcbs h.symm
      · exact hq h
  refine ⟨?_, ?_, ?_, ?_, ?_⟩
  · apply string_ext
    unfold decodeJsonishText pyStrip
    rw [toList_mk, toList_mk]
    congr 1
    simp only [data_eq_toList, pyReplace_toList, toList_mk, happ 't', append_toList,
      show (" " : String).toList = [' '] from rfl,
      show ("\n" : String).toList = ['\n'] from rfl,
      show ("\"" : String).toList = ['"'] from rfl,
      List.append_assoc, List.singleton_append]
    rw [replaceL_miss '"' 't' _ hp hq (by decide) (fun h => absurd h (by decide)),
      replaceL_miss sq 't' _ hp hq (by decide) (fun h => absurd h (by decide)),
      replaceL_miss 'n' 't' _ hp hq (by decide) (fun h => absurd h (by decide)),
      replaceL_pair_mid hp hq]
    simp only [List.append_assoc, List.singleton_append]
    rw [replaceL_nobs bs _ (hmid ' ' (by decide))]
  · apply string_ext
    unfold decodeJsonishText pyStrip
    rw [toList_mk, toList_mk]
    congr 1
    simp only [data_eq_toList, pyReplace_toList, toList_mk, happ 'n', append_toList,
      show (" " : String).toList = [' '] from rfl,
      show ("\n" : String).toList = ['\n'] from rfl,
      show ("\"" : String).toList = ['"'] from rfl,
      List.append_assoc, List.singleton_append]
    rw [replaceL_miss '"' 'n' _ hp hq (by decide) (fun h => absurd h (by decide)),
      replaceL_miss sq 'n' _ hp hq (by decide) (fun h => absurd h (by decide)),
      replaceL_pair_mid hp hq]
    simp only [List.append_assoc, List.singleton_append]
    rw [replaceL_nobs 't' _ (hmid '\n' (by decide)),
      replaceL_nobs bs _ (hmid '\n' (by decide))]
  · apply string_ext
    unfold decodeJsonishText pyStrip
    rw [toList_mk, toList_mk]
    congr 1
    simp only [data_eq_toList, pyReplace_toList, toList_mk, happ '"', append_toList,
      show (" " : String).toList = [' '] from rfl,
      show ("\n" : String).toList = ['\n'] from rfl,
      show ("\"" : String).toList = ['"'] from rfl,
      List.append_assoc, List.singleton_append]
    rw [replaceL_pair_mid hp hq]
    simp only [List.append_assoc, List.singleton_append]
    rw [replaceL_nobs sq _ (hmid '"' (by decide)),
      replaceL_nobs 'n' _ (hmid '"' (by decide)),
      replaceL_nobs 't' _ (hmid '"' (by decide)),
      replaceL_nobs bs _ (hmid '"' (by decide))]
  · apply string_ext
    unfold decodeJsonishText pyStrip
    rw [toList_mk, toList_mk]
    congr 1
    simp only [data_eq_toList, pyReplace_toList, toList_mk, happ sq, append_toList,
      show (" " : String).toList = [' '] from rfl,
      show ("\n" : String).toList = ['\n'] from rfl,
      show ("\"" : String).toList = ['"'] from rfl,
      show (sqS : String).toList = [sq] from rfl,
      List.append_assoc, List.singleton_append]
    rw [replaceL_miss '"' sq _ hp hq (by decide) (fun h => absurd h (by decide)),
      replaceL_pair_mid hp hq]
    simp only [List.append_assoc, List.singleton_append]
    rw [replaceL_nobs 'n' _ (hmid sq (by decide)),
      replaceL_nobs 't' _ (hmid sq (by decide)),
      replaceL_nobs bs _ (hmid sq (by decide))]
  · intro h1 h2 h3 h4
    apply string_ext
    unfold decodeJsonishText pyStrip
    rw [toList_mk, toList_mk]
    congr 1
    simp only [data_eq_toList, pyReplace_toList, toList_mk, happ bs, append_toList,
      show (" " : String).toList = [' '] from rfl,
      show ("\n" : String).toList = ['\n'] from rfl,
      show ("\"" : String).toList = ['"'] from rfl,
      List.append_assoc, List.singleton_append]
    rw [replaceL_miss '"' bs _ hp hq (by decide) (fun _ => h1),
      replaceL_miss sq bs _ hp hq (by decide) (fun _ => h2),
      replaceL_miss 'n' bs _ hp hq (by decide) (fun _ => h3),
      replaceL_miss 't' bs _ hp hq (by decide) (fun _ => h4),
      replaceL_pair_mid hp hq]
    simp only [List.append_assoc, List.singleton_append]

/-- [C9] Witness: the amended decode semantics at a concrete input. -/
theorem decode_escape_semantics_witness :
    decodeJsonishText ("a" ++ String.mk [bs, 't'] ++ "b") = pyStrip ("a" ++ " " ++ "b") :=
  (decode_escape_semantics "a" "b" (by decide) (by decide)).1

theorem lazyGroupCore_found (qc : Char) (rest : List Char)
    (hlook : lookaheadOk rest = true) :
    ∀ (X : List Char) (fuel : Nat), X.length < fuel → qc ∉ X →
      lazyGroupCore qc fuel (X ++ qc :: rest) = some X := by
  intro X
  induction X with
  | nil =>
    intro fuel hf _
    match fuel, hf with
    | n + 1, _ =>
      simp only [List.nil_append]
      rw [lazyGroupCore]
      rw [if_pos ⟨rfl, hlook⟩]
  | cons c X2 ih =>
    intro fuel hf hq
    have hc : c ≠ qc := fun h => hq (by simp [h])
    have hq2 : qc ∉ X2 := fun h => hq (List.mem_cons_of_mem c h)
    match fuel, hf with
    | n + 1, hf =>
      simp only [List.cons_append]
      rw [lazyGroupCore]
      rw [if_neg (fun hcon => hc hcon.1)]
      rw [ih n (by simpa using Nat.succ_le_succ_iff.mp hf) hq2]
      rfl

theorem searchSummaryCore_of_matchAt {qc : Char} {l g : List Char}
    (h : summaryMatchAt qc l = some g) :
    ∀ fuel, searchSummaryCore qc fuel l = some g := by
  intro fuel
  cases fuel with
  | zero => simpa [searchSummaryCore] using h
  | succ n =>
    cases l with
    | nil =>
      have hstep : searchSummaryCore qc (n + 1) [] = summaryMatchAt qc [] := rfl
      rw [hstep, h]
    | cons c rest =>
      have hstep : searchSummaryCore qc (n + 1) (c :: rest) =
          match summaryMatchAt qc (c :: rest) with
          | some g => some g
          | none => searchSummaryCore qc n rest := rfl
      rw [hstep, h]

theorem searchSummary_of_matchAt {qc : Char} {l g : List Char}
    (h : summaryMatchAt qc l = some g) : searchSummary qc l = some g :=
  searchSummaryCore_of_matchAt h l.length

theorem findSome?_cons_some {α β : Type} (f : α → Option β) (k : α) (ks : List α)
    {b : β} (h : f k = some b) : List.findSome? f (k :: ks) = some b := by
  have hstep : List.findSome? f (k :: ks) =
      match f k with
      | some b => some b
      | none => List.findSome? f ks := rfl
  rw [hstep, h]

theorem regexSummaryOf_p1_some {cleaned g : List Char}
    (h : searchSummary '"' cleaned = some g) (hg : pyStripL g ≠ []) :
    regexSummaryOf cleaned = decodeJsonishText (String.mk g) := by
  unfold regexSummaryOf
  rw [h]
  rw [show (match some g with
      | some g => if pyStripL g = [] then none
          else some (decodeJsonishText (String.mk g))
      | none => none) =
    (if pyStripL g = [] then none else some (decodeJsonishText (String.mk g))) from rfl]
  rw [if_neg hg]

theorem decode_of_no_bs {s : String} (h : bs ∉ s.toList) :
    decodeJsonishText s = pyStrip s := by
  apply string_ext
  unfold decodeJsonishText pyStrip
  rw [toList_mk, toList_mk]
  congr 1
  simp only [data_eq_toList, pyReplace_toList, toList_mk]
  rw [replaceL_nobs '"' _ h, replaceL_nobs sq _ h, replaceL_nobs 'n' _ h,
    replaceL_nobs 't' _ h, replaceL_nobs bs _ h]

/-- [C3] Counterexample: on raw text `summary: "X"` with no surrounding
braces and no following key pair or closing brace, the regex summary
recoverer returns the empty string, not `"X"` — the lookahead of the
pattern requires a terminator.  The whole extractor returns `("", [])`. -/
theorem regex_braceless_counterexample :
    regexSummaryOf ("summary: \"X\"").toList = "" ∧
      extractEmbeddedSummaryPayload "summary: \"X\"" = ("", []) := by
  constructor
  · decide
  · decide

/-- [C3] Amended claim: for raw text containing `summary: "X"` with no
surrounding braces and an unquoted key, the recoverer returns `X` *when the
quoted value is followed by another `key:` pair (or a closing brace)*; a
bare `summary: "X"` at the end of the text yields `""` (see the
counterexample).  Here `X` ranges over non-empty stripped strings of ASCII
letters, digits and spaces. -/
theorem regex_recoverer_terminated (X : String)
    (hchars : ∀ c ∈ X.toList, isAsciiAlpha c = true ∨ isDigitC c = true ∨ c = ' ')
    (hstrip : pyStrip X = X) (hne : X ≠ "") :
    regexSummaryOf (("summary: \"" ++ X) ++ "\", next: \"y\"").toList = X := by
  have hq : '"' ∉ X.toList := by
    intro hm
    rcases hchars _ hm with h | h | h
    · exact absurd h (by decide)
    · exact absurd h (by decide)
    · exact absurd h (by decide)
  have hbs : bs ∉ X.toList := by
    intro hm
    rcases hchars _ hm with h | h | h
    · exact absurd h (by decide)
    · exact absurd h (by decide)
    · exact absurd h (by decide)
  have hl : (("summary: \"" ++ X) ++ "\", next: \"y\"").toList =
      's' :: 'u' :: 'm' :: 'm' :: 'a' :: 'r' :: 'y' :: ':' :: ' ' :: '"' ::
        (X.toList ++ ('"' :: ',' :: ' ' :: 'n' :: 'e' :: 'x' :: 't' :: ':' :: ' ' :: '"' :: 'y' :: ['"'])) := by
    rw [append_toList, append_toList,
      show ("summary: \"" : String).toList =
        ['s', 'u', 'm', 'm', 'a', 'r', 'y', ':', ' ', '"'] from rfl,
      show ("\", next: \"y\"" : String).toList =
        ['"', ',', ' ', 'n', 'e', 'x', 't', ':', ' ', '"', 'y', '"'] from rfl]
    simp [List.cons_append, List.append_assoc]
  have hlazy : lazyGroup '"'
      (X.toList ++ ('"' :: ',' :: ' ' :: 'n' :: 'e' :: 'x' :: 't' :: ':' :: ' ' :: '"' :: 'y' :: ['"'])) =
      some X.toList := by
    unfold lazyGroup
    apply lazyGroupCore_found '"' _ (by decide) X.toList
    · simp only [List.length_append, List.length_cons]
      omega
    · exact hq
  have hmatch : summaryMatchAt '"'
      ('s' :: 'u' :: 'm' :: 'm' :: 'a' :: 'r' :: 'y' :: ':' :: ' ' :: '"' ::
        (X.toList ++ ('"' :: ',' :: ' ' :: 'n' :: 'e' :: 'x' :: 't' :: ':' :: ' ' :: '"' :: 'y' :: ['"']))) =
      some X.toList := by
    unfold summaryMatchAt matchKeysCI summaryFieldKeys
    apply findSome?_cons_some
    exact hlazy
  have hsearch : searchSummary '"' (("summary: \"" ++ X) ++ "\", next: \"y\"").toList =
      some X.toList := by
    rw [hl]
    exact searchSummary_of_matchAt hmatch
  have hXl : pyStripL X.toList = X.toList := by
    have := congrArg String.toList hstrip
    simpa [pyStrip, toList_mk] using this
  have hXne : X.toList ≠ [] := (string_ne_empty_iff X).mp hne
  rw [regexSummaryOf_p1_some hsearch (by rw [hXl]; exact hXne)]
  rw [decode_of_no_bs (by simpa [toList_mk] using hbs), mk_toList]
  exact hstrip

/-- [C3] Witness: the amended recoverer behaviour at `X := "X"`. -/
theorem regex_recoverer_terminated_witness :
    regexSummaryOf (("summary: \"" ++ "X") ++ "\", next: \"y\"").toList = "X" :=
  regex_recoverer_terminated "X" (by decide) (by decide) (by decide)

/-- [C2] Counterexample: the candidate variants are not cumulative — key
quoting applies to the original candidate, not to the trailing-comma-free
variant — so an object combining an unquoted key with a trailing comma,
`\x7bsummary: "x",\x7d`, is rejected by the relaxed extractor. -/
theorem extractor_not_cumulative_counterexample :
    tryParseObject "\x7bsummary: \"x\",\x7d" = none := by
  rfl

/-- [C2] Amended claim: for each candidate the variants are tried in the
fixed order: unchanged; trailing commas removed from the candidate; the
candidate (not the previous variant) with unquoted keys double-quoted; the
key-quoted candidate with single-quoted literals converted.  Each of the
three malformations is recovered individually, and the unquoted-key and
single-quote malformations combined are recovered; a trailing comma
combined with either of the others is not (see the counterexample). -/
theorem extractor_variant_order :
    (∀ c, candidateVariants c =
      [c, removeTrailingCommas c, quoteKeys c, singleToDouble (quoteKeys c)]) ∧
    tryParseObject "\x7b\"summary\": \"x\",\x7d" = some [("summary", JValue.jstr "x")] ∧
    tryParseObject "\x7bsummary: \"x\"\x7d" = some [("summary", JValue.jstr "x")] ∧
    tryParseObject "\x7b\x27summary\x27: \x27x\x27\x7d" = some [("summary", JValue.jstr "x")] ∧
    tryParseObject "\x7bsummary: \x27x\x27, key_points: [\x27a\x27]\x7d" =
      some [("summary", JValue.jstr "x"), ("key_points", JValue.jarr [JValue.jstr "a"])] :=
  ⟨fun _ => rfl, rfl, rfl, rfl, rfl⟩

/-- [C7] Counterexample: an unrecognized format type is not a hard failure —
rendering with format type `bogus` returns the very same document as with
`markdown`, and the caller-side content assignment silently yields no text
content, no markdown content and a false html flag instead of raising. -/
theorem format_type_counterexample :
    formatMinutes false "T" "meeting" "" "" "S" [] [] [] "meeting" [] [] []
        [] [] [] [] none [] [] false false false false "bogus" =
      formatMinutes false "T" "meeting" "" "" "S" [] [] [] "meeting" [] [] []
        [] [] [] [] none [] [] false false false false "markdown" ∧
      minutesContentAssignment "bogus" "x" = (none, none, false) := by
  exact ⟨rfl, by decide⟩

/-- [C7] Amended claim: the renderer never fails on the format type — the
parameter is ignored entirely, so any two format types yield the same
document — and for a format type outside the recognized set
(text, markdown, html) the caller assigns no content and a false html flag
without raising. -/
theorem format_type_ignored :
    (∀ preferVi meetingTitle meetingType startTime endTime summary keyPoints
        keywords topics sessionType actions decisions risks actionRows
        decisionRows riskRows nextSteps studyPack topicTracker aiFilters
        includeTopicTracker includeAiFilters includeQuiz includeKnowledgeTable
        ft1 ft2,
      formatMinutes preferVi meetingTitle meetingType startTime endTime summary
          keyPoints keywords topics sessionType actions decisions risks
          actionRows decisionRows riskRows nextSteps studyPack topicTracker
          aiFilters includeTopicTracker includeAiFilters includeQuiz
          includeKnowledgeTable ft1 =
        formatMinutes preferVi meetingTitle meetingType startTime endTime summary
          keyPoints keywords topics sessionType actions decisions risks
          actionRows decisionRows riskRows nextSteps studyPack topicTracker
          aiFilters includeTopicTracker includeAiFilters includeQuiz
          includeKnowledgeTable ft2) ∧
    (∀ format content, format ≠ "text" → format ≠ "markdown" → format ≠ "html" →
      minutesContentAssignment format content = (none, none, false)) := by
  constructor
  · intro preferVi meetingTitle meetingType startTime endTime summary keyPoints
      keywords topics sessionType actions decisions risks actionRows
      decisionRows riskRows nextSteps studyPack topicTracker aiFilters
      includeTopicTracker includeAiFilters includeQuiz includeKnowledgeTable
      ft1 ft2
    rfl
  · intro format content h1 h2 h3
    unfold minutesContentAssignment
    rw [if_neg h1, if_neg h2]
    simp [h2, h3]

/-- [C7] Witness: content assignment at the unrecognized format `bogus`. -/
theorem format_type_ignored_witness :
    minutesContentAssignment "bogus" "x" = (none, none, false) :=
  format_type_ignored.2 "bogus" "x" (by decide) (by decide) (by decide)

theorem kpDedup_single (t : String) :
    kpDedup [t] = if kpCleanItem t = [] then [] else [String.mk (kpCleanItem t)] := by
  by_cases h : kpCleanItem t = []
  · rw [if_pos h]
    simp [kpDedup, kpStep, h]
  · rw [if_neg h]
    simp [kpDedup, kpStep, h]

/-- [C5] Counterexample: the candidate `99.` is dropped by key-points
cleaning even though it is neither empty/whitespace nor a recognized
placeholder — marker stripping erases it entirely before the placeholder
check is reached. -/
theorem placeholder_drop_counterexample :
    normalizeKeyPointsL ["99."] = [] ∧
      pyStrip "99." ≠ "" ∧ isPlaceholderValue "99." = false := by
  exact ⟨by decide, by decide, by decide⟩

/-- [C5] Amended claim: a singleton candidate is dropped exactly when its
strip is empty, or its strip is a recognized placeholder (case-insensitive
substring match against the fixed set), or stripping leading bullet/number
markers and collapsing whitespace leaves nothing; and the list
`["Unknown", "  ", "Không rõ", "Ship v2"]` normalizes to `["Ship v2"]`. -/
theorem key_points_drop_characterization :
    (∀ s : String, normalizeKeyPointsL [s] = [] ↔
      (pyStrip s = "" ∨ isPlaceholderValue (pyStrip s) = true ∨
        kpCleanItem (pyStrip s) = [])) ∧
    normalizeKeyPointsL ["Unknown", "  ", "Không rõ", "Ship v2"] = ["Ship v2"] := by
  constructor
  · intro s
    have h1 : normalizeKeyPointsL [s] = kpDedup (addCandidateStr s) := by
      simp [normalizeKeyPointsL, normalizeKeyPoints, addCandidate]
    rw [h1]
    unfold addCandidateStr
    by_cases he : pyStrip s = ""
    · simp [he, kpDedup]
    · by_cases hp : isPlaceholderValue (pyStrip s) = true
      · simp [he, hp, kpDedup]
      · rw [if_pos ⟨he, hp⟩]
        rw [kpDedup_single]
        by_cases hc : kpCleanItem (pyStrip s) = []
        · simp [hc, he, hp]
        · simp [hc, he, hp]
  · decide

theorem chunkLoop_mem_ne_empty (chars : List Char) (m ov : Nat) :
    ∀ fuel start c, c ∈ chunkLoop chars m ov fuel start → c ≠ "" := by
  intro fuel
  induction fuel with
  | zero =>
    intro start c hc
    simp [chunkLoop] at hc
  | succ n ih =>
    intro start c hc
    by_cases hs : start < chars.length
    · rw [show chunkLoop chars m ov (n + 1) start =
          (if start < chars.length then
            let e := min chars.length (start + m)
            let chunk := pyStripL ((chars.drop start).take (e - start))
            let acc := if chunk ≠ [] then [String.mk chunk] else []
            if chars.length ≤ e then acc
            else acc ++ chunkLoop chars m ov n (e - ov)
          else []) from rfl, if_pos hs] at hc
      set e := min chars.length (start + m) with he
      set chunk := pyStripL ((chars.drop start).take (e - start)) with hch
      have hacc : ∀ d, d ∈ (if chunk ≠ [] then [String.mk chunk] else []) → d ≠ "" := by
        intro d hd
        by_cases hne : chunk ≠ []
        · rw [if_pos hne] at hd
          simp at hd
          subst hd
          exact (string_ne_empty_iff (String.mk chunk)).mpr hne
        · rw [if_neg hne] at hd
          simp at hd
      by_cases hend : chars.length ≤ e
      · rw [if_pos hend] at hc
        exact hacc c hc
      · rw [if_neg hend] at hc
        rcases List.mem_append.mp hc with h1 | h2
        · exact hacc c h1
        · exact ih (e - ov) c h2
    · rw [show chunkLoop chars m ov (n + 1) start =
          (if start < chars.length then
            let e := min chars.length (start + m)
            let chunk := pyStripL ((chars.drop start).take (e - start))
            let acc := if chunk ≠ [] then [String.mk chunk] else []
            if chars.length ≤ e then acc
            else acc ++ chunkLoop chars m ov n (e - ov)
          else []) from rfl, if_neg hs] at hc
      simp at hc

theorem chunkLoop_fuel_stable (chars : List Char) (m ov : Nat)
    (hov : ov < m) :
    ∀ fuel start, chars.length ≤ start + fuel →
      chunkLoop chars m ov (fuel + 1) start = chunkLoop chars m ov fuel start := by
  intro fuel
  induction fuel with
  | zero =>
    intro start hlen
    have hs : ¬ start < chars.length := by omega
    rw [show chunkLoop chars m ov 1 start =
          (if start < chars.length then
            let e := min chars.length (start + m)
            let chunk := pyStripL ((chars.drop start).take (e - start))
            let acc := if chunk ≠ [] then [String.mk chunk] else []
            if chars.length ≤ e then acc
            else acc ++ chunkLoop chars m ov 0 (e - ov)
          else []) from rfl, if_neg hs]
    rfl
  | succ n ih =>
    intro start hlen
    by_cases hs : start < chars.length
    · rw [show chunkLoop chars m ov (n + 1 + 1) start =
          (if start < chars.length then
            let e := min chars.length (start + m)
            let chunk := pyStripL ((chars.drop start).take (e - start))
            let acc := if chunk ≠ [] then [String.mk chunk] else []
            if chars.length ≤ e then acc
            else acc ++ chunkLoop chars m ov (n + 1) (e - ov)
          else []) from rfl, if_pos hs]
      rw [show chunkLoop chars m ov (n + 1) start =
          (if start < chars.length then
            let e := min chars.length (start + m)
            let chunk := pyStripL ((chars.drop start).take (e - start))
            let acc := if chunk ≠ [] then [String.mk chunk] else []
            if chars.length ≤ e then acc
            else acc ++ chunkLoop chars m ov n (e - ov)
          else []) from rfl, if_pos hs]
      set e := min chars.length (start + m) with he
      by_cases hend : chars.length ≤ e
      · rw [if_pos hend, if_pos hend]
      · rw [if_neg hend, if_neg hend]
        have hadv : start + 1 ≤ e - ov := by
          have h1 : e = start + m := by omega
          omega
        rw [ih (e - ov) (by omega)]
    · rw [show chunkLoop chars m ov (n + 1 + 1) start =
          (if start < chars.length then
            let e := min chars.length (start + m)
            let chunk := pyStripL ((chars.drop start).take (e - start))
            let acc := if chunk ≠ [] then [String.mk chunk] else []
            if chars.length ≤ e then acc
            else acc ++ chunkLoop chars m ov (n + 1) (e - ov)
          else []) from rfl, if_neg hs]
      rw [show chunkLoop chars m ov (n + 1) start =
          (if start < chars.length then
            let e := min chars.length (start + m)
            let chunk := pyStripL ((chars.drop start).take (e - start))
            let acc := if chunk ≠ [] then [String.mk chunk] else []
            if chars.length ≤ e then acc
            else acc ++ chunkLoop chars m ov n (e - ov)
          else []) from rfl, if_neg hs]

/-- [C10] Counterexample: with an empty text and a non-positive window size
the chunker returns no chunks at all, not the whole text as a single
chunk — the empty-text guard precedes the window-size guard. -/
theorem chunk_empty_counterexample :
    chunkText "" 0 0 = [] ∧ chunkText "" 0 0 ≠ [""] := ⟨rfl, by decide⟩

/-- [C10] Amended claim: for a non-positive window size the whole text is
one chunk only when the text is non-empty (an empty text gives no chunks);
every returned chunk is a non-empty string; and with a positive window size
the loop is fuel-stable at length-plus-one steps — the overlap clamp makes
every iteration advance, so chunking terminates within the text length. -/
theorem chunking_behaviour :
    (∀ (text : String) (maxChars overlap : Int), maxChars ≤ 0 → text ≠ "" →
      chunkText text maxChars overlap = [text]) ∧
    (∀ (text : String) (maxChars overlap : Int) (c : String),
      c ∈ chunkText text maxChars overlap → c ≠ "") ∧
    (∀ (text : String) (maxChars overlap : Int) (k : Nat), 0 < maxChars →
      chunkLoop text.toList maxChars.toNat
          ((max 0 (min overlap (maxChars - 1))).toNat)
          (text.toList.length + 1 + k) 0 =
        chunkLoop text.toList maxChars.toNat
          ((max 0 (min overlap (maxChars - 1))).toNat)
          (text.toList.length + 1) 0) := by
  refine ⟨?_, ?_, ?_⟩
  · intro text maxChars overlap hmc htext
    unfold chunkText
    rw [if_neg htext, if_pos hmc]
  · intro text maxChars overlap c hc
    unfold chunkText at hc
    by_cases htext : text = ""
    · rw [if_pos htext] at hc
      simp at hc
    · rw [if_neg htext] at hc
      by_cases hmc : maxChars ≤ 0
      · rw [if_pos hmc] at hc
        simp at hc
        rwa [hc]
      · rw [if_neg hmc] at hc
        exact chunkLoop_mem_ne_empty _ _ _ _ _ c hc
  · intro text maxChars overlap k hmc
    induction k with
    | zero => rfl
    | succ n ih =>
      have hov : (max 0 (min overlap (maxChars - 1))).toNat < maxChars.toNat := by
        omega
      have hstep := chunkLoop_fuel_stable text.toList maxChars.toNat
        ((max 0 (min overlap (maxChars - 1))).toNat) hov
        (text.toList.length + 1 + n) 0 (by omega)
      calc chunkLoop text.toList maxChars.toNat
            ((max 0 (min overlap (maxChars - 1))).toNat)
            (text.toList.length + 1 + (n + 1)) 0 =
          chunkLoop text.toList maxChars.toNat
            ((max 0 (min overlap (maxChars - 1))).toNat)
            (text.toList.length + 1 + n) 0 := hstep
        _ = chunkLoop text.toList maxChars.toNat
            ((max 0 (min overlap (maxChars - 1))).toNat)
            (text.toList.length + 1) 0 := ih

/-- [C10] Witness: the amended chunking behaviour at concrete inputs. -/
theorem chunking_behaviour_witness :
    chunkText "abc" 0 0 = ["abc"] ∧ "ab" ≠ "" ∧
      chunkLoop ("ab" : String).toList (2 : Int).toNat
          ((max 0 (min (1 : Int) ((2 : Int) - 1))).toNat)
          (("ab" : String).toList.length + 1 + 5) 0 =
        chunkLoop ("ab" : String).toList (2 : Int).toNat
          ((max 0 (min (1 : Int) ((2 : Int) - 1))).toNat)
          (("ab" : String).toList.length + 1) 0 :=
  ⟨chunking_behaviour.1 "abc" 0 0 (by decide) (by decide),
   chunking_behaviour.2.1 "ab cd" 2 0 "ab" (by decide),
   chunking_behaviour.2.2 "ab" 2 1 5 (by decide)⟩

theorem kpStep_length_le (acc : List String × List (List Char)) (item : String) :
    (kpStep acc item).1.length ≤ acc.1.length + 1 := by
  unfold kpStep
  by_cases h1 : kpCleanItem item = []
  · rw [if_pos h1]
    omega
  · rw [if_neg h1]
    by_cases h2 : acc.2.contains (pyLowerL (kpCleanItem item))
    · rw [if_pos h2]
      omega
    · rw [if_neg h2]
      simp

theorem kpDedup_foldl_le (l : List String) :
    ∀ acc : List String × List (List Char),
      ((l.foldl kpStep acc).1).length ≤ acc.1.length + l.length := by
  induction l with
  | nil =>
    intro acc
    simp
  | cons x xs ih =>
    intro acc
    rw [List.foldl_cons]
    have h1 := ih (kpStep acc x)
    have h2 := kpStep_length_le acc x
    simp only [List.length_cons]
    omega

theorem kpDedup_length_le (l : List String) : (kpDedup l).length ≤ l.length := by
  have h := kpDedup_foldl_le l ([], [])
  simpa [kpDedup] using h

theorem addCandidateStr_length_le (s : String) : (addCandidateStr s).length ≤ 1 := by
  simp only [addCandidateStr]
  split
  · simp
  · simp

theorem flatMap_addCandidateStr_le (l : List String) :
    (l.flatMap addCandidateStr).length ≤ l.length := by
  induction l with
  | nil => simp
  | cons x xs ih =>
    rw [List.flatMap_cons]
    have h := addCandidateStr_length_le x
    simp only [List.length_append, List.length_cons]
    omega

theorem normalizeKeyPointsL_length_le (points : List String) :
    (normalizeKeyPointsL points).length ≤ points.length := by
  have h1 : normalizeKeyPointsL points = kpDedup (points.flatMap addCandidateStr) := by
    unfold normalizeKeyPointsL normalizeKeyPoints
    simp only [List.flatMap_map]
    rfl
  rw [h1]
  calc (kpDedup (points.flatMap addCandidateStr)).length
      ≤ (points.flatMap addCandidateStr).length := kpDedup_length_le _
    _ ≤ points.length := flatMap_addCandidateStr_le points

theorem append4_ite_length {α : Type} (c1 c2 c3 c4 : Prop) [Decidable c1] [Decidable c2]
    [Decidable c3] [Decidable c4] (a b c d : α) :
    ((if c1 then [a] else []) ++ (if c2 then [b] else []) ++
      (if c3 then [c] else []) ++ (if c4 then [d] else [])).length ≤ 4 := by
  split <;> split <;> split <;> split <;> simp

theorem fallbackPointsRaw_length_le (preferVi : Bool) (nA nD nR nDocs : Nat) :
    (fallbackPointsRaw preferVi nA nD nR nDocs).length ≤ 4 := by
  simp only [fallbackPointsRaw]
  have gen : ∀ (A B C D : List String) (x : String),
      A.length ≤ 1 → B.length ≤ 1 → C.length ≤ 1 → D.length ≤ 1 →
      (if A ++ B ++ C ++ D = [] then [x] else A ++ B ++ C ++ D).length ≤ 4 := by
    intro A B C D x hA hB hC hD
    split
    · simp
    · simp only [List.length_append]
      omega
  exact gen _ _ _ _ _ (by split <;> simp) (by split <;> simp) (by split <;> simp)
    (by split <;> simp)

/-- [C6] Counterexample: thirteen distinct raw key points all survive
normalization and are handed to the final record unchanged — the final
key-points list is not bounded by 12 (and no cap of 8 exists in the
normalizer). -/
theorem key_points_unbounded_counterexample :
    ((summaryStage false "T" "" "" [] [] [] [] "S"
        (JValue.jarr [JValue.jstr "pa", JValue.jstr "pb", JValue.jstr "pc",
          JValue.jstr "pd", JValue.jstr "pe", JValue.jstr "pf", JValue.jstr "pg",
          JValue.jstr "ph", JValue.jstr "pi", JValue.jstr "pj", JValue.jstr "pk",
          JValue.jstr "pl", JValue.jstr "pm"])).2).length = 13 := by
  decide

/-- [C6] Amended claim: the normalizer applies no count cap — whenever
normalization yields a non-empty list, the stage passes it through whole,
so the final key-points count is unbounded; only the count-based fallback
bullets are bounded, and their bound is 4 (the code slices to at most 5,
and at most 4 bullets are ever generated), not 8. -/
theorem key_points_bounds :
    (∀ preferVi meetingTitle meetingDesc transcript relatedDocs actionRows
        decisionRows riskRows rawSummary rawKeyPoints,
      normalizeKeyPoints rawKeyPoints ≠ [] →
      (summaryStage preferVi meetingTitle meetingDesc transcript relatedDocs
          actionRows decisionRows riskRows rawSummary rawKeyPoints).2 =
        normalizeKeyPoints rawKeyPoints) ∧
    (∀ preferVi actionRows decisionRows riskRows relatedDocs,
      (fallbackKeyPoints preferVi actionRows decisionRows riskRows
          relatedDocs).length ≤ 4) := by
  constructor
  · intro preferVi meetingTitle meetingDesc transcript relatedDocs actionRows
      decisionRows riskRows rawSummary rawKeyPoints h
    simp only [summaryStage]
    have h1 : ¬ ((extractEmbeddedSummaryPayload (pyStrip rawSummary)).2 ≠ [] ∧
        normalizeKeyPoints rawKeyPoints = []) := fun hc => h hc.2
    rw [if_neg h1]
    rw [if_neg h]
  · intro preferVi actionRows decisionRows riskRows relatedDocs
    unfold fallbackKeyPoints
    have h1 := normalizeKeyPointsL_length_le
      ((fallbackPointsRaw preferVi actionRows.length decisionRows.length
        riskRows.length relatedDocs.length).take 5)
    have h2 := fallbackPointsRaw_length_le preferVi actionRows.length
      decisionRows.length riskRows.length relatedDocs.length
    have h3 : ((fallbackPointsRaw preferVi actionRows.length decisionRows.length
        riskRows.length relatedDocs.length).take 5).length ≤ 4 := by
      rw [List.length_take]
      omega
    omega

/-- [C6] Witness: the pass-through and fallback bounds at concrete inputs. -/
theorem key_points_bounds_witness :
    (summaryStage false "T" "" "" [] [] [] [] "S"
        (JValue.jarr [JValue.jstr "pa"])).2 =
      normalizeKeyPoints (JValue.jarr [JValue.jstr "pa"]) ∧
    (fallbackKeyPoints false [] [] [] []).length ≤ 4 :=
  ⟨key_points_bounds.1 false "T" "" "" [] [] [] [] "S"
      (JValue.jarr [JValue.jstr "pa"]) (by decide),
   key_points_bounds.2 false [] [] [] []⟩

theorem head?_append_str {p : String} (x : String) {c : Char}
    (h : p.toList.head? = some c) : (p ++ x).toList.head? = some c := by
  rw [append_toList]
  cases hl : p.toList with
  | nil => rw [hl] at h; simp at h
  | cons a r =>
    rw [hl] at h
    simp at h
    simp [h]

theorem ne_of_head? {s t : String} {c d : Char}
    (hs : s.toList.head? = some c) (ht : t.toList.head? = some d) (hcd : c ≠ d) :
    s ≠ t := by
  intro he
  rw [he, ht] at hs
  exact hcd (Option.some.inj hs).symm

theorem ne_empty_of_head? {s : String} {c : Char}
    (h : s.toList.head? = some c) : s ≠ "" := by
  rw [string_ne_empty_iff]
  intro hl
  rw [hl] at h
  simp at h

theorem take2_append {p : String} (x : String) (h : 2 ≤ p.toList.length) :
    (p ++ x).toList.take 2 = p.toList.take 2 := by
  rw [append_toList]
  exact List.take_append_of_le_length h

theorem ne_of_take2 {s t : String} (h : s.toList.take 2 ≠ t.toList.take 2) :
    s ≠ t :=
  fun he => h (by rw [he])

theorem natDigitsCore_mem : ∀ fuel n c, c ∈ natDigitsCore fuel n →
    ∃ k, k < 10 ∧ c = digitChar k := by
  intro fuel
  induction fuel with
  | zero =>
    intro n c hc
    simp [natDigitsCore] at hc
  | succ f ih =>
    intro n c hc
    rw [show natDigitsCore (f + 1) n =
        (if n < 10 then [digitChar n]
         else natDigitsCore f (n / 10) ++ [digitChar (n % 10)]) from rfl] at hc
    by_cases h : n < 10
    · rw [if_pos h] at hc
      simp at hc
      exact ⟨n, h, hc⟩
    · rw [if_neg h] at hc
      rcases List.mem_append.mp hc with h1 | h2
      · exact ih _ c h1
      · simp at h2
        exact ⟨n % 10, Nat.mod_lt _ (by omega), h2⟩

theorem isDigitC_digitChar {k : Nat} (h : k < 10) :
    isDigitC (digitChar k) = true := by
  interval_cases k <;> decide

theorem natDigitsCore_ne_nil (f n : Nat) : natDigitsCore (f + 1) n ≠ [] := by
  rw [show natDigitsCore (f + 1) n =
      (if n < 10 then [digitChar n]
       else natDigitsCore f (n / 10) ++ [digitChar (n % 10)]) from rfl]
  split
  · simp
  · simp

theorem pyStrNat_head_digit (n : Nat) :
    ∃ c, (pyStrNat n).toList.head? = some c ∧ isDigitC c = true := by
  unfold pyStrNat
  rw [toList_mk]
  cases hl : natDigitsCore (n + 1) n with
  | nil => exact absurd hl (natDigitsCore_ne_nil n n)
  | cons a r =>
    refine ⟨a, by simp, ?_⟩
    have ha : a ∈ natDigitsCore (n + 1) n := by
      rw [hl]
      exact List.mem_cons_self a r
    rcases natDigitsCore_mem _ _ _ ha with ⟨k, hk, he⟩
    rw [he]
    exact isDigitC_digitChar hk

theorem not_mem_numbered {t : String} (ht : t.toList.head? = some '#')
    (l : List (Nat × String)) (f : Nat × String → String) :
    t ∉ l.map (fun p => pyStrNat p.1 ++ ". " ++ f p) := by
  intro hm
  rcases List.mem_map.mp hm with ⟨p, _, he⟩
  rcases pyStrNat_head_digit p.1 with ⟨c, hc, hd⟩
  have h2 := head?_append_str (f p) (head?_append_str ". " hc)
  rw [he, ht] at h2
  have hcc : c = '#' := (Option.some.inj h2).symm
  rw [hcc] at hd
  exact absurd hd (by decide)

theorem not_mem_prefix_map {α : Type} {t : String} {c : Char} {pre : String}
    (hpre : pre.toList.head? = some c) (hct : c ≠ '#')
    (ht : t.toList.head? = some '#') (l : List α) (f : α → String) :
    t ∉ l.map (fun p => pre ++ f p) := by
  intro hm
  rcases List.mem_map.mp hm with ⟨p, _, he⟩
  have h2 := head?_append_str (f p) hpre
  rw [he, ht] at h2
  exact hct (Option.some.inj h2).symm

theorem tableRow_head (cells : List String) :
    (tableRow cells).toList.head? = some '|' := by
  unfold tableRow
  exact head?_append_str " |" (head?_append_str (pyJoin " | " cells) (by decide))

theorem not_mem_tableRow_map {α : Type} {t : String}
    (ht : t.toList.head? = some '#') (l : List α) (f : α → List String) :
    t ∉ l.map (fun r => tableRow (f r)) := by
  intro hm
  rcases List.mem_map.mp hm with ⟨p, _, he⟩
  have h2 := tableRow_head (f p)
  rw [he, ht] at h2
  exact absurd (Option.some.inj h2).symm (by decide)

theorem hash_mem_of_take2 {t : String} (ht : t.toList.take 2 = ['#', '#']) :
    '#' ∈ t.toList := by
  cases hl : t.toList with
  | nil => rw [hl] at ht; simp at ht
  | cons a r =>
    rw [hl] at ht
    simp [List.take_cons] at ht
    simp [ht.1]

theorem not_mem_quiz {t : String} (ht : t.toList.head? = some '#')
    (preferVi : Bool) (l : List (Nat × QuizRow)) :
    t ∉ l.flatMap (fun p =>
      [pyStrNat p.1 ++ ". " ++ (if pyStrip p.2.question ≠ "" then pyStrip p.2.question
        else if preferVi then "Chưa có nội dung câu hỏi" else "No question text")] ++
      p.2.options.map (fun opt => "   - " ++ pyStrip opt) ++
      (if pyStrip (if p.2.answer ≠ "" then p.2.answer else p.2.correctAnswer) ≠ "" then
        [if preferVi then
           "   - **Đáp án:** " ++
             pyStrip (if p.2.answer ≠ "" then p.2.answer else p.2.correctAnswer)
         else "   - **Answer:** " ++
             pyStrip (if p.2.answer ≠ "" then p.2.answer else p.2.correctAnswer)]
       else [])) := by
  intro hm
  rcases List.mem_flatMap.mp hm with ⟨p, hp, hin⟩
  simp only [List.mem_append, List.mem_cons, List.not_mem_nil, or_false,
    false_or, List.mem_singleton] at hin
  rcases hin with (h | h) | h
  · rcases pyStrNat_head_digit p.1 with ⟨c, hc, hd⟩
    have h2 : t.toList.head? = some c := by
      rw [h]
      exact head?_append_str _ (head?_append_str _ hc)
    rw [ht] at h2
    rw [← Option.some.inj h2] at hd
    exact absurd hd (by decide)
  · exact absurd h (not_mem_prefix_map
      (show ("   - " : String).toList.head? = some ' ' from by decide)
      (by decide) ht _ _)
  · by_cases ha : pyStrip (if p.2.answer ≠ "" then p.2.answer else p.2.correctAnswer) ≠ ""
    · rw [if_pos ha] at h
      simp only [List.mem_singleton] at h
      by_cases hv : preferVi = true
      · rw [if_pos hv] at h
        have h2 : t.toList.head? = some ' ' := by
          rw [h]
          exact head?_append_str _ (by decide)
        rw [ht] at h2
        exact absurd (Option.some.inj h2) (by decide)
      · rw [if_neg hv] at h
        have h2 : t.toList.head? = some ' ' := by
          rw [h]
          exact head?_append_str _ (by decide)
        rw [ht] at h2
        exact absurd (Option.some.inj h2) (by decide)
    · rw [if_neg ha] at h
      simp at h

/-- [C4] Counterexample: with session type `course` the decisions header is
rendered zero times, not once — the decisions/actions/risks sections exist
only for session type `meeting` — while the executive-summary header does
appear exactly once. -/
theorem renderer_sections_counterexample :
    (formatMinutesLines false "T" "" "" "" "S" [] [] [] "course" [] [] []
        [] [] [] [] none [] [] false false false false "markdown").count
      "## Quyết định" = 0 ∧
    (formatMinutesLines false "T" "" "" "" "S" [] [] [] "course" [] [] []
        [] [] [] [] none [] [] false false false false "markdown").count
      "## Tóm tắt điều hành" = 1 := by
  constructor
  · decide
  · decide

set_option maxHeartbeats 4000000 in
/-- [C4] Amended claim: section presence is conditional, not universal.
When the (stripped) summary contains no `#` character, the executive
summary, key points and next-step headers are always present, while the
decisions, actions and risks headers are each present exactly when the
session type is `meeting`. -/
theorem renderer_section_presence (preferVi : Bool) (meetingTitle meetingType : String)
    (startTime endTime : String) (summary : String)
    (keyPoints keywords topics : List String) (sessionType : String)
    (actions decisions risks : List String)
    (actionRows : List ActionRow) (decisionRows : List DecisionRow)
    (riskRows : List RiskRow) (nextSteps : List String)
    (studyPack : Option StudyPack) (topicTracker : List TopicRow)
    (aiFilters : List String)
    (includeTopicTracker includeAiFilters includeQuiz includeKnowledgeTable : Bool)
    (formatType : String)
    (hsum : '#' ∉ (pyStrip summary).toList) :
    ("## Tóm tắt điều hành" ∈ formatMinutesLines preferVi meetingTitle meetingType
        startTime endTime summary keyPoints keywords topics sessionType actions
        decisions risks actionRows decisionRows riskRows nextSteps studyPack
        topicTracker aiFilters includeTopicTracker includeAiFilters includeQuiz
        includeKnowledgeTable formatType ∧
      "## Các điểm chính" ∈ formatMinutesLines preferVi meetingTitle meetingType
        startTime endTime summary keyPoints keywords topics sessionType actions
        decisions risks actionRows decisionRows riskRows nextSteps studyPack
        topicTracker aiFilters includeTopicTracker includeAiFilters includeQuiz
        includeKnowledgeTable formatType ∧
      "## Bước tiếp theo" ∈ formatMinutesLines preferVi meetingTitle meetingType
        startTime endTime summary keyPoints keywords topics sessionType actions
        decisions risks actionRows decisionRows riskRows nextSteps studyPack
        topicTracker aiFilters includeTopicTracker includeAiFilters includeQuiz
        includeKnowledgeTable formatType) ∧
    ("## Quyết định" ∈ formatMinutesLines preferVi meetingTitle meetingType
        startTime endTime summary keyPoints keywords topics sessionType actions
        decisions risks actionRows decisionRows riskRows nextSteps studyPack
        topicTracker aiFilters includeTopicTracker includeAiFilters includeQuiz
        includeKnowledgeTable formatType ↔ sessionType = "meeting") ∧
    ("## Hành động cần thực hiện" ∈ formatMinutesLines preferVi meetingTitle meetingType
        startTime endTime summary keyPoints keywords topics sessionType actions
        decisions risks actionRows decisionRows riskRows nextSteps studyPack
        topicTracker aiFilters includeTopicTracker includeAiFilters includeQuiz
        includeKnowledgeTable formatType ↔ sessionType = "meeting") ∧
    ("## Rủi ro và trở ngại" ∈ formatMinutesLines preferVi meetingTitle meetingType
        startTime endTime summary keyPoints keywords topics sessionType actions
        decisions risks actionRows decisionRows riskRows nextSteps studyPack
        topicTracker aiFilters includeTopicTracker includeAiFilters includeQuiz
        includeKnowledgeTable formatType ↔ sessionType = "meeting") := by
  refine ⟨?_, ?_, ?_, ?_⟩
  · refine ⟨?_, ?_, ?_⟩ <;>
      simp [formatMinutesLines, List.mem_append, List.mem_cons]
  · constructor
    · intro hmem
      by_cases hns : sessionType = "meeting"
      · exact hns
      · exfalso
        simp only [formatMinutesLines] at hmem
        rw [if_neg hns] at hmem
        simp only [List.mem_append, List.mem_cons, List.not_mem_nil,
          List.mem_singleton, or_false, false_or, or_assoc] at hmem
        rcases hmem with h|h|h|h|h|h|h|h|h|h|h|h|h|h|h|h|h|h|h|h|h|h|h|h
        · have h2 : ("## Quyết định" : String).toList.take 2 =
              ("# Biên bản: " : String).toList.take 2 := by
            rw [h]
            exact take2_append _ (by decide)
          exact absurd h2 (by decide)
        · exact absurd h (by decide)
        · exact absurd h (by decide)
        · have h2 : ("## Quyết định" : String).toList.head? = some '-' := by
            rw [h]
            exact head?_append_str _ (by decide)
          exact absurd h2 (by decide)
        · have h2 : ("## Quyết định" : String).toList.head? = some '-' := by
            rw [h]
            exact head?_append_str _ (by decide)
          exact absurd h2 (by decide)
        · have h2 : ("## Quyết định" : String).toList.head? = some '-' := by
            rw [h]
            exact head?_append_str _ (head?_append_str _ (head?_append_str _ (by decide)))
          exact absurd h2 (by decide)
        · exact absurd h (by decide)
        · exact absurd h (by decide)
        · split at h
          · simp only [List.mem_singleton] at h
            exact hsum (h ▸ (by decide : '#' ∈ ("## Quyết định" : String).toList))
          · simp only [List.mem_singleton] at h
            split at h
            · exact absurd h (by decide)
            · exact absurd h (by decide)
        · exact absurd h (by decide)
        · exact absurd h (by decide)
        · split at h
          · exact absurd h (not_mem_prefix_map
              (show ("- " : String).toList.head? = some '-' from by decide)
              (by decide) (by decide) _ _)
          · simp only [List.mem_singleton] at h
            split at h
            · exact absurd h (by decide)
            · exact absurd h (by decide)
        · exact absurd h (by decide)
        · split at h
          · exact absurd h (by decide)
          · exact absurd h (by decide)
        · split at h
          · exact absurd h (not_mem_prefix_map
              (show ("- " : String).toList.head? = some '-' from by decide)
              (by decide) (by decide) _ _)
          · simp only [List.mem_singleton] at h
            split at h
            · exact absurd h (by decide)
            · exact absurd h (by decide)
        · exact absurd h (by decide)
        · split at h
          · exact absurd h (by decide)
          · exact absurd h (by decide)
        · split at h
          · exact absurd h (not_mem_prefix_map
              (show ("- " : String).toList.head? = some '-' from by decide)
              (by decide) (by decide) _ _)
          · simp only [List.mem_singleton] at h
            split at h
            · exact absurd h (by decide)
            · exact absurd h (by decide)
        · exact absurd h (by decide)
        · split at h
          · simp only [List.mem_append, List.mem_cons, List.not_mem_nil,
              List.mem_singleton, or_false, false_or, or_assoc] at h
            rcases h with h|h|h
            · exact absurd h (by decide)
            · split at h
              · simp only [List.mem_append, List.mem_cons, List.not_mem_nil, or_false, or_assoc] at h
                rcases h with h|h|h
                · have h2 : ("## Quyết định" : String).toList.head? = some '|' := by
                    rw [h]
                    exact tableRow_head _
                  exact absurd h2 (by decide)
                · exact absurd h (by decide)
                · exact absurd h (not_mem_tableRow_map (by decide) _ _)
              · simp only [List.mem_singleton] at h
                split at h
                · exact absurd h (by decide)
                · exact absurd h (by decide)
            · exact absurd h (by decide)
          · simp at h
        · cases studyPack with
          | none => simp at h
          | some sp =>
            split at h
            split at h
            · simp only [List.mem_append] at h
              rcases h with h | h
              · split at h
                · simp only [List.mem_append, List.mem_cons, List.not_mem_nil,
                    List.mem_singleton, or_false, false_or, or_assoc] at h
                  rcases h with h|h|h|h|h|h
                  · exact absurd h (by decide)
                  · split at h
                    · simp only [List.mem_append, List.mem_cons, List.not_mem_nil, or_false, or_assoc] at h
                      rcases h with h|h|h
                      · have h2 : ("## Quyết định" : String).toList.head? = some '|' := by
                          rw [h]
                          exact tableRow_head _
                        exact absurd h2 (by decide)
                      · exact absurd h (by decide)
                      · exact absurd h (not_mem_tableRow_map (by decide) _ _)
                    · simp only [List.mem_singleton] at h
                      split at h
                      · exact absurd h (by decide)
                      · exact absurd h (by decide)
                  · exact absurd h (by decide)
                  · split at h
                    · exact absurd h (by decide)
                    · exact absurd h (by decide)
                  · split at h
                    · simp only [List.mem_append, List.mem_cons, List.not_mem_nil, or_false, or_assoc] at h
                      rcases h with h|h|h
                      · have h2 : ("## Quyết định" : String).toList.head? = some '|' := by
                          rw [h]
                          exact tableRow_head _
                        exact absurd h2 (by decide)
                      · exact absurd h (by decide)
                      · exact absurd h (not_mem_tableRow_map (by decide) _ _)
                    · simp only [List.mem_singleton] at h
                      split at h
                      · exact absurd h (by decide)
                      · exact absurd h (by decide)
                  · exact absurd h (by decide)
                · simp at h
              · split at h
                · simp only [List.mem_append, List.mem_cons, List.not_mem_nil,
                    List.mem_singleton, or_false, false_or, or_assoc] at h
                  rcases h with h|h|h
                  · exact absurd h (by decide)
                  · split at h
                    · exact absurd h (not_mem_quiz (by decide) preferVi _)
                    · simp only [List.mem_singleton] at h
                      split at h
                      · exact absurd h (by decide)
                      · exact absurd h (by decide)
                  · exact absurd h (by decide)
                · simp at h
            · simp at h
            · simp at h
        · exact absurd h (by decide)
        · split at h
          · exact absurd h (not_mem_numbered (by decide) _ _)
          · simp only [List.mem_singleton] at h
            split at h
            · exact absurd h (by decide)
            · exact absurd h (by decide)
        · exact absurd h (by decide)
    · intro hst
      subst hst
      simp [formatMinutesLines, List.mem_append, List.mem_cons]
  · constructor
    · intro hmem
      by_cases hns : sessionType = "meeting"
      · exact hns
      · exfalso
        simp only [formatMinutesLines] at hmem
        rw [if_neg hns] at hmem
        simp only [List.mem_append, List.mem_cons, List.not_mem_nil,
          List.mem_singleton, or_false, false_or, or_assoc] at hmem
        rcases hmem with h|h|h|h|h|h|h|h|h|h|h|h|h|h|h|h|h|h|h|h|h|h|h|h
        · have h2 : ("## Hành động cần thực hiện" : String).toList.take 2 =
              ("# Biên bản: " : String).toList.take 2 := by
            rw [h]
            exact take2_append _ (by decide)
          exact absurd h2 (by decide)
        · exact absurd h (by decide)
        · exact absurd h (by decide)
        · have h2 : ("## Hành động cần thực hiện" : String).toList.head? = some '-' := by
            rw [h]
            exact head?_append_str _ (by decide)
          exact absurd h2 (by decide)
        · have h2 : ("## Hành động cần thực hiện" : String).toList.head? = some '-' := by
            rw [h]
            exact head?_append_str _ (by decide)
          exact absurd h2 (by decide)
        · have h2 : ("## Hành động cần thực hiện" : String).toList.head? = some '-' := by
            rw [h]
            exact head?_append_str _ (head?_append_str _ (head?_append_str _ (by decide)))
          exact absurd h2 (by decide)
        · exact absurd h (by decide)
        · exact absurd h (by decide)
        · split at h
          · simp only [List.mem_singleton] at h
            exact hsum (h ▸ (by decide : '#' ∈ ("## Hành động cần thực hiện" : String).toList))
          · simp only [List.mem_singleton] at h
            split at h
            · exact absurd h (by decide)
            · exact absurd h (by decide)
        · exact absurd h (by decide)
        · exact absurd h (by decide)
        · split at h
          · exact absurd h (not_mem_prefix_map
              (show ("- " : String).toList.head? = some '-' from by decide)
              (by decide) (by decide) _ _)
          · simp only [List.mem_singleton] at h
            split at h
            · exact absurd h (by decide)
            · exact absurd h (by decide)
        · exact absurd h (by decide)
        · split at h
          · exact absurd h (by decide)
          · exact absurd h (by decide)
        · split at h
          · exact absurd h (not_mem_prefix_map
              (show ("- " : String).toList.head? = some '-' from by decide)
              (by decide) (by decide) _ _)
          · simp only [List.mem_singleton] at h
            split at h
            · exact absurd h (by decide)
            · exact absurd h (by decide)
        · exact absurd h (by decide)
        · split at h
          · exact absurd h (by decide)
          · exact absurd h (by decide)
        · split at h
          · exact absurd h (not_mem_prefix_map
              (show ("- " : String).toList.head? = some '-' from by decide)
              (by decide) (by decide) _ _)
          · simp only [List.mem_singleton] at h
            split at h
            · exact absurd h (by decide)
            · exact absurd h (by decide)
        · exact absurd h (by decide)
        · split at h
          · simp only [List.mem_append, List.mem_cons, List.not_mem_nil,
              List.mem_singleton, or_false, false_or, or_assoc] at h
            rcases h with h|h|h
            · exact absurd h (by decide)
            · split at h
              · simp only [List.mem_append, List.mem_cons, List.not_mem_nil, or_false, or_assoc] at h
                rcases h with h|h|h
                · have h2 : ("## Hành động cần thực hiện" : String).toList.head? = some '|' := by
                    rw [h]
                    exact tableRow_head _
                  exact absurd h2 (by decide)
                · exact absurd h (by decide)
                · exact absurd h (not_mem_tableRow_map (by decide) _ _)
              · simp only [List.mem_singleton] at h
                split at h
                · exact absurd h (by decide)
                · exact absurd h (by decide)
            · exact absurd h (by decide)
          · simp at h
        · cases studyPack with
          | none => simp at h
          | some sp =>
            split at h
            split at h
            · simp only [List.mem_append] at h
              rcases h with h | h
              · split at h
                · simp only [List.mem_append, List.mem_cons, List.not_mem_nil,
                    List.mem_singleton, or_false, false_or, or_assoc] at h
                  rcases h with h|h|h|h|h|h
                  · exact absurd h (by decide)
                  · split at h
                    · simp only [List.mem_append, List.mem_cons, List.not_mem_nil, or_false, or_assoc] at h
                      rcases h with h|h|h
                      · have h2 : ("## Hành động cần thực hiện" : String).toList.head? = some '|' := by
                          rw [h]
                          exact tableRow_head _
                        exact absurd h2 (by decide)
                      · exact absurd h (by decide)
                      · exact absurd h (not_mem_tableRow_map (by decide) _ _)
                    · simp only [List.mem_singleton] at h
                      split at h
                      · exact absurd h (by decide)
                      · exact absurd h (by decide)
                  · exact absurd h (by decide)
                  · split at h
                    · exact absurd h (by decide)
                    · exact absurd h (by decide)
                  · split at h
                    · simp only [List.mem_append, List.mem_cons, List.not_mem_nil, or_false, or_assoc] at h
                      rcases h with h|h|h
                      · have h2 : ("## Hành động cần thực hiện" : String).toList.head? = some '|' := by
                          rw [h]
                          exact tableRow_head _
                        exact absurd h2 (by decide)
                      · exact absurd h (by decide)
                      · exact absurd h (not_mem_tableRow_map (by decide) _ _)
                    · simp only [List.mem_singleton] at h
                      split at h
                      · exact absurd h (by decide)
                      · exact absurd h (by decide)
                  · exact absurd h (by decide)
                · simp at h
              · split at h
                · simp only [List.mem_append, List.mem_cons, List.not_mem_nil,
                    List.mem_singleton, or_false, false_or, or_assoc] at h
                  rcases h with h|h|h
                  · exact absurd h (by decide)
                  · split at h
                    · exact absurd h (not_mem_quiz (by decide) preferVi _)
                    · simp only [List.mem_singleton] at h
                      split at h
                      · exact absurd h (by decide)
                      · exact absurd h (by decide)
                  · exact absurd h (by decide)
                · simp at h
            · simp at h
            · simp at h
        · exact absurd h (by decide)
        · split at h
          · exact absurd h (not_mem_numbered (by decide) _ _)
          · simp only [List.mem_singleton] at h
            split at h
            · exact absurd h (by decide)
            · exact absurd h (by decide)
        · exact absurd h (by decide)
    · intro hst
      subst hst
      simp [formatMinutesLines, List.mem_append, List.mem_cons]
  · constructor
    · intro hmem
      by_cases hns : sessionType = "meeting"
      · exact hns
      · exfalso
        simp only [formatMinutesLines] at hmem
        rw [if_neg hns] at hmem
        simp only [List.mem_append, List.mem_cons, List.not_mem_nil,
          List.mem_singleton, or_false, false_or, or_assoc] at hmem
        rcases hmem with h|h|h|h|h|h|h|h|h|h|h|h|h|h|h|h|h|h|h|h|h|h|h|h
        · have h2 : ("## Rủi ro và trở ngại" : String).toList.take 2 =
              ("# Biên bản: " : String).toList.take 2 := by
            rw [h]
            exact take2_append _ (by decide)
          exact absurd h2 (by decide)
        · exact absurd h (by decide)
        · exact absurd h (by decide)
        · have h2 : ("## Rủi ro và trở ngại" : String).toList.head? = some '-' := by
            rw [h]
            exact head?_append_str _ (by decide)
          exact absurd h2 (by decide)
        · have h2 : ("## Rủi ro và trở ngại" : String).toList.head? = some '-' := by
            rw [h]
            exact head?_append_str _ (by decide)
          exact absurd h2 (by decide)
        · have h2 : ("## Rủi ro và trở ngại" : String).toList.head? = some '-' := by
            rw [h]
            exact head?_append_str _ (head?_append_str _ (head?_append_str _ (by decide)))
          exact absurd h2 (by decide)
        · exact absurd h (by decide)
        · exact absurd h (by decide)
        · split at h
          · simp only [List.mem_singleton] at h
            exact hsum (h ▸ (by decide : '#' ∈ ("## Rủi ro và trở ngại" : String).toList))
          · simp only [List.mem_singleton] at h
            split at h
            · exact absurd h (by decide)
            · exact absurd h (by decide)
        · exact absurd h (by decide)
        · exact absurd h (by decide)
        · split at h
          · exact absurd h (not_mem_prefix_map
              (show ("- " : String).toList.head? = some '-' from by decide)
              (by decide) (by decide) _ _)
          · simp only [List.mem_singleton] at h
            split at h
            · exact absurd h (by decide)
            · exact absurd h (by decide)
        · exact absurd h (by decide)
        · split at h
          · exact absurd h (by decide)
          · exact absurd h (by decide)
        · split at h
          · exact absurd h (not_mem_prefix_map
              (show ("- " : String).toList.head? = some '-' from by decide)
              (by decide) (by decide) _ _)
          · simp only [List.mem_singleton] at h
            split at h
            · exact absurd h (by decide)
            · exact absurd h (by decide)
        · exact absurd h (by decide)
        · split at h
          · exact absurd h (by decide)
          · exact absurd h (by decide)
        · split at h
          · exact absurd h (not_mem_prefix_map
              (show ("- " : String).toList.head? = some '-' from by decide)
              (by decide) (by decide) _ _)
          · simp only [List.mem_singleton] at h
            split at h
            · exact absurd h (by decide)
            · exact absurd h (by decide)
        · exact absurd h (by decide)
        · split at h
          · simp only [List.mem_append, List.mem_cons, List.not_mem_nil,
              List.mem_singleton, or_false, false_or, or_assoc] at h
            rcases h with h|h|h
            · exact absurd h (by decide)
            · split at h
              · simp only [List.mem_append, List.mem_cons, List.not_mem_nil, or_false, or_assoc] at h
                rcases h with h|h|h
                · have h2 : ("## Rủi ro và trở ngại" : String).toList.head? = some '|' := by
                    rw [h]
                    exact tableRow_head _
                  exact absurd h2 (by decide)
                · exact absurd h (by decide)
                · exact absurd h (not_mem_tableRow_map (by decide) _ _)
              · simp only [List.mem_singleton] at h
                split at h
                · exact absurd h (by decide)
                · exact absurd h (by decide)
            · exact absurd h (by decide)
          · simp at h
        · cases studyPack with
          | none => simp at h
          | some sp =>
            split at h
            split at h
            · simp only [List.mem_append] at h
              rcases h with h | h
              · split at h
                · simp only [List.mem_append, List.mem_cons, List.not_mem_nil,
                    List.mem_singleton, or_false, false_or, or_assoc] at h
                  rcases h with h|h|h|h|h|h
                  · exact absurd h (by decide)
                  · split at h
                    · simp only [List.mem_append, List.mem_cons, List.not_mem_nil, or_false, or_assoc] at h
                      rcases h with h|h|h
                      · have h2 : ("## Rủi ro và trở ngại" : String).toList.head? = some '|' := by
                          rw [h]
                          exact tableRow_head _
                        exact absurd h2 (by decide)
                      · exact absurd h (by decide)
                      · exact absurd h (not_mem_tableRow_map (by decide) _ _)
                    · simp only [List.mem_singleton] at h
                      split at h
                      · exact absurd h (by decide)
                      · exact absurd h (by decide)
                  · exact absurd h (by decide)
                  · split at h
                    · exact absurd h (by decide)
                    · exact absurd h (by decide)
                  · split at h
                    · simp only [List.mem_append, List.mem_cons, List.not_mem_nil, or_false, or_assoc] at h
                      rcases h with h|h|h
                      · have h2 : ("## Rủi ro và trở ngại" : String).toList.head? = some '|' := by
                          rw [h]
                          exact tableRow_head _
                        exact absurd h2 (by decide)
                      · exact absurd h (by decide)
                      · exact absurd h (not_mem_tableRow_map (by decide) _ _)
                    · simp only [List.mem_singleton] at h
                      split at h
                      · exact absurd h (by decide)
                      · exact absurd h (by decide)
                  · exact absurd h (by decide)
                · simp at h
              · split at h
                · simp only [List.mem_append, List.mem_cons, List.not_mem_nil,
                    List.mem_singleton, or_false, false_or, or_assoc] at h
                  rcases h with h|h|h
                  · exact absurd h (by decide)
                  · split at h
                    · exact absurd h (not_mem_quiz (by decide) preferVi _)
                    · simp only [List.mem_singleton] at h
                      split at h
                      · exact absurd h (by decide)
                      · exact absurd h (by decide)
                  · exact absurd h (by decide)
                · simp at h
            · simp at h
            · simp at h
        · exact absurd h (by decide)
        · split at h
          · exact absurd h (not_mem_numbered (by decide) _ _)
          · simp only [List.mem_singleton] at h
            split at h
            · exact absurd h (by decide)
            · exact absurd h (by decide)
        · exact absurd h (by decide)
    · intro hst
      subst hst
      simp [formatMinutesLines, List.mem_append, List.mem_cons]

/-- [C4] Witness: section presence at a concrete meeting-type input. -/
theorem renderer_section_presence_witness :
    ("## Tóm tắt điều hành" ∈ formatMinutesLines false "T" "" "" "" "S" [] [] []
        "meeting" [] [] [] [] [] [] [] none [] [] false false false false "markdown" ∧
      "## Các điểm chính" ∈ formatMinutesLines false "T" "" "" "" "S" [] [] []
        "meeting" [] [] [] [] [] [] [] none [] [] false false false false "markdown" ∧
      "## Bước tiếp theo" ∈ formatMinutesLines false "T" "" "" "" "S" [] [] []
        "meeting" [] [] [] [] [] [] [] none [] [] false false false false "markdown") ∧
    ("## Quyết định" ∈ formatMinutesLines false "T" "" "" "" "S" [] [] []
        "meeting" [] [] [] [] [] [] [] none [] [] false false false false "markdown" ↔
      ("meeting" : String) = "meeting") ∧
    ("## Hành động cần thực hiện" ∈ formatMinutesLines false "T" "" "" "" "S" [] [] []
        "meeting" [] [] [] [] [] [] [] none [] [] false false false false "markdown" ↔
      ("meeting" : String) = "meeting") ∧
    ("## Rủi ro và trở ngại" ∈ formatMinutesLines false "T" "" "" "" "S" [] [] []
        "meeting" [] [] [] [] [] [] [] none [] [] false false false false "markdown" ↔
      ("meeting" : String) = "meeting") :=
  renderer_section_presence false "T" "" "" "" "S" [] [] [] "meeting" [] [] []
    [] [] [] [] none [] [] false false false false "markdown" (by decide)

theorem mem_of_head? {l : List Char} {c : Char} (h : l.head? = some c) : c ∈ l := by
  cases l with
  | nil => simp at h
  | cons a r =>
    simp at h
    rw [h]
    exact List.mem_cons_self c r

theorem pyStrip_ne_of_mem {s : String} {c : Char} (hc : c ∈ s.toList)
    (hws : isPyWs c = false) : pyStrip s ≠ "" := by
  rw [string_ne_empty_iff]
  unfold pyStrip
  rw [toList_mk]
  intro hnil
  have := (pyStripL_eq_nil_iff s.toList).mp hnil c hc
  rw [hws] at this
  exact Bool.false_ne_true this

theorem fallbackSummary_head (preferVi : Bool) (meetingTitle meetingDesc transcript : String)
    (relatedDocs : List String) :
    ∃ c, (fallbackSummary preferVi meetingTitle meetingDesc transcript
        relatedDocs).toList.head? = some c ∧ isPyWs c = false := by
  unfold fallbackSummary
  split
  · split
    · exact ⟨'T', head?_append_str _ (head?_append_str _ (head?_append_str _
        (head?_append_str _ (head?_append_str _ (head?_append_str _ (by decide)))))), by decide⟩
    · exact ⟨'P', head?_append_str _ (head?_append_str _ (head?_append_str _
        (head?_append_str _ (head?_append_str _ (head?_append_str _ (by decide)))))), by decide⟩
  · split
    · split
      · exact ⟨'T', head?_append_str _ (head?_append_str _ (head?_append_str _
          (head?_append_str _ (head?_append_str _ (head?_append_str _ (by decide)))))), by decide⟩
      · exact ⟨'P', head?_append_str _ (head?_append_str _ (head?_append_str _
          (head?_append_str _ (head?_append_str _ (head?_append_str _ (by decide)))))), by decide⟩
    · split
      · split
        · exact ⟨'T', head?_append_str _ (head?_append_str _ (head?_append_str _
            (head?_append_str _ (by decide)))), by decide⟩
        · exact ⟨'P', head?_append_str _ (head?_append_str _ (head?_append_str _
            (head?_append_str _ (by decide)))), by decide⟩
      · split
        · exact ⟨'T', head?_append_str _ (head?_append_str _ (head?_append_str _
            (head?_append_str _ (by decide)))), by decide⟩
        · exact ⟨'P', head?_append_str _ (head?_append_str _ (head?_append_str _
            (head?_append_str _ (by decide)))), by decide⟩

theorem fallbackSummary_ne_empty (preferVi : Bool)
    (meetingTitle meetingDesc transcript : String) (relatedDocs : List String) :
    fallbackSummary preferVi meetingTitle meetingDesc transcript relatedDocs ≠ "" := by
  rcases fallbackSummary_head preferVi meetingTitle meetingDesc transcript relatedDocs
    with ⟨c, hc, _⟩
  exact ne_empty_of_head? hc

theorem fallbackSummary_strip_ne (preferVi : Bool)
    (meetingTitle meetingDesc transcript : String) (relatedDocs : List String) :
    pyStrip (fallbackSummary preferVi meetingTitle meetingDesc transcript relatedDocs) ≠ "" := by
  rcases fallbackSummary_head preferVi meetingTitle meetingDesc transcript relatedDocs
    with ⟨c, hc, hws⟩
  exact pyStrip_ne_of_mem (mem_of_head? hc) hws

theorem decode_stripped (v : String) :
    pyStrip (decodeJsonishText v) = decodeJsonishText v := by
  unfold decodeJsonishText
  exact pyStrip_idem _

theorem exists_of_findSome {α β : Type} (f : α → Option β) :
    ∀ (l : List α) (b : β), l.findSome? f = some b → ∃ a ∈ l, f a = some b := by
  intro l
  induction l with
  | nil =>
    intro b h
    simp [List.findSome?] at h
  | cons x xs ih =>
    intro b h
    have hstep : List.findSome? f (x :: xs) =
        match f x with
        | some v => some v
        | none => List.findSome? f xs := rfl
    rw [hstep] at h
    cases hx : f x with
    | some v =>
      rw [hx] at h
      exact ⟨x, List.mem_cons_self x xs, by rw [hx, Option.some.inj h]⟩
    | none =>
      rw [hx] at h
      rcases ih b h with ⟨a, ha, hfa⟩
      exact ⟨a, List.mem_cons_of_mem x ha, hfa⟩

theorem payloadOfVariant_stripped {v : List Char} {p : String × List String}
    (h : payloadOfVariant v = some p) : pyStrip p.1 = p.1 := by
  unfold payloadOfVariant at h
  cases hpv : parseObjVariant v with
  | none =>
    rw [hpv] at h
    exact absurd h (by simp)
  | some pairs =>
    rw [hpv] at h
    have h2 : (if summaryOfPairs pairs ≠ "" ∨ keyPointsOfPairs pairs ≠ [] then
        some (decodeJsonishText (summaryOfPairs pairs),
          (keyPointsOfPairs pairs).map decodeJsonishText)
      else none) = some p := h
    split at h2
    · rw [← Option.some.inj h2]
      exact decode_stripped _
    · simp at h2

theorem regexSummaryOf_stripped (cleaned : List Char) :
    pyStrip (regexSummaryOf cleaned) = regexSummaryOf cleaned := by
  unfold regexSummaryOf
  cases h1 : searchSummary '"' cleaned with
  | some g =>
    simp only []
    by_cases hg : pyStripL g = []
    · rw [if_pos hg]
      cases h2 : searchSummary sq cleaned with
      | some g2 =>
        simp only []
        by_cases hg2 : pyStripL g2 = []
        · rw [if_pos hg2]
          decide
        · rw [if_neg hg2]
          exact decode_stripped _
      | none => decide
    · rw [if_neg hg]
      exact decode_stripped _
  | none =>
    simp only []
    cases h2 : searchSummary sq cleaned with
    | some g2 =>
      simp only []
      by_cases hg2 : pyStripL g2 = []
      · rw [if_pos hg2]
        decide
      · rw [if_neg hg2]
        exact decode_stripped _
    | none => decide

theorem extract_stripped (raw : String) :
    pyStrip (extractEmbeddedSummaryPayload raw).1 =
      (extractEmbeddedSummaryPayload raw).1 := by
  unfold extractEmbeddedSummaryPayload
  split
  · decide
  · cases hj : jsonPhase (normalizeRaw raw).toList with
    | some p =>
      simp only [hj]
      rcases exists_of_findSome _ _ _ hj with ⟨c, _, hc⟩
      rcases exists_of_findSome _ _ _ hc with ⟨v, _, hv⟩
      exact payloadOfVariant_stripped hv
    | none =>
      simp only [hj]
      exact regexSummaryOf_stripped _

theorem summaryStage_fst_strip_ne (preferVi : Bool)
    (meetingTitle meetingDesc transcript : String) (relatedDocs : List String)
    (actionRows : List ActionRow) (decisionRows : List DecisionRow)
    (riskRows : List RiskRow) (rawSummary : String) (rawKeyPoints : JValue) :
    pyStrip (summaryStage preferVi meetingTitle meetingDesc transcript relatedDocs
      actionRows decisionRows riskRows rawSummary rawKeyPoints).1 ≠ "" := by
  simp only [summaryStage]
  by_cases hs0 : (if (extractEmbeddedSummaryPayload (pyStrip rawSummary)).1 ≠ "" then
      (extractEmbeddedSummaryPayload (pyStrip rawSummary)).1
    else decodeJsonishText (pyStrip rawSummary)) = ""
  · rw [if_pos hs0]
    exact fallbackSummary_strip_ne preferVi meetingTitle meetingDesc transcript relatedDocs
  · rw [if_neg hs0]
    by_cases hex : (extractEmbeddedSummaryPayload (pyStrip rawSummary)).1 ≠ ""
    · rw [if_pos hex] at hs0 ⊢
      rw [extract_stripped]
      exact hs0
    · rw [if_neg hex] at hs0 ⊢
      rw [decode_stripped]
      exact hs0

theorem pyJoin_cons_toList (sep x : String) (xs : List String) :
    ∃ r, (pyJoin sep (x :: xs)).toList = x.toList ++ r := by
  cases xs with
  | nil =>
    refine ⟨[], ?_⟩
    simp [pyJoin]
  | cons y ys =>
    refine ⟨sep.toList ++ (pyJoin sep (y :: ys)).toList, ?_⟩
    show ((x ++ sep) ++ pyJoin sep (y :: ys)).toList = _
    rw [append_toList, append_toList, List.append_assoc]

theorem strip_mem_not_ws {x : String} (hx : pyStrip x = x) (hne : x ≠ "") :
    ∃ c ∈ x.toList, isPyWs c = false := by
  by_contra hall
  push_neg at hall
  have hws : ∀ c ∈ x.toList, isPyWs c = true := by
    intro c hc
    have h1 := hall c hc
    revert h1
    cases isPyWs c <;> simp
  have h2 : pyStripL x.toList = [] := (pyStripL_eq_nil_iff _).mpr hws
  have h3 : (pyStrip x).toList = pyStripL x.toList := toList_mk _
  rw [hx, h2] at h3
  exact (string_ne_empty_iff x).mp hne h3

theorem strip_join_filter_ne (sep x : String) (rest : List String)
    (hx : pyStrip x = x) (hne : x ≠ "") :
    pyStrip (pyJoin sep ((x :: rest).filter (fun i => pyStrip i ≠ ""))) ≠ "" := by
  have hfilter : (x :: rest).filter (fun i => pyStrip i ≠ "") =
      x :: rest.filter (fun i => pyStrip i ≠ "") := by
    rw [List.filter_cons_of_pos]
    simp [hx, hne]
  rw [hfilter]
  rcases pyJoin_cons_toList sep x (rest.filter (fun i => pyStrip i ≠ "")) with ⟨r, hr⟩
  rcases strip_mem_not_ws hx hne with ⟨c, hc, hws⟩
  exact pyStrip_ne_of_mem (by rw [hr]; exact List.mem_append_left _ hc) hws

theorem expand_tail_ne (sep x : String) (p1 p2 p3 p4 p5 p6 : List String)
    (C C2 : Prop) [Decidable C] [Decidable C2] (z : String)
    (hx : pyStrip x = x) (hne : x ≠ "") :
    pyStrip (pyJoin sep
      ((if C then
          (if C2 then (((((([x] ++ p1) ++ p2) ++ p3) ++ p4) ++ p5) ++ p6) ++ [z]
           else ((((([x] ++ p1) ++ p2) ++ p3) ++ p4) ++ p5) ++ p6)
        else ((((([x] ++ p1) ++ p2) ++ p3) ++ p4) ++ p5) ++ p6).filter
        (fun i => pyStrip i ≠ ""))) ≠ "" := by
  split
  · split
    · simp only [List.singleton_append, List.cons_append]
      exact strip_join_filter_ne _ _ _ hx hne
    · simp only [List.singleton_append, List.cons_append]
      exact strip_join_filter_ne _ _ _ hx hne
  · simp only [List.singleton_append, List.cons_append]
    exact strip_join_filter_ne _ _ _ hx hne

theorem expand_ne_empty (preferVi : Bool) (summary meetingTitle meetingDesc : String)
    (keyPoints : List String) (actionRows : List ActionRow)
    (decisionRows : List DecisionRow) (riskRows : List RiskRow)
    (nextSteps : List String) (topicCount : Nat) (transcriptExcerpt : String)
    (h : pyStrip summary ≠ "") :
    expandSummaryIfNeeded preferVi summary meetingTitle meetingDesc keyPoints
      actionRows decisionRows riskRows nextSteps topicCount transcriptExcerpt ≠ "" := by
  simp only [expandSummaryIfNeeded]
  split
  · exact h
  · exact expand_tail_ne _ _ _ _ _ _ _ _ _ _ _ (pyStrip_idem summary) h

theorem finalSummary_ne_empty (preferVi : Bool)
    (meetingTitle meetingDesc transcript : String) (relatedDocs : List String)
    (actionRows : List ActionRow) (decisionRows : List DecisionRow)
    (riskRows : List RiskRow) (nextSteps : List String) (topicCount : Nat)
    (rawSummary : String) (rawKeyPoints : JValue) :
    finalSummary preferVi meetingTitle meetingDesc transcript relatedDocs actionRows
      decisionRows riskRows nextSteps topicCount rawSummary rawKeyPoints ≠ "" := by
  unfold finalSummary
  exact expand_ne_empty _ _ _ _ _ _ _ _ _ _ _
    (summaryStage_fst_strip_ne preferVi meetingTitle meetingDesc transcript relatedDocs
      actionRows decisionRows riskRows rawSummary rawKeyPoints)

theorem listContains_iff (m : List Char) :
    ∀ l, listContains m l = true ↔ ∃ s t, l = s ++ (m ++ t) := by
  intro l
  induction l with
  | nil =>
    rw [show listContains m [] = m.isEmpty from rfl]
    constructor
    · intro h
      refine ⟨[], [], ?_⟩
      rw [List.isEmpty_iff] at h
      simp [h]
    · rintro ⟨s, t, h⟩
      have hlen := congrArg List.length h
      simp at hlen
      rw [List.isEmpty_iff]
      exact List.length_eq_zero.mp (by omega)
  | cons c rest ih =>
    rw [show listContains m (c :: rest) =
        (m.isPrefixOf (c :: rest) || listContains m rest) from rfl]
    rw [Bool.or_eq_true, ih]
    constructor
    · rintro (hp | ⟨s, t, h⟩)
      · rw [List.isPrefixOf_iff_prefix] at hp
        rcases hp with ⟨t, ht⟩
        exact ⟨[], t, by simp [ht]⟩
      · exact ⟨c :: s, t, by simp [h]⟩
    · rintro ⟨s, t, h⟩
      cases s with
      | nil =>
        left
        rw [List.isPrefixOf_iff_prefix]
        exact ⟨t, by simpa using h.symm⟩
      | cons a s2 =>
        right
        refine ⟨s2, t, ?_⟩
        simp at h
        exact h.2

theorem infix_digit_split {m l1 d l2 : List Char}
    (hm : ∀ c ∈ m, isDigitC c = false) (hd : ∀ c ∈ d, isDigitC c = true)
    (hdne : d ≠ [])
    (h : ∃ s t, (l1 ++ d) ++ l2 = s ++ (m ++ t)) :
    (∃ s t, l1 = s ++ (m ++ t)) ∨ (∃ s t, l2 = s ++ (m ++ t)) := by
  rcases h with ⟨s, t, heq⟩
  by_cases hm0 : m = []
  · exact Or.inl ⟨[], l1, by simp [hm0]⟩
  by_cases hA : s.length + m.length ≤ l1.length
  · left
    have h1 : ((l1 ++ d) ++ l2).take (s.length + m.length) =
        (s ++ (m ++ t)).take (s.length + m.length) := by rw [heq]
    rw [List.take_append_of_le_length (by simp only [List.length_append]; omega),
      List.take_append_of_le_length hA] at h1
    have h2 : (s ++ (m ++ t)).take (s.length + m.length) = s ++ (m ++ t).take m.length := by
      rw [List.take_append]
    rw [h2, List.take_left] at h1
    refine ⟨s, l1.drop (s.length + m.length), ?_⟩
    conv_lhs => rw [← List.take_append_drop (s.length + m.length) l1]
    rw [h1, List.append_assoc]
  by_cases hB : l1.length + d.length ≤ s.length
  · right
    have h2 : ((l1 ++ d) ++ l2).drop s.length = (s ++ (m ++ t)).drop s.length := by rw [heq]
    rw [List.drop_left] at h2
    have hk : s.length = (l1 ++ d).length + (s.length - (l1.length + d.length)) := by
      simp only [List.length_append]
      omega
    rw [hk, List.drop_append] at h2
    refine ⟨l2.take (s.length - (l1.length + d.length)), t, ?_⟩
    conv_lhs => rw [← List.take_append_drop (s.length - (l1.length + d.length)) l2]
    rw [h2]
  · exfalso
    have hmlen : 0 < m.length := List.length_pos.mpr hm0
    have hdlen : 0 < d.length := List.length_pos.mpr hdne
    have hj1 : max s.length l1.length < s.length + m.length := by omega
    have hj2 : max s.length l1.length < l1.length + d.length := by omega
    have hjs : s.length ≤ max s.length l1.length := le_max_left _ _
    have hjl : l1.length ≤ max s.length l1.length := le_max_right _ _
    have hjlt : max s.length l1.length < ((l1 ++ d) ++ l2).length := by
      simp only [List.length_append]
      omega
    have hjlt2 : max s.length l1.length < (s ++ (m ++ t)).length := by
      simp only [List.length_append]
      omega
    have hidx1 : max s.length l1.length - l1.length < d.length := by omega
    have hidx2 : max s.length l1.length - s.length < m.length := by omega
    have e0 : ((l1 ++ d) ++ l2).get ⟨max s.length l1.length, hjlt⟩ =
        (s ++ (m ++ t)).get ⟨max s.length l1.length, hjlt2⟩ := by
      have := List.get_of_eq heq ⟨max s.length l1.length, hjlt⟩
      simpa using this
    have e1 : ((l1 ++ d) ++ l2).get ⟨max s.length l1.length, hjlt⟩ =
        d.get ⟨max s.length l1.length - l1.length, hidx1⟩ := by
      rw [List.get_eq_getElem, List.get_eq_getElem]
      rw [List.getElem_append_left (by simp only [List.length_append]; omega)]
      rw [List.getElem_append_right hjl]
    have e2 : (s ++ (m ++ t)).get ⟨max s.length l1.length, hjlt2⟩ =
        m.get ⟨max s.length l1.length - s.length, hidx2⟩ := by
      rw [List.get_eq_getElem, List.get_eq_getElem]
      rw [List.getElem_append_right hjs]
      rw [List.getElem_append_left (by omega)]
    have ht1 : isDigitC (((l1 ++ d) ++ l2).get ⟨max s.length l1.length, hjlt⟩) = true := by
      rw [e1]
      exact hd _ (List.get_mem d _ hidx1)
    have ht2 : isDigitC (((l1 ++ d) ++ l2).get ⟨max s.length l1.length, hjlt⟩) = false := by
      rw [e0, e2]
      exact hm _ (List.get_mem m _ hidx2)
    rw [ht1] at ht2
    exact absurd ht2 (by decide)

theorem head?_to_cons {α : Type} {l : List α} {c : α} (h : l.head? = some c) :
    ∃ r, l = c :: r := by
  cases l with
  | nil => simp at h
  | cons a r =>
    simp at h
    exact ⟨r, by rw [h]⟩

theorem pyStrNat_toList_digits (n : Nat) :
    ∀ c ∈ (pyStrNat n).toList, ∃ k, k < 10 ∧ c = digitChar k := by
  unfold pyStrNat
  rw [toList_mk]
  exact natDigitsCore_mem _ _

theorem pyStrNat_all_digits (n : Nat) :
    ∀ c ∈ (pyStrNat n).toList, isDigitC c = true := by
  intro c hc
  rcases pyStrNat_toList_digits n c hc with ⟨k, hk, he⟩
  rw [he]
  exact isDigitC_digitChar hk

theorem digit_not_ws {k : Nat} (h : k < 10) : isPyWs (digitChar k) = false := by
  interval_cases k <;> decide

theorem digit_lower {k : Nat} (h : k < 10) :
    pyLowerChar (digitChar k) = digitChar k := by
  interval_cases k <;> decide

theorem digit_marker {k : Nat} (h : k < 10) :
    isMarkerChar (digitChar k) = true := by
  interval_cases k <;> decide

theorem pyStrNat_toList_ne_nil (n : Nat) : (pyStrNat n).toList ≠ [] := by
  unfold pyStrNat
  rw [toList_mk]
  exact natDigitsCore_ne_nil n n

theorem pyStrNat_lower_eq (n : Nat) :
    (pyStrNat n).toList.map pyLowerChar = (pyStrNat n).toList := by
  have h : ∀ c ∈ (pyStrNat n).toList, pyLowerChar c = c := by
    intro c hc
    rcases pyStrNat_toList_digits n c hc with ⟨k, hk, he⟩
    rw [he]
    exact digit_lower hk
  calc (pyStrNat n).toList.map pyLowerChar = (pyStrNat n).toList.map id :=
      List.map_congr_left h
    _ = (pyStrNat n).toList := List.map_id _

theorem rev_head_append {x : String} (p : String) {c : Char}
    (h : x.toList.reverse.head? = some c) :
    ∃ r2, ((p ++ x).toList).reverse = c :: r2 := by
  rcases head?_to_cons h with ⟨r, hr⟩
  rw [append_toList, List.reverse_append, hr]
  exact ⟨r ++ p.toList.reverse, rfl⟩

theorem markers_digit_free :
    ∀ m ∈ placeholderMarkers, ∀ c ∈ m.toList, isDigitC c = false := by
  decide

theorem sandwich_strip_toList (lit1 lit2 : String) (n : Nat) :
    (lit1 ++ pyStrNat n ++ lit2).toList =
      (lit1.toList ++ (pyStrNat n).toList) ++ lit2.toList := by
  rw [append_toList, append_toList]

theorem sandwich_strip_id (lit1 lit2 : String) (n : Nat)
    (c0 : Char) (hh : lit1.toList.head? = some c0) (hc0 : isPyWs c0 = false)
    (ce : Char) (ht : lit2.toList.reverse.head? = some ce)
    (hce : isPyWs ce = false) :
    pyStrip (lit1 ++ pyStrNat n ++ lit2) = lit1 ++ pyStrNat n ++ lit2 := by
  apply string_ext
  rw [show (pyStrip (lit1 ++ pyStrNat n ++ lit2)).toList =
      pyStripL (lit1 ++ pyStrNat n ++ lit2).toList from rfl]
  apply pyStripL_of_ends
  · right
    rcases head?_to_cons hh with ⟨r0, hr0⟩
    refine ⟨c0, r0 ++ ((pyStrNat n).toList ++ lit2.toList), ?_, hc0⟩
    rw [sandwich_strip_toList, hr0]
    simp [List.cons_append, List.append_assoc]
  · right
    rcases rev_head_append (lit1 ++ pyStrNat n) ht with ⟨r2, hr⟩
    exact ⟨ce, r2, hr, hce⟩

theorem sandwich_strip_id_digit (lit2 : String) (n : Nat)
    (ce : Char) (ht : lit2.toList.reverse.head? = some ce)
    (hce : isPyWs ce = false) :
    pyStrip (pyStrNat n ++ lit2) = pyStrNat n ++ lit2 := by
  apply string_ext
  rw [show (pyStrip (pyStrNat n ++ lit2)).toList =
      pyStripL (pyStrNat n ++ lit2).toList from rfl]
  apply pyStripL_of_ends
  · right
    rcases pyStrNat_head_digit n with ⟨c, hc, hdig⟩
    rcases head?_to_cons (head?_append_str lit2 hc) with ⟨r0, hr0⟩
    refine ⟨c, r0, hr0, ?_⟩
    rcases pyStrNat_toList_digits n c (mem_of_head? hc) with ⟨k, hk, he⟩
    rw [he]
    exact digit_not_ws hk
  · right
    rcases rev_head_append (pyStrNat n) ht with ⟨r2, hr⟩
    exact ⟨ce, r2, hr, hce⟩

theorem sandwich_not_placeholder (lit1 lit2 : String) (n : Nat)
    (hstrip : pyStrip (lit1 ++ pyStrNat n ++ lit2) = lit1 ++ pyStrNat n ++ lit2)
    (h1 : ∀ m ∈ placeholderMarkers, listContains m.toList (pyLowerL lit1.toList) = false)
    (h2 : ∀ m ∈ placeholderMarkers, listContains m.toList (pyLowerL lit2.toList) = false) :
    isPlaceholderValue (lit1 ++ pyStrNat n ++ lit2) = false := by
  unfold isPlaceholderValue
  have hstripL : pyStripL (lit1 ++ pyStrNat n ++ lit2).toList =
      (lit1 ++ pyStrNat n ++ lit2).toList := by
    have := congrArg String.toList hstrip
    rw [show (pyStrip (lit1 ++ pyStrNat n ++ lit2)).toList =
        pyStripL (lit1 ++ pyStrNat n ++ lit2).toList from rfl] at this
    exact this
  rw [hstripL]
  have hshape : pyLowerL (lit1 ++ pyStrNat n ++ lit2).toList =
      (pyLowerL lit1.toList ++ (pyStrNat n).toList) ++ pyLowerL lit2.toList := by
    rw [sandwich_strip_toList]
    unfold pyLowerL
    rw [List.map_append, List.map_append, pyStrNat_lower_eq]
  rw [hshape]
  have hne : (pyLowerL lit1.toList ++ (pyStrNat n).toList) ++ pyLowerL lit2.toList ≠ [] := by
    simp only [ne_eq, List.append_eq_nil]
    rintro ⟨⟨_, hd0⟩, _⟩
    exact pyStrNat_toList_ne_nil n hd0
  rw [if_neg hne]
  rw [List.any_eq_false]
  intro m hm
  intro hcon
  rw [listContains_iff] at hcon
  rcases infix_digit_split (markers_digit_free m hm)
      (pyStrNat_all_digits n) (pyStrNat_toList_ne_nil n) hcon with hin | hin
  · rw [← listContains_iff] at hin
    rw [h1 m hm] at hin
    exact Bool.false_ne_true hin
  · rw [← listContains_iff] at hin
    rw [h2 m hm] at hin
    exact Bool.false_ne_true hin

theorem collapseWs_ne_nil : ∀ l : List Char, l ≠ [] → collapseWs l ≠ [] := by
  intro l
  induction l with
  | nil => intro h; exact absurd rfl h
  | cons c rest ih =>
    intro _
    cases rest with
    | nil =>
      rw [show collapseWs [c] = (if isPyWs c then [' '] else [c]) from rfl]
      split <;> simp
    | cons c2 r2 =>
      rw [show collapseWs (c :: c2 :: r2) =
          (if isPyWs c ∧ isPyWs c2 then collapseWs (c2 :: r2)
           else (if isPyWs c then ' ' else c) :: collapseWs (c2 :: r2)) from rfl]
      split
      · exact ih (by simp)
      · simp

theorem ws_implies_marker {c : Char} (h : isPyWs c = true) : isMarkerChar c = true := by
  unfold isMarkerChar
  rw [h]
  simp

theorem kpCleanItem_sandwich_lit (lit1 lit2 : String) (n : Nat)
    (c0 : Char) (hh : lit1.toList.head? = some c0) (hmk : isMarkerChar c0 = false) :
    kpCleanItem (lit1 ++ pyStrNat n ++ lit2) ≠ [] := by
  unfold kpCleanItem
  rcases head?_to_cons hh with ⟨r0, hr0⟩
  have hl : (lit1 ++ pyStrNat n ++ lit2).toList =
      c0 :: (r0 ++ ((pyStrNat n).toList ++ lit2.toList)) := by
    rw [sandwich_strip_toList, hr0]
    simp [List.cons_append, List.append_assoc]
  rw [hl]
  rw [List.dropWhile_cons, if_neg (by simp [hmk])]
  apply collapseWs_ne_nil
  intro hnil
  have hws : isPyWs c0 = false := by
    by_contra hcon
    have h1 : isPyWs c0 = true := by
      revert hcon
      cases isPyWs c0 <;> simp
    rw [ws_implies_marker h1] at hmk
    exact absurd hmk (by decide)
  have := (pyStripL_eq_nil_iff _).mp hnil c0 (List.mem_cons_self _ _)
  rw [hws] at this
  exact Bool.false_ne_true this

theorem dropWhile_append_all (p : Char → Bool) :
    ∀ (l1 l2 : List Char), (∀ c ∈ l1, p c = true) →
      (l1 ++ l2).dropWhile p = l2.dropWhile p := by
  intro l1
  induction l1 with
  | nil => intro l2 _; rfl
  | cons c r ih =>
    intro l2 hall
    rw [List.cons_append, List.dropWhile_cons, if_pos (hall c (List.mem_cons_self _ _))]
    exact ih l2 (fun x hx => hall x (List.mem_cons_of_mem c hx))

theorem kpCleanItem_digit (lit2 : String) (n : Nat)
    (h : collapseWs (pyStripL (lit2.toList.dropWhile isMarkerChar)) ≠ []) :
    kpCleanItem (pyStrNat n ++ lit2) ≠ [] := by
  unfold kpCleanItem
  rw [append_toList]
  rw [dropWhile_append_all _ _ _ (fun c hc => by
    rcases pyStrNat_toList_digits n c hc with ⟨k, hk, he⟩
    rw [he]
    exact digit_marker hk)]
  exact h

theorem sandwich_ne_empty (lit1 lit2 : String) (n : Nat) :
    (lit1 ++ pyStrNat n ++ lit2) ≠ "" := by
  rw [string_ne_empty_iff, sandwich_strip_toList]
  simp only [ne_eq, List.append_eq_nil]
  rintro ⟨⟨_, hd0⟩, _⟩
  exact pyStrNat_toList_ne_nil n hd0

theorem addCandidateStr_eq_self {b : String} (hstrip : pyStrip b = b)
    (hne : b ≠ "") (hph : isPlaceholderValue b = false) :
    addCandidateStr b = [b] := by
  unfold addCandidateStr
  rw [hstrip]
  rw [if_pos ⟨hne, fun hcon => by rw [hph] at hcon; exact Bool.false_ne_true hcon⟩]

theorem kpStep_fst_nonempty (acc : List String × List (List Char)) (y : String)
    (h : acc.1 ≠ []) : (kpStep acc y).1 ≠ [] := by
  unfold kpStep
  by_cases h1 : kpCleanItem y = []
  · rw [if_pos h1]
    exact h
  · rw [if_neg h1]
    by_cases h2 : acc.2.contains (pyLowerL (kpCleanItem y))
    · rw [if_pos h2]
      exact h
    · rw [if_neg h2]
      simp

theorem foldl_kpStep_nonempty :
    ∀ (L : List String) (acc : List String × List (List Char)),
      acc.1 ≠ [] → (L.foldl kpStep acc).1 ≠ [] := by
  intro L
  induction L with
  | nil => intro acc h; exact h
  | cons x xs ih =>
    intro acc h
    rw [List.foldl_cons]
    exact ih _ (kpStep_fst_nonempty acc x h)

theorem kpDedup_cons_ne (b : String) (L : List String) (h : kpCleanItem b ≠ []) :
    kpDedup (b :: L) ≠ [] := by
  unfold kpDedup
  rw [List.foldl_cons]
  apply foldl_kpStep_nonempty
  unfold kpStep
  rw [if_neg h]
  rw [if_neg (by simp)]
  simp

theorem normalizeKeyPointsL_eq (points : List String) :
    normalizeKeyPointsL points = kpDedup (points.flatMap addCandidateStr) := by
  unfold normalizeKeyPointsL normalizeKeyPoints
  simp only [List.flatMap_map]
  rfl

theorem normalizeKeyPointsL_head_ne (b : String) (rest : List String)
    (hb : addCandidateStr b = [b]) (hclean : kpCleanItem b ≠ []) :
    normalizeKeyPointsL (b :: rest) ≠ [] := by
  rw [normalizeKeyPointsL_eq, List.flatMap_cons, hb]
  exact kpDedup_cons_ne b _ hclean

theorem fallbackPointsRaw_head (preferVi : Bool) (nA nD nR nDocs : Nat) :
    ∃ b rest, fallbackPointsRaw preferVi nA nD nR nDocs = b :: rest ∧
      addCandidateStr b = [b] ∧ kpCleanItem b ≠ [] := by
  cases preferVi with
  | true =>
    simp only [fallbackPointsRaw, if_true]
    by_cases hA : nA ≠ 0
    · rw [if_pos hA]
      rw [if_neg (by simp)]
      simp only [List.singleton_append, List.cons_append]
      refine ⟨_, _, rfl, ?_, ?_⟩
      · apply addCandidateStr_eq_self
        · exact sandwich_strip_id "Đã ghi nhận " " đầu việc." nA 'Đ' (by decide)
            (by decide) '.' (by decide) (by decide)
        · exact sandwich_ne_empty _ _ _
        · exact sandwich_not_placeholder _ _ _
            (sandwich_strip_id "Đã ghi nhận " " đầu việc." nA 'Đ' (by decide)
              (by decide) '.' (by decide) (by decide)) (by decide) (by decide)
      · exact kpCleanItem_sandwich_lit _ _ _ 'Đ' (by decide) (by decide)
    · rw [if_neg hA]
      simp only [List.nil_append]
      by_cases hD : nD ≠ 0
      · rw [if_pos hD]
        rw [if_neg (by simp)]
        simp only [List.singleton_append, List.cons_append]
        refine ⟨_, _, rfl, ?_, ?_⟩
        · apply addCandidateStr_eq_self
          · exact sandwich_strip_id "Đã ghi nhận " " quyết định." nD 'Đ' (by decide)
              (by decide) '.' (by decide) (by decide)
          · exact sandwich_ne_empty _ _ _
          · exact sandwich_not_placeholder _ _ _
              (sandwich_strip_id "Đã ghi nhận " " quyết định." nD 'Đ' (by decide)
                (by decide) '.' (by decide) (by decide)) (by decide) (by decide)
        · exact kpCleanItem_sandwich_lit _ _ _ 'Đ' (by decide) (by decide)
      · rw [if_neg hD]
        simp only [List.nil_append]
        by_cases hR : nR ≠ 0
        · rw [if_pos hR]
          rw [if_neg (by simp)]
          simp only [List.singleton_append, List.cons_append]
          refine ⟨_, _, rfl, ?_, ?_⟩
          · apply addCandidateStr_eq_self
            · exact sandwich_strip_id "Đã ghi nhận " " rủi ro." nR 'Đ' (by decide)
                (by decide) '.' (by decide) (by decide)
            · exact sandwich_ne_empty _ _ _
            · exact sandwich_not_placeholder _ _ _
                (sandwich_strip_id "Đã ghi nhận " " rủi ro." nR 'Đ' (by decide)
                  (by decide) '.' (by decide) (by decide)) (by decide) (by decide)
          · exact kpCleanItem_sandwich_lit _ _ _ 'Đ' (by decide) (by decide)
        · rw [if_neg hR]
          simp only [List.nil_append]
          by_cases hDoc : nDocs ≠ 0
          · rw [if_pos hDoc]
            rw [if_neg (by simp)]
            refine ⟨_, _, rfl, ?_, ?_⟩
            · apply addCandidateStr_eq_self
              · exact sandwich_strip_id "Có " " tài liệu tham chiếu liên quan." nDocs
                  'C' (by decide) (by decide) '.' (by decide) (by decide)
              · exact sandwich_ne_empty _ _ _
              · exact sandwich_not_placeholder _ _ _
                  (sandwich_strip_id "Có " " tài liệu tham chiếu liên quan." nDocs
                    'C' (by decide) (by decide) '.' (by decide) (by decide))
                  (by decide) (by decide)
            · exact kpCleanItem_sandwich_lit _ _ _ 'C' (by decide) (by decide)
          · rw [if_neg hDoc]
            rw [if_pos rfl]
            refine ⟨_, [], rfl, ?_, ?_⟩
            · exact addCandidateStr_eq_self (by decide) (by decide) (by decide)
            · decide
  | false =>
    simp only [fallbackPointsRaw, Bool.false_eq_true, if_false]
    by_cases hA : nA ≠ 0
    · rw [if_pos hA]
      rw [if_neg (by simp)]
      simp only [List.singleton_append, List.cons_append]
      refine ⟨_, _, rfl, ?_, ?_⟩
      · apply addCandidateStr_eq_self
        · exact sandwich_strip_id_digit " action item(s) were captured." nA
            '.' (by decide) (by decide)
        · exact sandwich_ne_empty "" _ _
        · exact sandwich_not_placeholder "" " action item(s) were captured." nA
            (sandwich_strip_id_digit " action item(s) were captured." nA
              '.' (by decide) (by decide)) (by decide) (by decide)
      · exact kpCleanItem_digit _ _ (by decide)
    · rw [if_neg hA]
      simp only [List.nil_append]
      by_cases hD : nD ≠ 0
      · rw [if_pos hD]
        rw [if_neg (by simp)]
        simp only [List.singleton_append, List.cons_append]
        refine ⟨_, _, rfl, ?_, ?_⟩
        · apply addCandidateStr_eq_self
          · exact sandwich_strip_id_digit " decision(s) were captured." nD
              '.' (by decide) (by decide)
          · exact sandwich_ne_empty "" _ _
          · exact sandwich_not_placeholder "" " decision(s) were captured." nD
              (sandwich_strip_id_digit " decision(s) were captured." nD
                '.' (by decide) (by decide)) (by decide) (by decide)
        · exact kpCleanItem_digit _ _ (by decide)
      · rw [if_neg hD]
        simp only [List.nil_append]
        by_cases hR : nR ≠ 0
        · rw [if_pos hR]
          rw [if_neg (by simp)]
          simp only [List.singleton_append, List.cons_append]
          refine ⟨_, _, rfl, ?_, ?_⟩
          · apply addCandidateStr_eq_self
            · exact sandwich_strip_id_digit " risk(s) were captured." nR
                '.' (by decide) (by decide)
            · exact sandwich_ne_empty "" _ _
            · exact sandwich_not_placeholder "" " risk(s) were captured." nR
                (sandwich_strip_id_digit " risk(s) were captured." nR
                  '.' (by decide) (by decide)) (by decide) (by decide)
          · exact kpCleanItem_digit _ _ (by decide)
        · rw [if_neg hR]
          simp only [List.nil_append]
          by_cases hDoc : nDocs ≠ 0
          · rw [if_pos hDoc]
            rw [if_neg (by simp)]
            refine ⟨_, _, rfl, ?_, ?_⟩
            · apply addCandidateStr_eq_self
              · exact sandwich_strip_id_digit " reference document(s) are linked." nDocs
                  '.' (by decide) (by decide)
              · exact sandwich_ne_empty "" _ _
              · exact sandwich_not_placeholder "" " reference document(s) are linked." nDocs
                  (sandwich_strip_id_digit " reference document(s) are linked." nDocs
                    '.' (by decide) (by decide)) (by decide) (by decide)
            · exact kpCleanItem_digit _ _ (by decide)
          · rw [if_neg hDoc]
            rw [if_pos rfl]
            refine ⟨_, [], rfl, ?_, ?_⟩
            · exact addCandidateStr_eq_self (by decide) (by decide) (by decide)
            · decide

theorem fallbackKeyPoints_ne_nil (preferVi : Bool) (actionRows : List ActionRow)
    (decisionRows : List DecisionRow) (riskRows : List RiskRow)
    (relatedDocs : List String) :
    fallbackKeyPoints preferVi actionRows decisionRows riskRows relatedDocs ≠ [] := by
  unfold fallbackKeyPoints
  rcases fallbackPointsRaw_head preferVi actionRows.length decisionRows.length
    riskRows.length relatedDocs.length with ⟨b, rest, heq, h1, h2⟩
  rw [heq]
  exact normalizeKeyPointsL_head_ne b (rest.take 4) h1 h2

theorem summaryStage_snd_ne (preferVi : Bool)
    (meetingTitle meetingDesc transcript : String) (relatedDocs : List String)
    (actionRows : List ActionRow) (decisionRows : List DecisionRow)
    (riskRows : List RiskRow) (rawSummary : String) (rawKeyPoints : JValue) :
    (summaryStage preferVi meetingTitle meetingDesc transcript relatedDocs
      actionRows decisionRows riskRows rawSummary rawKeyPoints).2 ≠ [] := by
  simp only [summaryStage]
  by_cases hkp : (if (extractEmbeddedSummaryPayload (pyStrip rawSummary)).2 ≠ [] ∧
      normalizeKeyPoints rawKeyPoints = [] then
      normalizeKeyPointsL (extractEmbeddedSummaryPayload (pyStrip rawSummary)).2
    else normalizeKeyPoints rawKeyPoints) = []
  · rw [if_pos hkp]
    exact fallbackKeyPoints_ne_nil preferVi actionRows decisionRows riskRows relatedDocs
  · rw [if_neg hkp]
    exact hkp

theorem summaryStage_fst_ne (preferVi : Bool)
    (meetingTitle meetingDesc transcript : String) (relatedDocs : List String)
    (actionRows : List ActionRow) (decisionRows : List DecisionRow)
    (riskRows : List RiskRow) (rawSummary : String) (rawKeyPoints : JValue) :
    (summaryStage preferVi meetingTitle meetingDesc transcript relatedDocs
      actionRows decisionRows riskRows rawSummary rawKeyPoints).1 ≠ "" := by
  intro h
  have h2 := summaryStage_fst_strip_ne preferVi meetingTitle meetingDesc transcript
    relatedDocs actionRows decisionRows riskRows rawSummary rawKeyPoints
  rw [h] at h2
  exact h2 rfl

/-- [C1] The fallback synthesis always returns a non-empty summary string
and a non-empty key-points list; the summary/key-points stage of minutes
generation never yields an empty summary or an empty key-points list; and
the final expanded summary handed to the minutes record is never the empty
string. -/
theorem fallback_and_final_nonempty :
    (∀ preferVi meetingTitle meetingDesc transcript relatedDocs,
      fallbackSummary preferVi meetingTitle meetingDesc transcript relatedDocs ≠ "") ∧
    (∀ preferVi actionRows decisionRows riskRows relatedDocs,
      fallbackKeyPoints preferVi actionRows decisionRows riskRows relatedDocs ≠ []) ∧
    (∀ preferVi meetingTitle meetingDesc transcript relatedDocs actionRows
        decisionRows riskRows rawSummary rawKeyPoints,
      (summaryStage preferVi meetingTitle meetingDesc transcript relatedDocs
          actionRows decisionRows riskRows rawSummary rawKeyPoints).1 ≠ "" ∧
        (summaryStage preferVi meetingTitle meetingDesc transcript relatedDocs
          actionRows decisionRows riskRows rawSummary rawKeyPoints).2 ≠ []) ∧
    (∀ preferVi meetingTitle meetingDesc transcript relatedDocs actionRows
        decisionRows riskRows nextSteps topicCount rawSummary rawKeyPoints,
      finalSummary preferVi meetingTitle meetingDesc transcript relatedDocs
        actionRows decisionRows riskRows nextSteps topicCount rawSummary
        rawKeyPoints ≠ "") :=
  ⟨fallbackSummary_ne_empty, fallbackKeyPoints_ne_nil,
   fun preferVi meetingTitle meetingDesc transcript relatedDocs actionRows
       decisionRows riskRows rawSummary rawKeyPoints =>
     ⟨summaryStage_fst_ne preferVi meetingTitle meetingDesc transcript relatedDocs
        actionRows decisionRows riskRows rawSummary rawKeyPoints,
      summaryStage_snd_ne preferVi meetingTitle meetingDesc transcript relatedDocs
        actionRows decisionRows riskRows rawSummary rawKeyPoints⟩,
   finalSummary_ne_empty⟩

end Minutes
